import Mathlib

/-!
The per-URL accumulators of goperf, their merge and their report.

A shallow embedding of the aggregation core of goperf
(`request/combine.go`, `request/structs.go`, `request/fetch.go`,
`request/fetchall.go`, `perf/perf.go`), of the validation of the configuration
(`core/config.go`) and of the pattern-mode extraction of asset URLs
(`httputils/httputils.go`), together with theorems about them.

Conventions of the embedding:

* Go `int`, `int64` and `time.Duration` (nanoseconds) are integers `Int`;
  byte totals, request counts and measured durations are taken in the range
  where the 64-bit arithmetic of the program does not overflow.  The bound
  `maxTime` of a worker is computed from the configured seconds, which the
  user chooses freely, so its product wraps as in Go (`wrapInt64`).
* A Go `map[string]V` is an association list `List (String × V)` with at most
  one pair per key, kept in order of first insertion.  Go leaves the order of
  `range` over a map unspecified; wherever that order reaches an output slice
  the possible outputs are described by a relation that admits every
  reordering (`CombineReturns`).
* A Go run-time panic is `none`, or an `Except.error` where its cause matters.
* What lies outside the program (the HTTP library, `url.Parse`, the HTML
  parser, the clock, the scheduler of the goroutines) is a parameter of the
  function that calls it; the patterns of pattern mode are run by a
  backtracking matcher that follows the leftmost-first semantics of Go's
  `regexp`.
-/

namespace Goperf

/-! ## Go maps with string keys -/

/-- Go `v, ok := m[k]`. -/
def mapGet {ν : Type} : List (String × ν) → String → Option ν
  | [], _ => none
  | (k', v) :: m, k => if k' = k then some v else mapGet m k

/-- Go `m[k] = v`. -/
def mapSet {ν : Type} : List (String × ν) → String → ν → List (String × ν)
  | [], k, v => [(k, v)]
  | (k', v') :: m, k, v => if k' = k then (k', v) :: m else (k', v') :: mapSet m k v

/-- The keys of a map. -/
def mapKeys {ν : Type} (m : List (String × ν)) : List String := m.map Prod.fst

/-- Go `m[k]` for a map of slices: a missing key reads as the nil slice. -/
def mapGetSlice {α : Type} (m : List (String × List α)) (k : String) : List α :=
  (mapGet m k).getD []

/-- Go `m[k] = append(m[k], x)`. -/
def mapAppend {α : Type} (m : List (String × List α)) (k : String) (x : α) :
    List (String × List α) :=
  mapSet m k (mapGetSlice m k ++ [x])

/-! ## request/structs.go -/

/-- The per-URL accumulator `IterateReqResp`. -/
structure IterateReqResp where
  URL : String
  Status : List Int
  RespTimes : List Int
  NumRequests : Int
  Bytes : Int
  deriving DecidableEq, Repr

/-- The result of one worker, or of a merge: `IterateReqRespAll`. -/
structure IterateReqRespAll where
  AvgTotalRespTime : Int
  AvgTotalLinearRespTime : Int
  BaseURL : IterateReqResp
  JSResps : List IterateReqResp
  CSSResps : List IterateReqResp
  IMGResps : List IterateReqResp
  deriving DecidableEq, Repr

/-- The three asset types. -/
inductive AssetType where
  | JS
  | CSS
  | IMG
  deriving DecidableEq, Repr, Fintype

/-- The list of a result for one asset type. -/
def IterateReqRespAll.assets (r : IterateReqRespAll) : AssetType → List IterateReqResp
  | .JS => r.JSResps
  | .CSS => r.CSSResps
  | .IMG => r.IMGResps

/-! ## request/combine.go -/

/-- Go integer division `a / b`: truncating, and a panic when `b` is zero. -/
def goDiv (a b : Int) : Option Int :=
  if b = 0 then none else some (Int.tdiv a b)

/-- The local variables of `Combine` that its loop over `results` updates. -/
structure CombineState where
  totalReqs : Int
  baseStatus : List Int
  baseRespTimes : List Int
  baseBytes : Int
  jsResps : List (String × List IterateReqResp)
  cssResps : List (String × List IterateReqResp)
  imgResps : List (String × List IterateReqResp)
  totalAvglRespTimes : Int
  totalAvgLinearlRespTimes : Int
  count : Int

/-- The values of the locals before the loop (lines 12-22). -/
def combineInit : CombineState :=
  { totalReqs := 0, baseStatus := [], baseRespTimes := [], baseBytes := 0,
    jsResps := [], cssResps := [], imgResps := [],
    totalAvglRespTimes := 0, totalAvgLinearlRespTimes := 0, count := 0 }

/-- One inner loop `for _, r := range list { m[r.URL] = append(m[r.URL], r) }`. -/
def gatherByURL (m : List (String × List IterateReqResp)) (list : List IterateReqResp) :
    List (String × List IterateReqResp) :=
  list.foldl (fun acc r => mapAppend acc r.URL r) m

/-- One iteration of the loop over `results` (lines 23-42). -/
def combineStep (st : CombineState) (resp : IterateReqRespAll) : CombineState :=
  { totalReqs := st.totalReqs + resp.BaseURL.Status.length
    baseStatus := st.baseStatus ++ resp.BaseURL.Status
    baseRespTimes := st.baseRespTimes ++ resp.BaseURL.RespTimes
    baseBytes := st.baseBytes + resp.BaseURL.Bytes
    totalAvglRespTimes := st.totalAvglRespTimes + resp.AvgTotalRespTime
    totalAvgLinearlRespTimes := st.totalAvgLinearlRespTimes + resp.AvgTotalLinearRespTime
    count := st.count + 1
    jsResps := gatherByURL st.jsResps resp.JSResps
    cssResps := gatherByURL st.cssResps resp.CSSResps
    imgResps := gatherByURL st.imgResps resp.IMGResps }

/-- The locals of the closure `combine` for one key: status, respTimes, bytes
after the loop over the entries `v` of the key (lines 50-57). -/
def mergeEntries (v : List IterateReqResp) : List Int × List Int × Int :=
  v.foldl (fun acc resp =>
    (acc.1 ++ resp.Status, acc.2.1 ++ resp.RespTimes, acc.2.2 + resp.Bytes)) ([], [], 0)

/-- The accumulator that `combine` appends for key `k` with entries `v`
(lines 58-64). -/
def mergedEntry (k : String) (v : List IterateReqResp) : IterateReqResp :=
  { URL := k
    Status := (mergeEntries v).1
    RespTimes := (mergeEntries v).2.1
    NumRequests := ((mergeEntries v).1.length : Int)
    Bytes := (mergeEntries v).2.2 }

/-- The closure `combine` (lines 47-67), ranging over the map in the order of
the association list. -/
def combine (resps : List (String × List IterateReqResp)) : List IterateReqResp :=
  resps.foldl (fun allResps kv => allResps ++ [mergedEntry kv.1 kv.2]) []

/-- The function `Combine` (lines 11-83) with the maps ranged over in insertion order.
`none` is the panic of the division by `count = 0` (line 44), the only one
that can occur: `results[0]` is read only after it. -/
def Combine (results : List IterateReqRespAll) : Option IterateReqRespAll :=
  let st := results.foldl combineStep combineInit
  (goDiv st.totalAvglRespTimes st.count).bind fun avgTotalRespTimes =>
  (goDiv st.totalAvgLinearlRespTimes st.count).bind fun avgTotalLinearRespTimes =>
  results.head?.bind fun first =>
  some
    { AvgTotalRespTime := avgTotalRespTimes
      AvgTotalLinearRespTime := avgTotalLinearRespTimes
      BaseURL :=
        { URL := first.BaseURL.URL
          Status := st.baseStatus
          RespTimes := st.baseRespTimes
          NumRequests := (st.baseStatus.length : Int)
          Bytes := st.baseBytes }
      JSResps := combine st.jsResps
      CSSResps := combine st.cssResps
      IMGResps := combine st.imgResps }

/-- The results that a call `Combine(results)` can return: the three output
slices are built by ranging over Go maps, so each may come out in any order. -/
def CombineReturns (results : List IterateReqRespAll) (out : IterateReqRespAll) : Prop :=
  ∃ r, Combine results = some r ∧
    out.AvgTotalRespTime = r.AvgTotalRespTime ∧
    out.AvgTotalLinearRespTime = r.AvgTotalLinearRespTime ∧
    out.BaseURL = r.BaseURL ∧
    ∀ t : AssetType, (out.assets t).Perm (r.assets t)

/-! ## The merge rule in closed form -/

/-- The entries of a list that carry the URL `u`, in list order. -/
def entriesOf (l : List IterateReqResp) (u : String) : List IterateReqResp :=
  l.filter (fun e => e.URL = u)

/-- All accumulators of one asset type in a list of worker results, worker by
worker. -/
def allAssets (results : List IterateReqRespAll) (t : AssetType) : List IterateReqResp :=
  results.flatMap (fun r => r.assets t)

/-- The base-page accumulators of a list of worker results. -/
def allBases (results : List IterateReqRespAll) : List IterateReqResp :=
  results.map (fun r => r.BaseURL)

/-- The concatenation of the status sequences of a list of accumulators. -/
def concatStatus (l : List IterateReqResp) : List Int := l.flatMap (fun e => e.Status)

/-- The concatenation of the duration sequences of a list of accumulators. -/
def concatRespTimes (l : List IterateReqResp) : List Int := l.flatMap (fun e => e.RespTimes)

/-- The sum of the byte totals of a list of accumulators. -/
def sumBytes (l : List IterateReqResp) : Int := (l.map (fun e => e.Bytes)).sum

/-- The sum of the request counters of a list of accumulators. -/
def sumNumRequests (l : List IterateReqResp) : Int := (l.map (fun e => e.NumRequests)).sum

/-- The merge rule for the accumulators `v` that share the URL `u`: statuses
and durations concatenated in order, bytes summed, the request counter set to
the number of statuses. -/
def mergeOf (u : String) (v : List IterateReqResp) : IterateReqResp :=
  { URL := u
    Status := concatStatus v
    RespTimes := concatRespTimes v
    NumRequests := ((concatStatus v).length : Int)
    Bytes := sumBytes v }

/-- The list `out` is a merge of the list `l`: it has one entry per URL of `l`
and no other, and the entry for a URL is the merge of the entries of `l` with
that URL. -/
def MergedFrom (l out : List IterateReqResp) : Prop :=
  (out.map (fun e => e.URL)).Nodup ∧
    ∀ e, e ∈ out ↔ e.URL ∈ l.map (fun e => e.URL) ∧ e = mergeOf e.URL (entriesOf l e.URL)

/-- Two lists of accumulators carry the same URLs and, for every URL, the same
status sequence, duration sequence and byte total. -/
def SameTotals (l l' : List IterateReqResp) : Prop :=
  ∀ u, (u ∈ l.map (fun e => e.URL) ↔ u ∈ l'.map (fun e => e.URL)) ∧
    concatStatus (entriesOf l u) = concatStatus (entriesOf l' u) ∧
    concatRespTimes (entriesOf l u) = concatRespTimes (entriesOf l' u) ∧
    sumBytes (entriesOf l u) = sumBytes (entriesOf l' u)

/-- The totals of an accumulator that a report shows: URL, byte total and
request count. -/
def totalsOf (e : IterateReqResp) : String × Int × Int := (e.URL, e.Bytes, e.NumRequests)

/-! ## request/fetch.go, request/fetchall.go: the response types -/

/-- The result of one fetch, `FetchResponse` (the field `Resp`, a pointer to
the `http.Response`, is not read by the code modelled here and is left out). -/
structure FetchResponse where
  URL : String
  Body : String
  Headers : List (String × List String)
  Bytes : Int
  Runes : Int
  Time : Int
  Status : Int
  Error : String
  deriving DecidableEq, Repr

/-- The result of one round, `FetchAllResponse`. -/
structure FetchAllResponse where
  BaseURL : FetchResponse
  Time : Int
  TotalTime : Int
  TotalLinearTime : Int
  TotalBytes : Int
  JSResponses : List FetchResponse
  IMGResponses : List FetchResponse
  CSSResponses : List FetchResponse
  Body : String
  deriving DecidableEq, Repr

/-! ## perf/perf.go: the worker loop -/

/-- One iteration of the loop of `gatherStats` (lines 323-335): the accumulator
of the URL is created at its first sighting, then its counter is incremented,
the status and the duration are appended and the bytes are added.  The map
holds pointers in the source; no pointer is shared, so it holds values here. -/
def gatherStatsStep (respMap : List (String × IterateReqResp)) (r : FetchResponse) :
    List (String × IterateReqResp) :=
  let respMap₁ :=
    match mapGet respMap r.URL with
    | none => mapSet respMap r.URL
        { URL := r.URL, Status := [], RespTimes := [], NumRequests := 0, Bytes := 0 }
    | some _ => respMap
  match mapGet respMap₁ r.URL with
  | none => respMap₁
  | some acc =>
    mapSet respMap₁ r.URL
      { URL := acc.URL
        Status := acc.Status ++ [r.Status]
        RespTimes := acc.RespTimes ++ [r.Time]
        NumRequests := acc.NumRequests + 1
        Bytes := acc.Bytes + r.Bytes }

/-- The function `gatherStats` (lines 321-336). -/
def gatherStats (resps : List FetchResponse) (respMap : List (String × IterateReqResp)) :
    List (String × IterateReqResp) :=
  resps.foldl gatherStatsStep respMap

/-- The local variables of `iterateRequest` that its loop updates. -/
structure IterateState where
  resp : IterateReqResp
  jsMap : List (String × IterateReqResp)
  cssMap : List (String × IterateReqResp)
  imgMap : List (String × IterateReqResp)
  totalRespTimes : Int
  totalLinearRespTimes : Int
  count : Int
  deriving DecidableEq, Repr

/-- The locals of `iterateRequest` before the loop (lines 83-92). -/
def iterateInit (url : String) : IterateState :=
  { resp := { URL := url, Status := [], RespTimes := [], NumRequests := 0, Bytes := 0 }
    jsMap := [], cssMap := [], imgMap := []
    totalRespTimes := 0, totalLinearRespTimes := 0, count := 0 }

/-- The body of the loop of `iterateRequest` up to `count++` (lines 96-115),
given the result `fetchAllResp` of the call of `FetchAll` of this round;
`gatherAllStats` (lines 309-319) is the three calls of `gatherStats`. -/
def iterateRound (st : IterateState) (fetchAllResp : FetchAllResponse) : IterateState :=
  { resp :=
      { URL := st.resp.URL
        Status := st.resp.Status ++ [fetchAllResp.BaseURL.Status]
        RespTimes := st.resp.RespTimes ++ [fetchAllResp.BaseURL.Time]
        NumRequests := st.resp.NumRequests
        Bytes := fetchAllResp.TotalBytes }
    totalRespTimes := st.totalRespTimes + fetchAllResp.TotalTime
    totalLinearRespTimes := st.totalLinearRespTimes + fetchAllResp.TotalLinearTime
    jsMap := gatherStats fetchAllResp.JSResponses st.jsMap
    cssMap := gatherStats fetchAllResp.CSSResponses st.cssMap
    imgMap := gatherStats fetchAllResp.IMGResponses st.imgMap
    count := st.count + 1 }

/-- The loop of `iterateRequest` (lines 94-119).  The run of the program is
given by the list of what each round observes: the result of `FetchAll` and
the elapsed time `time.Since(start)` read after it.  The loop leaves at the
first round whose elapsed time exceeds `maxTime`; `none` says that the list
ends before the loop does. -/
def iterateLoop (maxTime : Int) : List (FetchAllResponse × Int) → IterateState →
    Option IterateState
  | [], _ => none
  | (fetchAllResp, elapsedTime) :: rest, st =>
    if elapsedTime > maxTime then some (iterateRound st fetchAllResp)
    else iterateLoop maxTime rest (iterateRound st fetchAllResp)

/-- The value that Go keeps of an `int64` result `x`: the arithmetic wraps
around modulo 2^64 into the range from -2^63 to 2^63 - 1. -/
def wrapInt64 (x : Int) : Int :=
  (x + 9223372036854775808) % 18446744073709551616 - 9223372036854775808

/-- Go `time.Second` (standard library), in nanoseconds. -/
def Second : Int := 1000000000

/-- The local `maxTime` of `iterateRequest` (line 80),
`time.Duration(sec) * time.Second`: a product of two `int64`, which wraps. -/
def maxTime (sec : Int) : Int := wrapInt64 (sec * Second)

/-- The function `iterateRequest` (lines 70-149) for the URL `url` and the duration `sec`
in seconds, with the maps ranged over in insertion order; the result comes
with the number of rounds `count`.  Durations are nanoseconds. -/
def iterateRequest (url : String) (sec : Int) (rounds : List (FetchAllResponse × Int)) :
    Option (IterateReqRespAll × Int) :=
  (iterateLoop (maxTime sec) rounds (iterateInit url)).bind fun st =>
  (goDiv st.totalRespTimes st.count).bind fun avgTotalRespTimes =>
  (goDiv st.totalLinearRespTimes st.count).bind fun avgTotalLinearRespTimes =>
  some
    ({ BaseURL := st.resp
       AvgTotalRespTime := avgTotalRespTimes
       AvgTotalLinearRespTime := avgTotalLinearRespTimes
       JSResps := st.jsMap.map Prod.snd
       CSSResps := st.cssMap.map Prod.snd
       IMGResps := st.imgMap.map Prod.snd }, st.count)

/-- The results that a call of `iterateRequest` can return together with the
number of its rounds: the three lists are built by ranging over Go maps, so
each may come out in any order. -/
def IterateRequestReturns (url : String) (sec : Int) (rounds : List (FetchAllResponse × Int))
    (out : IterateReqRespAll) (n : Int) : Prop :=
  ∃ r, iterateRequest url sec rounds = some (r, n) ∧
    out.AvgTotalRespTime = r.AvgTotalRespTime ∧
    out.AvgTotalLinearRespTime = r.AvgTotalLinearRespTime ∧
    out.BaseURL = r.BaseURL ∧
    ∀ t : AssetType, (out.assets t).Perm (r.assets t)

/-! ## perf/perf.go: the report of one accumulator -/

/-- The character of the decimal digit `d`. -/
def digitChar (d : Nat) : Char := Char.ofNat (48 + d)

/-- The decimal digits of `n`, most significant first; `fuel` bounds the
number of digits and `n + 1` is always enough. -/
def formatDigits : Nat → Nat → List Char
  | 0, _ => []
  | fuel + 1, n =>
    if n < 10 then [digitChar n] else formatDigits fuel (n / 10) ++ [digitChar (n % 10)]

/-- Go `strconv.Itoa` (standard library): the decimal form of an integer, with
a leading minus sign when it is negative. -/
def Itoa (i : Int) : String :=
  if i < 0 then String.mk ('-' :: formatDigits (i.natAbs + 1) i.natAbs)
  else String.mk (formatDigits (i.natAbs + 1) i.natAbs)

/-- The loop `for _, x := range xs { m[key(x)] = append(m[key(x)], x) }`. -/
def groupInto {α : Type} (key : α → String) (m : List (String × List α)) (xs : List α) :
    List (String × List α) :=
  xs.foldl (fun acc x => mapAppend acc (key x) x) m

/-- The function `procResult` (lines 288-307): the average duration and the status
histogram of an accumulator.  `none` is the panic of the integer division by
`len(resp.Status) = 0` (line 293).  The histogram is a Go map, given by its
association list. -/
def procResult (resp : IterateReqResp) : Option (Int × List (String × Int)) :=
  let totalTime := resp.RespTimes.foldl (fun acc val => acc + val) 0
  (goDiv totalTime (resp.Status.length : Int)).bind fun avgDuration =>
  let statusCodes := groupInto Itoa [] resp.Status
  let statusMap := (mapKeys statusCodes).foldl
    (fun sm key => mapSet sm key ((mapGetSlice statusCodes key).length : Int)) []
  some (avgDuration, statusMap)

/-! ## request/fetchall.go: the resolver of asset URLs -/

/-- The constant `HTTPProtocolLength` (request/constants.go). -/
def HTTPProtocolLength : Nat := 4

/-- The constant `HTTPScheme` (request/constants.go). -/
def HTTPScheme : String := "http"

/-- The constant `PathSeparator` (request/constants.go). -/
def PathSeparator : String := "/"

/-- The fields of Go's `url.URL` that `DefineAssetURL` reads. -/
structure URL where
  Scheme : String
  Host : String
  deriving DecidableEq, Repr

/-- Go `validOptionalPort` (net/url): the text is empty, or a colon followed
by decimal digits only. -/
def validOptionalPort : List Char → Bool
  | [] => true
  | c :: cs => c == ':' && cs.all (fun b => '0' ≤ b && b ≤ '9')

/-- The split of a host at its last colon: the text before it and the text
from it on; `none` when there is no colon. -/
def splitLastColon : List Char → Option (List Char × List Char)
  | [] => none
  | c :: cs =>
    match splitLastColon cs with
    | some (before, fromColon) => some (c :: before, fromColon)
    | none => if c = ':' then some ([], c :: cs) else none

/-- Go `(*URL).Hostname` (net/url): the host without a valid port and without
the square brackets of an IPv6 literal. -/
def URL.Hostname (u : URL) : String :=
  let host :=
    match splitLastColon u.Host.data with
    | some (before, fromColon) => if validOptionalPort fromColon then before else u.Host.data
    | none => u.Host.data
  if host.head? = some '[' ∧ host.getLast? = some ']' then
    String.mk (host.tail.dropLast)
  else String.mk host

/-- The ways in which `DefineAssetURL` panics. -/
inductive AssetURLPanic where
  | sliceOutOfRange
  | parseFailure (err : String)
  deriving DecidableEq, Repr

/-- The function `DefineAssetURL` (lines 160-181).  Go's `url.Parse` is the parameter
`parse`.  Go strings are byte sequences: `asseturl[:4]` panics when the asset
URL has fewer than four bytes, and it equals "http" exactly when the first
four characters are `h`, `t`, `t`, `p`; once four bytes are there
`asseturl[0]` cannot fail, and it is the byte of `/` exactly when the first
character is `/`. -/
def DefineAssetURL (parse : String → Except String URL) (baseURL asseturl : String) :
    Except AssetURLPanic String :=
  if asseturl.utf8ByteSize < HTTPProtocolLength then .error .sliceOutOfRange
  else if asseturl.data.take HTTPProtocolLength = HTTPScheme.data then .ok asseturl
  else
    match parse baseURL with
    | .error err => .error (.parseFailure err)
    | .ok u =>
      let baseURL := u.Scheme ++ "://" ++ u.Hostname
      if asseturl.data.head? = some '/' then .ok (baseURL ++ asseturl)
      else .ok (baseURL ++ PathSeparator ++ asseturl)

/-- The number that a list of decimal digit characters denotes. -/
def parseDigits (cs : List Char) : Nat :=
  cs.foldl (fun acc c => 10 * acc + (c.toNat - 48)) 0

/-! ## request/fetch.go: one fetch -/

/-- The input of `Fetch`, `FetchInput`. -/
structure FetchInput where
  BaseURL : String
  Retdat : Bool
  Cookies : String
  Headers : String
  UserAgent : String
  deriving DecidableEq, Repr

/-- The constant `HTTPStatusConnectionError` (request/constants.go). -/
def HTTPStatusConnectionError : Int := -100

/-- The constant `ErrorRequestFailed` (request/constants.go). -/
def ErrorRequestFailed : String := "Request failed"

/-- The constant `DefaultEmptyString` (request/constants.go). -/
def DefaultEmptyString : String := ""

/-- What the HTTP library does during one call of `Fetch`: `http.NewRequest`
rejects the URL and returns a nil request (`requestError`); or `client.Do`
returns an error (`transportError`); or `client.Do` returns a response with a
status code and a header after `responseTime` nanoseconds, and `io.ReadAll`
then gives the body or an error (`response`). -/
inductive Exchange where
  | requestError (err : String)
  | transportError (err : String)
  | response (StatusCode : Int) (Header : List (String × List String)) (responseTime : Int)
      (read : Except String String)
  deriving Repr

/-- The function `Fetch` (lines 57-122) for the exchange that the HTTP library
performs.  `none` is the panic of `req.Header.Add` (line 74, or line 69) on
the nil request that `http.NewRequest` returns with its discarded error.
`Bytes` is the byte length of the body and `Runes` its number of characters.
An empty Go map and a nil map are both the empty list. -/
def Fetch (input : FetchInput) : Exchange → Option FetchResponse
  | .requestError _ => none
  | .transportError err =>
    some
      { URL := err, Body := "", Headers := [], Bytes := 0, Runes := 0, Time := 0,
        Status := HTTPStatusConnectionError, Error := ErrorRequestFailed }
  | .response StatusCode Header responseTime read =>
    let body := match read with
      | .ok b => b
      | .error _ => ""
    let Error := match read with
      | .ok _ => ""
      | .error err => err
    let output : FetchResponse :=
      { URL := input.BaseURL, Body := body, Headers := Header
        Bytes := (body.utf8ByteSize : Int), Runes := (body.length : Int)
        Time := responseTime, Status := StatusCode, Error := Error }
    if input.Retdat = false then
      some { output with Body := DefaultEmptyString, Headers := [] }
    else some output

/-! ## request/fetchall.go: one round -/

/-- The function `GoFetchAllAssetArray` (lines 185-204): every file is
resolved against the base URL and fetched with the input of the caller, in a
goroutine of its own; `exchange i` is what the HTTP library does for the file
at index `i`.  The responses are received channel by channel, so they come in
the order of `files`.  A panic of `DefineAssetURL` or of `Fetch` in a
goroutine ends the program: `none`. -/
def GoFetchAllAssetArray (parse : String → Except String URL) (input : FetchInput)
    (exchange : Nat → Exchange) : Nat → List String → Option (List FetchResponse)
  | _, [] => some []
  | i, assetURL :: files =>
    match DefineAssetURL parse input.BaseURL assetURL with
    | .error _ => none
    | .ok resolved =>
      (Fetch { input with BaseURL := resolved } (exchange i)).bind fun r =>
      (GoFetchAllAssetArray parse input exchange (i + 1) files).bind fun rs =>
      some (r :: rs)

/-- The closure `calcTotal` of `FetchAll` (lines 81-89). -/
def calcTotal (resp : List FetchResponse) : Int × Int :=
  resp.foldl (fun acc val => (acc.1 + val.Time, acc.2 + val.Bytes)) (0, 0)

/-- The function `FetchAll` (lines 43-111).  The parameters besides the input
are: Go's `url.Parse`; `httputils.GetAssets`, which gives the js, img and css
files of a body in this order; what the HTTP library does for the base page
and for the file at each index of each asset type; and the wall time
`totalTime2` of the round.  `none` is a panic of one of the fetches. -/
def FetchAll (parse : String → Except String URL)
    (getAssets : String → List String × List String × List String)
    (baseExchange : Exchange) (assetExchange : AssetType → Nat → Exchange) (totalTime2 : Int)
    (input : FetchInput) : Option FetchAllResponse :=
  let retdat := input.Retdat
  let input := { input with Retdat := true }
  (Fetch input baseExchange).bind fun output =>
  let jsfiles := (getAssets output.Body).1
  let imgfiles := (getAssets output.Body).2.1
  let cssfiles := (getAssets output.Body).2.2
  (GoFetchAllAssetArray parse input (assetExchange .JS) 0 jsfiles).bind fun jsResponses =>
  (GoFetchAllAssetArray parse input (assetExchange .IMG) 0 imgfiles).bind fun imgResponses =>
  (GoFetchAllAssetArray parse input (assetExchange .CSS) 0 cssfiles).bind fun cssResponses =>
  let output : FetchResponse :=
    if retdat = false then { output with Body := DefaultEmptyString, Headers := [] }
    else output
  let totalLinearTime :=
    output.Time + (calcTotal jsResponses).1 + (calcTotal cssResponses).1 +
      (calcTotal imgResponses).1
  let totalBytes :=
    output.Bytes + (calcTotal jsResponses).2 + (calcTotal cssResponses).2 +
      (calcTotal imgResponses).2
  some
    { BaseURL := output
      Time := output.Time
      TotalTime := totalTime2
      TotalLinearTime := totalLinearTime
      TotalBytes := totalBytes
      Body := output.Body
      JSResponses := jsResponses
      IMGResponses := imgResponses
      CSSResponses := cssResponses }

/-! ## core/config.go: the validation of the configuration -/

/-- The HTTP client configuration, `HTTPConfig`; durations are nanoseconds. -/
structure HTTPConfig where
  Timeout : Int
  MaxConnections : Int
  RetryAttempts : Int
  UserAgent : String
  deriving DecidableEq, Repr

/-- The load testing configuration, `TestConfig`. -/
structure TestConfig where
  DefaultUsers : Int
  DefaultDuration : Int
  DefaultURL : String
  OutputFile : String
  Iterations : Int
  OutputInterval : Int
  deriving DecidableEq, Repr

/-- The logging configuration, `LogConfig`. -/
structure LogConfig where
  Level : String
  Format : String
  Output : String
  deriving DecidableEq, Repr

/-- The web server configuration, `WebConfig`. -/
structure WebConfig where
  Port : Int
  CORS : List String
  Enabled : Bool
  APIPath : String
  deriving DecidableEq, Repr

/-- The asset parsing configuration, `ParserConfig`. -/
structure ParserConfig where
  Method : String
  Concurrent : Bool
  RegexLimit : Int
  deriving DecidableEq, Repr

/-- The output configuration, `OutputConfig`. -/
structure OutputConfig where
  Format : String
  Colors : Bool
  Indentation : String
  deriving DecidableEq, Repr

/-- The application configuration, `Config`. -/
structure Config where
  HTTP : HTTPConfig
  Test : TestConfig
  Log : LogConfig
  Web : WebConfig
  Parser : ParserConfig
  Output : OutputConfig
  deriving DecidableEq, Repr

/-- The constant `MinPortNumber` (core/constants.go). -/
def MinPortNumber : Int := 1

/-- The constant `MaxPortNumber` (core/constants.go). -/
def MaxPortNumber : Int := 65535

/-- The method `Config.Validate` (lines 222-240): the error it returns, or
`none` for nil. -/
def Config.Validate (c : Config) : Option String :=
  if c.HTTP.Timeout ≤ 0 then some "HTTP timeout must be positive"
  else if c.HTTP.MaxConnections ≤ 0 then some "max connections must be positive"
  else if c.Test.DefaultUsers ≤ 0 then some "default users must be positive"
  else if c.Web.Port < MinPortNumber ∨ c.Web.Port > MaxPortNumber then
    some "web port must be between 1 and 65535"
  else none

/-- The function `DefaultConfig` (lines 102-140) with the constants of
core/constants.go. -/
def DefaultConfig : Config :=
  { HTTP :=
      { Timeout := 30 * 1000000000, MaxConnections := 100, RetryAttempts := 3,
        UserAgent := "goperf" }
    Test :=
      { DefaultUsers := 1, DefaultDuration := 2 * 1000000000,
        DefaultURL := "https://httpbin.org/get", OutputFile := "./output.json",
        Iterations := 1000, OutputInterval := 5 }
    Log := { Level := "info", Format := "text", Output := "stdout" }
    Web :=
      { Port := 8080, CORS := ["*", "http://localhost:8080"], Enabled := false,
        APIPath := "/api/" }
    Parser := { Method := "dom", Concurrent := true, RegexLimit := -10 }
    Output := { Format := "text", Colors := true, Indentation := "    " } }

/-- The end of `LoadConfig` (lines 93-98) for the configuration `loaded` that
the three loading steps leave; `LoadFromFile`, `LoadFromEnv` and
`LoadFromFlags` return nil on every path, so the validation is the only
source of an error. -/
def LoadConfig (loaded : Config) : Except String Config :=
  match loaded.Validate with
  | some err => .error ("configuration validation failed: " ++ err)
  | none => .ok loaded

/-! ## perf/perf.go: the workers of `Basic` -/

/-- Where the goroutine of one worker of `Basic` stands (lines 41-57):
spawned; after its warm-up request, with the cookie written; inside
`iterateRequest`, which has read `input.Cookies` into its local `cookies`
(line 76) and sends this cookie in every round; or returned without a run
because the warm-up request got no response. -/
inductive WorkerPhase where
  | spawned
  | warmedUp
  | running (cookies : String)
  | gaveUp
  deriving DecidableEq, Repr

/-- The state that the goroutines of `Basic` share, the field `Cookies` of
the one `*Init` they all hold, and the phase of each worker. -/
structure BasicState where
  Cookies : String
  workers : List WorkerPhase
  deriving DecidableEq, Repr

/-- One step of worker `i`.  `warmUp i` is what its warm-up request gets:
`none` for no response, else the values of the `Set-Cookie` header.  A
spawned worker writes the first value into the shared `input.Cookies`
(line 53); a warmed-up worker enters `iterateRequest` and reads the shared
field. -/
def basicStep (warmUp : Nat → Option (List String)) (st : BasicState) (i : Nat) : BasicState :=
  match st.workers.get? i with
  | some .spawned =>
    match warmUp i with
    | none => { st with workers := st.workers.set i .gaveUp }
    | some [] => { st with workers := st.workers.set i .warmedUp }
    | some (c :: _) => { Cookies := c, workers := st.workers.set i .warmedUp }
  | some .warmedUp => { st with workers := st.workers.set i (.running st.Cookies) }
  | _ => st

/-- The goroutines of `Basic` for `threads` workers, run in the order that the
scheduler picks: `schedule` lists, step by step, the worker that moves. -/
def basicRun (warmUp : Nat → Option (List String)) (threads : Nat) (cookies : String)
    (schedule : List Nat) : BasicState :=
  schedule.foldl (basicStep warmUp)
    { Cookies := cookies, workers := List.replicate threads .spawned }

/-! ## httputils/httputils.go: pattern-mode extraction -/

/-- The fragment of the syntax of Go's `regexp` package (standard library)
that the four patterns of httputils/constants.go use: a literal text, a
character class given by its members, the greedy `*` and the greedy `?` of a
character class, the lazy `.*?`, a capturing group, and the concatenation. -/
inductive Regex where
  | lit (s : String)
  | oneOf (cs : List Char)
  | star (cs : List Char)
  | opt (cs : List Char)
  | lazyAny
  | group (r : Regex)
  | seq (a b : Regex)
  deriving DecidableEq, Repr

/-- The text `input` without its prefix `p`, if it begins with `p`. -/
def dropPrefix : List Char → List Char → Option (List Char)
  | [], input => some input
  | _ :: _, [] => none
  | p :: ps, c :: cs => if p = c then dropPrefix ps cs else none

/-- The lazy `.*?` followed by the rest `k` of the pattern: the rest is tried
first on the text as it stands and then after one more character, for as long
as the characters are not the line feed, which `.` does not match.  `acc` is
the text that `.*?` has consumed. -/
def lazyAnyK {α : Type} (k : List Char → List Char → Option α) :
    List Char → List Char → Option α
  | acc, [] => k acc []
  | acc, c :: cs =>
    (k acc (c :: cs)).orElse fun _ =>
      if c = '\n' then none else lazyAnyK k (acc ++ [c]) cs

/-- The greedy `*` of the character class `cs` followed by the rest `k` of the
pattern: one more character of the class is taken first, and the rest is
tried on the text as it stands only when that fails.  `acc` is the text that
the `*` has consumed. -/
def starK {α : Type} (cs : List Char) (k : List Char → List Char → Option α) :
    List Char → List Char → Option α
  | acc, [] => k acc []
  | acc, c :: rest =>
    if c ∈ cs then (starK cs k (acc ++ [c]) rest).orElse fun _ => k acc (c :: rest)
    else k acc (c :: rest)

/-- The match of a pattern at the start of a text, as a backtracking matcher
finds it: the first one in the order of preference, which is the match that
`regexp` reports (leftmost-first semantics).  The continuation `k` stands for
what follows the pattern; it gets the text consumed, the texts of the groups
in the order of their opening parentheses, and the text that is left. -/
def Regex.matchK {α : Type} :
    Regex → List Char → (List Char → List (List Char) → List Char → Option α) → Option α
  | .lit s, input, k =>
    match dropPrefix s.data input with
    | some rest => k s.data [] rest
    | none => none
  | .oneOf _, [], _ => none
  | .oneOf cs, c :: rest, k => if c ∈ cs then k [c] [] rest else none
  | .star cs, input, k => starK cs (fun consumed rest => k consumed [] rest) [] input
  | .opt _, [], k => k [] [] []
  | .opt cs, c :: rest, k =>
    if c ∈ cs then (k [c] [] rest).orElse fun _ => k [] [] (c :: rest)
    else k [] [] (c :: rest)
  | .lazyAny, input, k => lazyAnyK (fun consumed rest => k consumed [] rest) [] input
  | .group r, input, k =>
    r.matchK input (fun consumed caps rest => k consumed (consumed :: caps) rest)
  | .seq a b, input, k =>
    a.matchK input (fun c₁ caps₁ rest₁ =>
      b.matchK rest₁ (fun c₂ caps₂ rest₂ => k (c₁ ++ c₂) (caps₁ ++ caps₂) rest₂))

/-- The match of a pattern at the start of a text: the text matched, the
texts of the groups, and the text that is left. -/
def Regex.matchAt (re : Regex) (input : List Char) :
    Option (List Char × List (List Char) × List Char) :=
  re.matchK input (fun consumed caps rest => some (consumed, caps, rest))

/-- All successive matches of a pattern in a text, each with the texts of its
groups after it, for a pattern that does not match the empty text: the text
is searched from left to right, and after a match the search goes on behind
it (`skip` counts the characters of the last match that are still to be
passed). -/
def findAllSubmatch (re : Regex) : Nat → List Char → List (List (List Char))
  | _, [] => []
  | skip + 1, _ :: cs => findAllSubmatch re skip cs
  | 0, c :: cs =>
    match re.matchAt (c :: cs) with
    | some (consumed, caps, _) =>
      (consumed :: caps) :: findAllSubmatch re (consumed.length - 1) cs
    | none => findAllSubmatch re 0 cs

/-- Go `(*Regexp).FindAllStringSubmatch(body, n)`: all matches when `n` is
negative, else at most `n` of them. -/
def FindAllStringSubmatch (re : Regex) (body : String) (n : Int) : List (List (List Char)) :=
  if n < 0 then findAllSubmatch re 0 body.data
  else (findAllSubmatch re 0 body.data).take n.toNat

/-- The constant `RegexMatchLimit` (httputils/constants.go). -/
def RegexMatchLimit : Int := -10

/-- The constant `ScriptSrcPattern` (httputils/constants.go), compiled: the
text of the pattern is `<script`, `.*?`, `src=`, a class of the two quote
characters (the class lists the double quote, the single quote and the
escaped single quote), the group `(.*?)`, the class again, `.*?` and `>`. -/
def ScriptSrcPattern : Regex :=
  .seq (.lit "<script") (.seq .lazyAny (.seq (.lit "src=") (.seq (.oneOf ['"', '\''])
    (.seq (.group .lazyAny) (.seq (.oneOf ['"', '\'']) (.seq .lazyAny (.lit ">")))))))

/-- The constant `LinkHrefPattern` (httputils/constants.go), compiled:
`<link`, `.*?`, `href=`, the class of the two quote characters, the group
`(.*?)`, the class again, `.*?` and `>`. -/
def LinkHrefPattern : Regex :=
  .seq (.lit "<link") (.seq .lazyAny (.seq (.lit "href=") (.seq (.oneOf ['"', '\''])
    (.seq (.group .lazyAny) (.seq (.oneOf ['"', '\'']) (.seq .lazyAny (.lit ">")))))))

/-- The constant `ImageSrcPattern` (httputils/constants.go), compiled: `<img`,
`.*?`, `src=`, the class of the two quote characters, the group `(.*?)`, the
class again, `.*?` and `>`. -/
def ImageSrcPattern : Regex :=
  .seq (.lit "<img") (.seq .lazyAny (.seq (.lit "src=") (.seq (.oneOf ['"', '\''])
    (.seq (.group .lazyAny) (.seq (.oneOf ['"', '\'']) (.seq .lazyAny (.lit ">")))))))

/-- The members of the class `\s` of `regexp`: tab, line feed, form feed,
carriage return and space. -/
def whitespace : List Char := ['\t', '\n', '\x0c', '\r', ' ']

/-- The constant `BackgroundImagePattern` (httputils/constants.go), compiled:
`background-image`, `\s*`, `:`, `\s*`, `url` and the escaped opening
parenthesis, an optional quote character, the group `(.*?)`, an optional quote
character, and the escaped closing parenthesis. -/
def BackgroundImagePattern : Regex :=
  .seq (.lit "background-image") (.seq (.star whitespace) (.seq (.lit ":")
    (.seq (.star whitespace) (.seq (.lit "url(") (.seq (.opt ['"', '\''])
      (.seq (.group .lazyAny) (.seq (.opt ['"', '\'']) (.lit ")"))))))))

/-- The loop of `runregex` (lines 137-141): `match[j][1]` for every match;
`none` is the panic of an index out of range. -/
def collectFiles : List (List (List Char)) → Option (List String)
  | [] => some []
  | m :: ms =>
    match m.get? 1 with
    | none => none
    | some file => (collectFiles ms).map (fun files => String.mk file :: files)

/-- The function `runregex` (lines 134-142) for a compiled pattern: the four
patterns are constants that `regexp.Compile` accepts, and `expr` is what it
returns for them. -/
def runregex (expr : Regex) (body : String) : Option (List String) :=
  collectFiles (FindAllStringSubmatch expr body RegexMatchLimit)

/-- The function `GetJS` (lines 115-117). -/
def GetJS (body : String) : Option (List String) :=
  runregex ScriptSrcPattern body

/-- The function `GetCSS` (lines 120-122). -/
def GetCSS (body : String) : Option (List String) :=
  runregex LinkHrefPattern body

/-- The function `GetIMG` (lines 125-130): the URLs of the img tags followed
by the URLs of the background images. -/
def GetIMG (body : String) : Option (List String) :=
  (runregex BackgroundImagePattern body).bind fun backgroundimgs =>
  (runregex ImageSrcPattern body).bind fun imgs =>
  some (imgs ++ backgroundimgs)

/-- The function `ParseAllAssetsSequential` (lines 17-22): the triple of the
script, image and stylesheet URLs.  `ParseAllAssets` (lines 86-111) makes the
same three calls in goroutines of their own and receives each result on a
channel of its own, so it returns the same triple. -/
def ParseAllAssetsSequential (body : String) :
    Option (List String × List String × List String) :=
  (GetJS body).bind fun jsfiles =>
  (GetCSS body).bind fun cssfiles =>
  (GetIMG body).bind fun imgfiles =>
  some (jsfiles, imgfiles, cssfiles)

/-- The four patterns of pattern mode. -/
def patterns : List Regex :=
  [ScriptSrcPattern, LinkHrefPattern, ImageSrcPattern, BackgroundImagePattern]

/-- The number of capturing groups of a pattern. -/
def Regex.numGroups : Regex → Nat
  | .lit _ => 0
  | .oneOf _ => 0
  | .star _ => 0
  | .opt _ => 0
  | .lazyAny => 0
  | .group r => r.numGroups + 1
  | .seq a b => a.numGroups + b.numGroups

/-! ## Sample data -/

/-- A successful fetch of `u` with status `st`, duration `t` and `b` bytes, as
`Fetch` returns it when the document data is not kept. -/
def sampleFetch (u : String) (st t b : Int) : FetchResponse :=
  { URL := u, Body := "", Headers := [], Bytes := b, Runes := b, Time := t, Status := st,
    Error := "" }

/-- The first round of the first sample worker. -/
def roundA1 : FetchAllResponse :=
  { BaseURL := sampleFetch "http://h/" 200 10 300
    Time := 10, TotalTime := 15, TotalLinearTime := 18, TotalBytes := 350
    JSResponses := [sampleFetch "http://h/a.js" 200 3 40]
    IMGResponses := []
    CSSResponses := [sampleFetch "http://h/a.css" 200 5 10]
    Body := "" }

/-- The second round of the first sample worker. -/
def roundA2 : FetchAllResponse :=
  { BaseURL := sampleFetch "http://h/" 200 12 300
    Time := 12, TotalTime := 18, TotalLinearTime := 22, TotalBytes := 350
    JSResponses := [sampleFetch "http://h/a.js" 200 4 40]
    IMGResponses := []
    CSSResponses := [sampleFetch "http://h/a.css" 404 6 10]
    Body := "" }

/-- The only round of the second sample worker. -/
def roundB1 : FetchAllResponse :=
  { BaseURL := sampleFetch "http://h/" 500 9 330
    Time := 9, TotalTime := 17, TotalLinearTime := 18, TotalBytes := 350
    JSResponses := [sampleFetch "http://h/b.js" 200 7 11, sampleFetch "http://h/a.js" 404 2 9]
    IMGResponses := []
    CSSResponses := []
    Body := "" }

/-- The only round of the third sample worker. -/
def roundC1 : FetchAllResponse :=
  { BaseURL := sampleFetch "http://h/" 200 8 301
    Time := 8, TotalTime := 14, TotalLinearTime := 16, TotalBytes := 350
    JSResponses := [sampleFetch "http://h/a.js" 200 2 40]
    IMGResponses := [sampleFetch "http://h/i.png" 200 6 9]
    CSSResponses := []
    Body := "" }

/-- The result of `iterateRequest` for one second and the rounds `roundA1`, `roundA2`. -/
def workerA : IterateReqRespAll :=
  { AvgTotalRespTime := 16
    AvgTotalLinearRespTime := 20
    BaseURL :=
      { URL := "http://h/", Status := [200, 200], RespTimes := [10, 12], NumRequests := 0, Bytes := 350 }
    JSResps :=
      [{ URL := "http://h/a.js", Status := [200, 200], RespTimes := [3, 4], NumRequests := 2, Bytes := 80 }]
    CSSResps :=
      [{ URL := "http://h/a.css", Status := [200, 404], RespTimes := [5, 6], NumRequests := 2, Bytes := 20 }]
    IMGResps := [] }

/-- The result of `iterateRequest` for zero seconds and the round `roundB1`. -/
def workerB : IterateReqRespAll :=
  { AvgTotalRespTime := 17
    AvgTotalLinearRespTime := 18
    BaseURL :=
      { URL := "http://h/", Status := [500], RespTimes := [9], NumRequests := 0, Bytes := 350 }
    JSResps :=
      [{ URL := "http://h/b.js", Status := [200], RespTimes := [7], NumRequests := 1, Bytes := 11 },
       { URL := "http://h/a.js", Status := [404], RespTimes := [2], NumRequests := 1, Bytes := 9 }]
    CSSResps := []
    IMGResps := [] }

/-- The result of `iterateRequest` for zero seconds and the round `roundC1`. -/
def workerC : IterateReqRespAll :=
  { AvgTotalRespTime := 14
    AvgTotalLinearRespTime := 16
    BaseURL :=
      { URL := "http://h/", Status := [200], RespTimes := [8], NumRequests := 0, Bytes := 350 }
    JSResps :=
      [{ URL := "http://h/a.js", Status := [200], RespTimes := [2], NumRequests := 1, Bytes := 40 }]
    CSSResps := []
    IMGResps :=
      [{ URL := "http://h/i.png", Status := [200], RespTimes := [6], NumRequests := 1, Bytes := 9 }] }

/-- A result that `Combine` can return for `workerA` and `workerB`, with the
JS list in the order b.js, a.js. -/
def mergedAB : IterateReqRespAll :=
  { AvgTotalRespTime := 16
    AvgTotalLinearRespTime := 19
    BaseURL :=
      { URL := "http://h/", Status := [200, 200, 500], RespTimes := [10, 12, 9], NumRequests := 3, Bytes := 700 }
    JSResps :=
      [{ URL := "http://h/b.js", Status := [200], RespTimes := [7], NumRequests := 1, Bytes := 11 },
       { URL := "http://h/a.js", Status := [200, 200, 404], RespTimes := [3, 4, 2], NumRequests := 3, Bytes := 89 }]
    CSSResps :=
      [{ URL := "http://h/a.css", Status := [200, 404], RespTimes := [5, 6], NumRequests := 2, Bytes := 20 }]
    IMGResps := [] }

/-- The result of `Combine` for `workerB` and `workerA`, in this order. -/
def mergedBA : IterateReqRespAll :=
  { AvgTotalRespTime := 16
    AvgTotalLinearRespTime := 19
    BaseURL :=
      { URL := "http://h/", Status := [500, 200, 200], RespTimes := [9, 10, 12], NumRequests := 3, Bytes := 700 }
    JSResps :=
      [{ URL := "http://h/b.js", Status := [200], RespTimes := [7], NumRequests := 1, Bytes := 11 },
       { URL := "http://h/a.js", Status := [404, 200, 200], RespTimes := [2, 3, 4], NumRequests := 3, Bytes := 89 }]
    CSSResps :=
      [{ URL := "http://h/a.css", Status := [200, 404], RespTimes := [5, 6], NumRequests := 2, Bytes := 20 }]
    IMGResps := [] }

/-- The result of `Combine` for `workerB` and `workerC`. -/
def mergedBC : IterateReqRespAll :=
  { AvgTotalRespTime := 15
    AvgTotalLinearRespTime := 17
    BaseURL :=
      { URL := "http://h/", Status := [500, 200], RespTimes := [9, 8], NumRequests := 2, Bytes := 700 }
    JSResps :=
      [{ URL := "http://h/b.js", Status := [200], RespTimes := [7], NumRequests := 1, Bytes := 11 },
       { URL := "http://h/a.js", Status := [404, 200], RespTimes := [2, 2], NumRequests := 2, Bytes := 49 }]
    CSSResps := []
    IMGResps :=
      [{ URL := "http://h/i.png", Status := [200], RespTimes := [6], NumRequests := 1, Bytes := 9 }] }

/-- The result of `Combine` for `mergedAB` and `workerC`. -/
def mergedABthenC : IterateReqRespAll :=
  { AvgTotalRespTime := 15
    AvgTotalLinearRespTime := 17
    BaseURL :=
      { URL := "http://h/", Status := [200, 200, 500, 200], RespTimes := [10, 12, 9, 8], NumRequests := 4, Bytes := 1050 }
    JSResps :=
      [{ URL := "http://h/b.js", Status := [200], RespTimes := [7], NumRequests := 1, Bytes := 11 },
       { URL := "http://h/a.js", Status := [200, 200, 404, 200], RespTimes := [3, 4, 2, 2], NumRequests := 4, Bytes := 129 }]
    CSSResps :=
      [{ URL := "http://h/a.css", Status := [200, 404], RespTimes := [5, 6], NumRequests := 2, Bytes := 20 }]
    IMGResps :=
      [{ URL := "http://h/i.png", Status := [200], RespTimes := [6], NumRequests := 1, Bytes := 9 }] }

/-- The result of `Combine` for `workerA` and `mergedBC`. -/
def mergedAthenBC : IterateReqRespAll :=
  { AvgTotalRespTime := 15
    AvgTotalLinearRespTime := 18
    BaseURL :=
      { URL := "http://h/", Status := [200, 200, 500, 200], RespTimes := [10, 12, 9, 8], NumRequests := 4, Bytes := 1050 }
    JSResps :=
      [{ URL := "http://h/a.js", Status := [200, 200, 404, 200], RespTimes := [3, 4, 2, 2], NumRequests := 4, Bytes := 129 },
       { URL := "http://h/b.js", Status := [200], RespTimes := [7], NumRequests := 1, Bytes := 11 }]
    CSSResps :=
      [{ URL := "http://h/a.css", Status := [200, 404], RespTimes := [5, 6], NumRequests := 2, Bytes := 20 }]
    IMGResps :=
      [{ URL := "http://h/i.png", Status := [200], RespTimes := [6], NumRequests := 1, Bytes := 9 }] }

/-- The result of `Combine` for `workerA`, `workerB` and `workerC`. -/
def mergedABC : IterateReqRespAll :=
  { AvgTotalRespTime := 15
    AvgTotalLinearRespTime := 18
    BaseURL :=
      { URL := "http://h/", Status := [200, 200, 500, 200], RespTimes := [10, 12, 9, 8], NumRequests := 4, Bytes := 1050 }
    JSResps :=
      [{ URL := "http://h/a.js", Status := [200, 200, 404, 200], RespTimes := [3, 4, 2, 2], NumRequests := 4, Bytes := 129 },
       { URL := "http://h/b.js", Status := [200], RespTimes := [7], NumRequests := 1, Bytes := 11 }]
    CSSResps :=
      [{ URL := "http://h/a.css", Status := [200, 404], RespTimes := [5, 6], NumRequests := 2, Bytes := 20 }]
    IMGResps :=
      [{ URL := "http://h/i.png", Status := [200], RespTimes := [6], NumRequests := 1, Bytes := 9 }] }

/-- The result of `Combine` for `mergedAB` and `mergedBC`, two results whose
accumulators all have their request counter equal to their number of
statuses. -/
def mergedABandBC : IterateReqRespAll :=
  { AvgTotalRespTime := 15
    AvgTotalLinearRespTime := 18
    BaseURL :=
      { URL := "http://h/", Status := [200, 200, 500, 500, 200], RespTimes := [10, 12, 9, 9, 8],
        NumRequests := 5, Bytes := 1400 }
    JSResps :=
      [{ URL := "http://h/b.js", Status := [200, 200], RespTimes := [7, 7], NumRequests := 2,
         Bytes := 22 },
       { URL := "http://h/a.js", Status := [200, 200, 404, 404, 200],
         RespTimes := [3, 4, 2, 2, 2], NumRequests := 5, Bytes := 138 }]
    CSSResps :=
      [{ URL := "http://h/a.css", Status := [200, 404], RespTimes := [5, 6], NumRequests := 2,
         Bytes := 20 }]
    IMGResps :=
      [{ URL := "http://h/i.png", Status := [200], RespTimes := [6], NumRequests := 1, Bytes := 9 }] }

/-- The total number of statuses held by a list of accumulators. -/
def sumStatusLen (l : List IterateReqResp) : Int :=
  (l.map (fun e => (e.Status.length : Int))).sum

/-- An accumulator of three requests with two distinct statuses. -/
def sampleAcc : IterateReqResp :=
  { URL := "http://h/a.js", Status := [200, -100, 200], RespTimes := [10, 0, 21],
    NumRequests := 3, Bytes := 80 }

/-- An accumulator with zero requests. -/
def zeroAcc : IterateReqResp :=
  { URL := "http://h/", Status := [], RespTimes := [], NumRequests := 0, Bytes := 0 }

/-- A parser of base URLs that rejects every text. -/
def parseNothing : String → Except String URL := fun _ => .error "parse failure"

/-- The split of a text at its first `://`: the text before and the text
after it. -/
def splitSchemeSep : List Char → Option (List Char × List Char)
  | [] => none
  | c :: cs =>
    if (c :: cs).take 3 = [':', '/', '/'] then some ([], cs.drop 2)
    else (splitSchemeSep cs).map (fun p => (c :: p.1, p.2))

/-- A parser for the base URLs of the examples.  It agrees with Go's
`url.Parse` on the texts it is used on here: for `scheme://authority/path`
with a scheme of letters it gives the scheme and, as `Host`, the authority;
a text that starts with a colon fails with "missing protocol scheme". -/
def sampleParse (s : String) : Except String URL :=
  match splitSchemeSep s.data with
  | none => .error "missing protocol scheme"
  | some (scheme, rest) =>
    if scheme = [] then .error "missing protocol scheme"
    else .ok { Scheme := String.mk scheme, Host := String.mk (rest.takeWhile (fun c => c ≠ '/')) }

/-- The failure paths of `Fetch`: the request cannot be constructed, the
transport call fails, or reading the response body fails. -/
def Exchange.isFailure : Exchange → Bool
  | .requestError _ => true
  | .transportError _ => true
  | .response _ _ _ (.error _) => true
  | .response _ _ _ (.ok _) => false

/-- The input of a fetch of the sample page. -/
def sampleInput : FetchInput :=
  { BaseURL := "https://example.com/page", Retdat := false, Cookies := "", Headers := "",
    UserAgent := "goperf" }

/-- An exchange in which the server answers 200 and the read of the body
fails. -/
def readFailure : Exchange :=
  .response 200 [("Content-Type", ["text/html"])] 5 (.error "unexpected EOF")

/-- An exchange in which the transport call fails. -/
def transportFailure : Exchange :=
  .transportError "Get https://example.com/page: dial tcp: connect: connection refused"

/-- The accumulator that a map holds for a URL, or the fresh accumulator that
`gatherStats` creates at the first sighting of the URL. -/
def accumulatorOf (respMap : List (String × IterateReqResp)) (url : String) : IterateReqResp :=
  (mapGet respMap url).getD
    { URL := url, Status := [], RespTimes := [], NumRequests := 0, Bytes := 0 }

/-- A map with one accumulator, for the text that `Fetch` puts into the URL
field at the transport failure `transportFailure`, after two failed fetches. -/
def sampleFailMap : List (String × IterateReqResp) :=
  [("Get https://example.com/page: dial tcp: connect: connection refused",
    { URL := "Get https://example.com/page: dial tcp: connect: connection refused",
      Status := [-100, -100], RespTimes := [0, 0], NumRequests := 2, Bytes := 0 })]

/-- The response that `Fetch` returns for the transport failure
`transportFailure`. -/
def sampleFailed : FetchResponse :=
  { URL := "Get https://example.com/page: dial tcp: connect: connection refused", Body := "",
    Headers := [], Bytes := 0, Runes := 0, Time := 0, Status := -100,
    Error := "Request failed" }

/-- The body of the sample page: one script. -/
def sampleBody : String := "<script src='/a.js'></script>"

/-- The assets of a body for the sample round: the sample page has the
script "/a.js", every other body has no asset. -/
def sampleGetAssets (body : String) : List String × List String × List String :=
  if body = sampleBody then (["/a.js"], [], []) else ([], [], [])

/-- The exchange for the sample page: status 200 after 10ns with the body
`sampleBody`. -/
def sampleBaseExchange : Exchange :=
  .response 200 [("Content-Type", ["text/html"])] 10 (.ok sampleBody)

/-- The exchange for every asset of the sample round: status 200 after 3ns
with the body "x=1". -/
def sampleAssetExchange : AssetType → Nat → Exchange :=
  fun _ _ => .response 200 [("Content-Type", ["text/javascript"])] 3 (.ok "x=1")

/-- The result of `FetchAll` for the sample page with Retdat false. -/
def sampleRound : FetchAllResponse :=
  { BaseURL :=
      { URL := "https://example.com/page", Body := "", Headers := [], Bytes := 29, Runes := 29,
        Time := 10, Status := 200, Error := "" }
    Time := 10, TotalTime := 14, TotalLinearTime := 13, TotalBytes := 32
    JSResponses :=
      [{ URL := "https://example.com/a.js", Body := "x=1",
         Headers := [("Content-Type", ["text/javascript"])], Bytes := 3, Runes := 3, Time := 3,
         Status := 200, Error := "" }]
    IMGResponses := []
    CSSResponses := []
    Body := "" }

/-- The result of a worker after one round without assets whose wall time and
linear time are `t` nanoseconds. -/
def plainWorker (t : Int) : IterateReqRespAll :=
  { AvgTotalRespTime := t
    AvgTotalLinearRespTime := t
    BaseURL := { URL := "http://h/", Status := [200], RespTimes := [t], NumRequests := 0, Bytes := 1 }
    JSResps := []
    CSSResps := []
    IMGResps := [] }

/-- The result of `Combine` for two workers `plainWorker 10`. -/
def plainMerged2 : IterateReqRespAll :=
  { AvgTotalRespTime := 10
    AvgTotalLinearRespTime := 10
    BaseURL :=
      { URL := "http://h/", Status := [200, 200], RespTimes := [10, 10], NumRequests := 2,
        Bytes := 2 }
    JSResps := []
    CSSResps := []
    IMGResps := [] }

/-- The result of `Combine` for three workers `plainWorker 10`, and also for
`plainMerged2` and one worker `plainWorker 10`. -/
def plainMerged3 : IterateReqRespAll :=
  { AvgTotalRespTime := 10
    AvgTotalLinearRespTime := 10
    BaseURL :=
      { URL := "http://h/", Status := [200, 200, 200], RespTimes := [10, 10, 10],
        NumRequests := 3, Bytes := 3 }
    JSResps := []
    CSSResps := []
    IMGResps := [] }

/-- The count invariant of an accumulator:
len(Status) = len(RespTimes) = NumRequests. -/
def CountInvariant (acc : IterateReqResp) : Prop :=
  acc.Status.length = acc.RespTimes.length ∧ (acc.RespTimes.length : Int) = acc.NumRequests

/-- The warm-up responses of two workers: the session cookie "sid=A" for
worker 0 and "sid=B" for worker 1. -/
def sampleWarmUp : Nat → Option (List String)
  | 0 => some ["sid=A"]
  | _ => some ["sid=B"]

/-- The default configuration with the duration of `-sec 0`. -/
def zeroDurationConfig : Config :=
  { DefaultConfig with Test := { DefaultConfig.Test with DefaultDuration := 0 } }

/-- The default configuration with the user count of `-users 0`. -/
def zeroUsersConfig : Config :=
  { DefaultConfig with Test := { DefaultConfig.Test with DefaultUsers := 0 } }

/-- Malformed markup without a further script tag. -/
def malformedRest : String := "<div <<< <p></script <img src='x.png'"

/-! ## Lemmas on maps -/

theorem mapGet_mapSet {ν : Type} (m : List (String × ν)) (k k' : String) (v : ν) :
    mapGet (mapSet m k v) k' = if k = k' then some v else mapGet m k' := by
  induction m with
  | nil => simp [mapSet, mapGet]
  | cons p m ih =>
    obtain ⟨a, b⟩ := p
    by_cases h : a = k
    · subst h
      by_cases h2 : a = k' <;> simp [mapSet, mapGet, h2]
    · by_cases h2 : a = k'
      · subst h2
        have h3 : ¬ k = a := fun e => h e.symm
        simp [mapSet, mapGet, h, h3]
      · simp [mapSet, mapGet, h, h2, ih]

theorem mapKeys_mapSet {ν : Type} (m : List (String × ν)) (k : String) (v : ν) :
    mapKeys (mapSet m k v) = if k ∈ mapKeys m then mapKeys m else mapKeys m ++ [k] := by
  induction m with
  | nil => simp [mapSet, mapKeys]
  | cons p m ih =>
    obtain ⟨a, b⟩ := p
    by_cases h : a = k
    · subst h
      simp [mapSet, mapKeys]
    · have h3 : ¬ k = a := fun e => h e.symm
      simp only [mapKeys] at ih
      by_cases h4 : k ∈ List.map Prod.fst m
      · simp [mapSet, mapKeys, h, h3, h4] at ih ⊢
        exact ih
      · simp [mapSet, mapKeys, h, h3, h4] at ih ⊢
        exact ih

theorem mapGet_eq_none_iff {ν : Type} (m : List (String × ν)) (k : String) :
    mapGet m k = none ↔ k ∉ mapKeys m := by
  induction m with
  | nil => simp [mapGet, mapKeys]
  | cons p m ih =>
    obtain ⟨a, b⟩ := p
    by_cases h : a = k
    · subst h
      simp [mapGet, mapKeys]
    · have h3 : ¬ k = a := fun e => h e.symm
      simp only [mapKeys] at ih
      simp [mapGet, mapKeys, h, h3, ih]

theorem mapGet_of_mem {ν : Type} (m : List (String × ν)) (hn : (mapKeys m).Nodup)
    (k : String) (v : ν) (h : (k, v) ∈ m) : mapGet m k = some v := by
  induction m with
  | nil => simp at h
  | cons p m ih =>
    obtain ⟨a, b⟩ := p
    simp only [mapKeys, List.map_cons, List.nodup_cons] at hn
    rcases List.mem_cons.1 h with h1 | h1
    · cases h1
      simp [mapGet]
    · have hk : k ∈ List.map Prod.fst m := List.mem_map.2 ⟨(k, v), h1, rfl⟩
      have hne : ¬ a = k := fun e => hn.1 (e ▸ hk)
      simp only [mapGet, hne, if_false]
      exact ih hn.2 h1

theorem mem_of_mapGet {ν : Type} (m : List (String × ν)) (k : String) (v : ν)
    (h : mapGet m k = some v) : (k, v) ∈ m := by
  induction m with
  | nil => simp [mapGet] at h
  | cons p m ih =>
    obtain ⟨a, b⟩ := p
    by_cases h1 : a = k
    · subst h1
      simp [mapGet] at h
      simp [h]
    · simp only [mapGet, h1, if_false] at h
      exact List.mem_cons_of_mem _ (ih h)

theorem mapGetSlice_mapAppend {α : Type} (m : List (String × List α)) (k k' : String) (x : α) :
    mapGetSlice (mapAppend m k x) k' =
      if k = k' then mapGetSlice m k' ++ [x] else mapGetSlice m k' := by
  unfold mapAppend
  by_cases h : k = k'
  · subst h
    simp [mapGetSlice, mapGet_mapSet]
  · simp [mapGetSlice, mapGet_mapSet, h]

theorem mapKeys_mapAppend {α : Type} (m : List (String × List α)) (k : String) (x : α) :
    mapKeys (mapAppend m k x) = if k ∈ mapKeys m then mapKeys m else mapKeys m ++ [k] :=
  mapKeys_mapSet m k _

theorem mapGetSlice_of_mem {α : Type} (m : List (String × List α)) (hn : (mapKeys m).Nodup)
    (k : String) (v : List α) (h : (k, v) ∈ m) : mapGetSlice m k = v := by
  simp [mapGetSlice, mapGet_of_mem m hn k v h]

/-! ## Lemmas on the grouping loop of `Combine` -/

theorem groupInto_nodup {α : Type} (key : α → String) (l : List α) :
    ∀ m : List (String × List α), (mapKeys m).Nodup → (mapKeys (groupInto key m l)).Nodup := by
  induction l with
  | nil => intro m hm; simpa [groupInto] using hm
  | cons e l ih =>
    intro m hm
    have h1 : (mapKeys (mapAppend m (key e) e)).Nodup := by
      rw [mapKeys_mapAppend]
      by_cases h : key e ∈ mapKeys m
      · simpa [h] using hm
      · simp only [h, if_false]
        exact List.Nodup.append hm (List.nodup_singleton _)
          (by simpa [List.disjoint_singleton] using h)
    simpa [groupInto] using ih _ h1

theorem groupInto_keys {α : Type} (key : α → String) (l : List α) :
    ∀ (m : List (String × List α)) (u : String),
      u ∈ mapKeys (groupInto key m l) ↔ u ∈ mapKeys m ∨ u ∈ l.map key := by
  induction l with
  | nil => intro m u; simp [groupInto]
  | cons e l ih =>
    intro m u
    have h1 := ih (mapAppend m (key e) e) u
    simp only [groupInto, List.foldl_cons] at h1 ⊢
    rw [h1, mapKeys_mapAppend]
    by_cases h : key e ∈ mapKeys m
    · simp only [h, if_true, List.map_cons, List.mem_cons]
      constructor
      · rintro (h2 | h2)
        · exact Or.inl h2
        · exact Or.inr (Or.inr h2)
      · rintro (h2 | h2 | h2)
        · exact Or.inl h2
        · exact Or.inl (h2 ▸ h)
        · exact Or.inr h2
    · simp only [h, if_false, List.map_cons, List.mem_cons, List.mem_append,
        List.mem_singleton]
      tauto

theorem groupInto_slice {α : Type} (key : α → String) (l : List α) :
    ∀ (m : List (String × List α)) (u : String),
      mapGetSlice (groupInto key m l) u = mapGetSlice m u ++ l.filter (fun x => key x = u) := by
  induction l with
  | nil => intro m u; simp [groupInto]
  | cons e l ih =>
    intro m u
    have h1 := ih (mapAppend m (key e) e) u
    simp only [groupInto, List.foldl_cons] at h1 ⊢
    rw [h1, mapGetSlice_mapAppend]
    by_cases h : key e = u
    · simp [List.filter_cons, h]
    · simp [List.filter_cons, h]

theorem gatherByURL_eq (m : List (String × List IterateReqResp)) (l : List IterateReqResp) :
    gatherByURL m l = groupInto (fun e => e.URL) m l := rfl

theorem gatherByURL_nodup (l : List IterateReqResp) (m : List (String × List IterateReqResp))
    (hm : (mapKeys m).Nodup) : (mapKeys (gatherByURL m l)).Nodup :=
  groupInto_nodup _ l m hm

theorem gatherByURL_keys (l : List IterateReqResp) (m : List (String × List IterateReqResp))
    (u : String) :
    u ∈ mapKeys (gatherByURL m l) ↔ u ∈ mapKeys m ∨ u ∈ l.map (fun e => e.URL) :=
  groupInto_keys _ l m u

theorem gatherByURL_slice (l : List IterateReqResp) (m : List (String × List IterateReqResp))
    (u : String) : mapGetSlice (gatherByURL m l) u = mapGetSlice m u ++ entriesOf l u :=
  groupInto_slice _ l m u

theorem gatherByURL_append (m : List (String × List IterateReqResp))
    (l₁ l₂ : List IterateReqResp) :
    gatherByURL m (l₁ ++ l₂) = gatherByURL (gatherByURL m l₁) l₂ := by
  simp [gatherByURL, List.foldl_append]

theorem mergeEntries_aux (v : List IterateReqResp) :
    ∀ acc : List Int × List Int × Int,
      v.foldl (fun acc resp =>
        (acc.1 ++ resp.Status, acc.2.1 ++ resp.RespTimes, acc.2.2 + resp.Bytes)) acc =
      (acc.1 ++ concatStatus v, acc.2.1 ++ concatRespTimes v, acc.2.2 + sumBytes v) := by
  induction v with
  | nil => intro acc; simp [concatStatus, concatRespTimes, sumBytes]
  | cons e v ih =>
    intro acc
    simp only [List.foldl_cons, ih]
    simp [concatStatus, concatRespTimes, sumBytes, List.flatMap_cons, add_assoc]

theorem mergeEntries_eq (v : List IterateReqResp) :
    mergeEntries v = (concatStatus v, concatRespTimes v, sumBytes v) := by
  simp [mergeEntries, mergeEntries_aux]

theorem combine_aux (resps : List (String × List IterateReqResp)) :
    ∀ acc : List IterateReqResp,
      resps.foldl (fun allResps kv => allResps ++ [mergedEntry kv.1 kv.2]) acc =
        acc ++ resps.map (fun kv => mergedEntry kv.1 kv.2) := by
  induction resps with
  | nil => intro acc; simp
  | cons kv resps ih => intro acc; simp [ih]

theorem combine_eq_map (resps : List (String × List IterateReqResp)) :
    combine resps = resps.map (fun kv => mergedEntry kv.1 kv.2) := by
  simp [combine, combine_aux]

theorem mergedEntry_eq (k : String) (v : List IterateReqResp) :
    mergedEntry k v = mergeOf k v := by
  simp [mergedEntry, mergeOf, mergeEntries_eq]

/-! ## Lemmas on `Combine` -/

theorem combineLoop (results : List IterateReqRespAll) :
    ∀ st : CombineState,
      (results.foldl combineStep st).baseStatus =
          st.baseStatus ++ concatStatus (allBases results) ∧
      (results.foldl combineStep st).baseRespTimes =
          st.baseRespTimes ++ concatRespTimes (allBases results) ∧
      (results.foldl combineStep st).baseBytes =
          st.baseBytes + sumBytes (allBases results) ∧
      (results.foldl combineStep st).totalAvglRespTimes =
          st.totalAvglRespTimes + (results.map (fun r => r.AvgTotalRespTime)).sum ∧
      (results.foldl combineStep st).totalAvgLinearlRespTimes =
          st.totalAvgLinearlRespTimes +
            (results.map (fun r => r.AvgTotalLinearRespTime)).sum ∧
      (results.foldl combineStep st).count = st.count + (results.length : Int) ∧
      (results.foldl combineStep st).jsResps =
          gatherByURL st.jsResps (allAssets results .JS) ∧
      (results.foldl combineStep st).cssResps =
          gatherByURL st.cssResps (allAssets results .CSS) ∧
      (results.foldl combineStep st).imgResps =
          gatherByURL st.imgResps (allAssets results .IMG) := by
  induction results with
  | nil =>
    intro st
    simp [allBases, allAssets, concatStatus, concatRespTimes, sumBytes, gatherByURL]
  | cons r results ih =>
    intro st
    obtain ⟨h1, h2, h3, h4, h5, h6, h7, h8, h9⟩ := ih (combineStep st r)
    simp only [List.foldl_cons]
    refine ⟨?_, ?_, ?_, ?_, ?_, ?_, ?_, ?_, ?_⟩
    · rw [h1]; simp [combineStep, allBases, concatStatus]
    · rw [h2]; simp [combineStep, allBases, concatRespTimes]
    · rw [h3]; simp [combineStep, allBases, sumBytes, add_assoc]
    · rw [h4]; simp [combineStep, add_assoc]
    · rw [h5]; simp [combineStep, add_assoc]
    · rw [h6]; simp [combineStep]; ring
    · rw [h7]
      simp [combineStep, allAssets, IterateReqRespAll.assets, gatherByURL_append]
    · rw [h8]
      simp [combineStep, allAssets, IterateReqRespAll.assets, gatherByURL_append]
    · rw [h9]
      simp [combineStep, allAssets, IterateReqRespAll.assets, gatherByURL_append]

/-- The value of `Combine` on a non-empty list, in closed form. -/
theorem Combine_cons (r₀ : IterateReqRespAll) (rest : List IterateReqRespAll) :
    Combine (r₀ :: rest) = some
      { AvgTotalRespTime :=
          Int.tdiv (((r₀ :: rest).map (fun r => r.AvgTotalRespTime)).sum)
            (((r₀ :: rest).length : Nat) : Int)
        AvgTotalLinearRespTime :=
          Int.tdiv (((r₀ :: rest).map (fun r => r.AvgTotalLinearRespTime)).sum)
            (((r₀ :: rest).length : Nat) : Int)
        BaseURL := mergeOf r₀.BaseURL.URL (allBases (r₀ :: rest))
        JSResps := (gatherByURL [] (allAssets (r₀ :: rest) .JS)).map
          (fun kv => mergeOf kv.1 kv.2)
        CSSResps := (gatherByURL [] (allAssets (r₀ :: rest) .CSS)).map
          (fun kv => mergeOf kv.1 kv.2)
        IMGResps := (gatherByURL [] (allAssets (r₀ :: rest) .IMG)).map
          (fun kv => mergeOf kv.1 kv.2) } := by
  obtain ⟨h1, h2, h3, h4, h5, h6, h7, h8, h9⟩ := combineLoop (r₀ :: rest) combineInit
  have hc : ¬ ((((r₀ :: rest).length : Nat) : Int) = 0) := by
    simp only [List.length_cons]
    push_cast
    omega
  unfold Combine
  simp only [h1, h2, h3, h4, h5, h6, h7, h8, h9]
  simp only [goDiv, combineInit, hc, if_false, Option.bind, List.head?_cons,
    combine_eq_map, mergedEntry_eq, mergeOf, List.nil_append, zero_add]

theorem combineReturns_cons_iff (r₀ : IterateReqRespAll) (rest : List IterateReqRespAll)
    (out : IterateReqRespAll) :
    CombineReturns (r₀ :: rest) out ↔
      out.AvgTotalRespTime =
          Int.tdiv (((r₀ :: rest).map (fun r => r.AvgTotalRespTime)).sum)
            (((r₀ :: rest).length : Nat) : Int) ∧
      out.AvgTotalLinearRespTime =
          Int.tdiv (((r₀ :: rest).map (fun r => r.AvgTotalLinearRespTime)).sum)
            (((r₀ :: rest).length : Nat) : Int) ∧
      out.BaseURL = mergeOf r₀.BaseURL.URL (allBases (r₀ :: rest)) ∧
      ∀ t : AssetType, (out.assets t).Perm
        ((gatherByURL [] (allAssets (r₀ :: rest) t)).map (fun kv => mergeOf kv.1 kv.2)) := by
  unfold CombineReturns
  rw [Combine_cons]
  constructor
  · rintro ⟨r, hr, h1, h2, h3, h4⟩
    cases hr
    refine ⟨h1, h2, h3, ?_⟩
    intro t
    have := h4 t
    cases t <;> exact this
  · rintro ⟨h1, h2, h3, h4⟩
    refine ⟨_, rfl, h1, h2, h3, ?_⟩
    intro t
    have := h4 t
    cases t <;> exact this

theorem entriesOf_of_not_mem (o : List IterateReqResp) (u : String)
    (h : u ∉ o.map (fun e => e.URL)) : entriesOf o u = [] := by
  unfold entriesOf
  rw [List.filter_eq_nil_iff]
  intro e he hu
  exact h (List.mem_map.2 ⟨e, he, by simpa using hu⟩)

theorem entriesOf_of_mem (o : List IterateReqResp)
    (hn : (o.map (fun e => e.URL)).Nodup) (e : IterateReqResp) (he : e ∈ o) :
    entriesOf o e.URL = [e] := by
  induction o with
  | nil => simp at he
  | cons x o ih =>
    simp only [List.map_cons, List.nodup_cons] at hn
    rcases List.mem_cons.1 he with h | h
    · subst h
      have := entriesOf_of_not_mem o e.URL hn.1
      simp only [entriesOf] at this ⊢
      simp [List.filter_cons, this]
    · have hne : ¬ x.URL = e.URL := by
        intro hx
        exact hn.1 (hx ▸ List.mem_map.2 ⟨e, h, rfl⟩)
      have := ih hn.2 h
      simp only [entriesOf] at this ⊢
      simp [List.filter_cons, hne, this]

theorem entriesOf_append (l₁ l₂ : List IterateReqResp) (u : String) :
    entriesOf (l₁ ++ l₂) u = entriesOf l₁ u ++ entriesOf l₂ u := by
  simp [entriesOf]

theorem concatStatus_append (l₁ l₂ : List IterateReqResp) :
    concatStatus (l₁ ++ l₂) = concatStatus l₁ ++ concatStatus l₂ := by
  simp [concatStatus]

theorem concatRespTimes_append (l₁ l₂ : List IterateReqResp) :
    concatRespTimes (l₁ ++ l₂) = concatRespTimes l₁ ++ concatRespTimes l₂ := by
  simp [concatRespTimes]

theorem sumBytes_append (l₁ l₂ : List IterateReqResp) :
    sumBytes (l₁ ++ l₂) = sumBytes l₁ + sumBytes l₂ := by
  simp [sumBytes]

/-- The output of the grouping loop followed by `combine` is a merge of the
input list. -/
theorem mergedFrom_gather (l : List IterateReqResp) :
    MergedFrom l ((gatherByURL [] l).map (fun kv => mergeOf kv.1 kv.2)) := by
  have hn : (mapKeys (gatherByURL [] l)).Nodup :=
    gatherByURL_nodup l [] (by simp [mapKeys])
  have hk : ∀ u, u ∈ mapKeys (gatherByURL [] l) ↔ u ∈ l.map (fun e => e.URL) := by
    intro u
    rw [gatherByURL_keys]
    simp [mapKeys]
  have hs : ∀ u, mapGetSlice (gatherByURL [] l) u = entriesOf l u := by
    intro u
    rw [gatherByURL_slice]
    simp [mapGetSlice, mapGet]
  have hurl : ((gatherByURL [] l).map (fun kv => mergeOf kv.1 kv.2)).map (fun e => e.URL) =
      mapKeys (gatherByURL [] l) := by
    simp [mapKeys, mergeOf, List.map_map, Function.comp_def]
  refine ⟨by rw [hurl]; exact hn, ?_⟩
  intro e
  constructor
  · intro he
    obtain ⟨kv, hkv, rfl⟩ := List.mem_map.1 he
    obtain ⟨k, v⟩ := kv
    have hv : mapGetSlice (gatherByURL [] l) k = v := mapGetSlice_of_mem _ hn k v hkv
    have hkmem : k ∈ mapKeys (gatherByURL [] l) := List.mem_map.2 ⟨(k, v), hkv, rfl⟩
    refine ⟨(hk k).1 hkmem, ?_⟩
    show mergeOf k v = mergeOf k (entriesOf l k)
    rw [← hs k, hv]
  · rintro ⟨hu, he⟩
    have hkmem : e.URL ∈ mapKeys (gatherByURL [] l) := (hk _).2 hu
    have hsome : mapGet (gatherByURL [] l) e.URL ≠ none := by
      rw [Ne, mapGet_eq_none_iff]
      exact fun h => h hkmem
    obtain ⟨v, hv⟩ := Option.ne_none_iff_exists'.1 hsome
    have hmem := mem_of_mapGet _ _ _ hv
    have hv2 : v = entriesOf l e.URL := by
      rw [← hs e.URL]
      simp [mapGetSlice, hv]
    rw [he]
    exact List.mem_map.2 ⟨(e.URL, v), hmem, by simp [hv2]⟩

theorem MergedFrom.perm {l out out' : List IterateReqResp} (h : MergedFrom l out)
    (hp : out'.Perm out) : MergedFrom l out' := by
  refine ⟨((hp.map _).nodup_iff).2 h.1, ?_⟩
  intro e
  rw [hp.mem_iff]
  exact h.2 e

/-- Every output list of `Combine` is a merge of the concatenation of the
workers' lists of its asset type. -/
theorem combineReturns_mergedFrom {results : List IterateReqRespAll} {out : IterateReqRespAll}
    (h : CombineReturns results out) (t : AssetType) :
    MergedFrom (allAssets results t) (out.assets t) := by
  cases results with
  | nil =>
    obtain ⟨r, hr, _⟩ := h
    simp [Combine, goDiv, combineInit] at hr
  | cons r₀ rest =>
    rw [combineReturns_cons_iff] at h
    exact (mergedFrom_gather _).perm (h.2.2.2 t)

theorem MergedFrom.sameTotals {l out : List IterateReqResp} (h : MergedFrom l out) :
    SameTotals out l := by
  have hmem : ∀ u, u ∈ out.map (fun e => e.URL) ↔ u ∈ l.map (fun e => e.URL) := by
    intro u
    constructor
    · intro hu
      obtain ⟨e, he, rfl⟩ := List.mem_map.1 hu
      exact ((h.2 e).1 he).1
    · intro hu
      have : mergeOf u (entriesOf l u) ∈ out := (h.2 _).2 ⟨hu, rfl⟩
      exact List.mem_map.2 ⟨_, this, rfl⟩
  intro u
  refine ⟨hmem u, ?_⟩
  by_cases hu : u ∈ out.map (fun e => e.URL)
  · obtain ⟨e, he, rfl⟩ := List.mem_map.1 hu
    have heq := ((h.2 e).1 he).2
    rw [entriesOf_of_mem out h.1 e he]
    refine ⟨?_, ?_, ?_⟩
    · have : e.Status = concatStatus (entriesOf l e.URL) := by rw [heq]; rfl
      simpa [concatStatus] using this
    · have : e.RespTimes = concatRespTimes (entriesOf l e.URL) := by rw [heq]; rfl
      simpa [concatRespTimes] using this
    · have : e.Bytes = sumBytes (entriesOf l e.URL) := by rw [heq]; rfl
      simpa [sumBytes] using this
  · have hu' : u ∉ l.map (fun e => e.URL) := fun hl => hu ((hmem u).2 hl)
    rw [entriesOf_of_not_mem out u hu, entriesOf_of_not_mem l u hu']
    exact ⟨rfl, rfl, rfl⟩

theorem SameTotals.symm {l l' : List IterateReqResp} (h : SameTotals l l') :
    SameTotals l' l := fun u =>
  ⟨(h u).1.symm, (h u).2.1.symm, (h u).2.2.1.symm, (h u).2.2.2.symm⟩

theorem SameTotals.trans {l l' l'' : List IterateReqResp} (h : SameTotals l l')
    (h' : SameTotals l' l'') : SameTotals l l'' := fun u =>
  ⟨(h u).1.trans (h' u).1, (h u).2.1.trans (h' u).2.1, (h u).2.2.1.trans (h' u).2.2.1,
    (h u).2.2.2.trans (h' u).2.2.2⟩

theorem SameTotals.refl (l : List IterateReqResp) : SameTotals l l := fun _ =>
  ⟨Iff.rfl, rfl, rfl, rfl⟩

theorem SameTotals.append {l₁ l₁' l₂ l₂' : List IterateReqResp} (h₁ : SameTotals l₁ l₁')
    (h₂ : SameTotals l₂ l₂') : SameTotals (l₁ ++ l₂) (l₁' ++ l₂') := by
  intro u
  refine ⟨?_, ?_, ?_, ?_⟩
  · simp only [List.map_append, List.mem_append]
    rw [(h₁ u).1, (h₂ u).1]
  · simp only [entriesOf_append, concatStatus_append, (h₁ u).2.1, (h₂ u).2.1]
  · simp only [entriesOf_append, concatRespTimes_append, (h₁ u).2.2.1, (h₂ u).2.2.1]
  · simp only [entriesOf_append, sumBytes_append, (h₁ u).2.2.2, (h₂ u).2.2.2]

theorem MergedFrom.nodup {l out : List IterateReqResp} (h : MergedFrom l out) : out.Nodup :=
  List.Nodup.of_map _ h.1

/-- Two merges of lists with the same totals are equal up to reordering. -/
theorem MergedFrom.perm_of_sameTotals {l₁ l₂ o₁ o₂ : List IterateReqResp}
    (h₁ : MergedFrom l₁ o₁) (h₂ : MergedFrom l₂ o₂) (hs : SameTotals l₁ l₂) : o₁.Perm o₂ := by
  rw [List.perm_ext_iff_of_nodup h₁.nodup h₂.nodup]
  intro e
  rw [h₁.2 e, h₂.2 e, (hs e.URL).1]
  have : mergeOf e.URL (entriesOf l₁ e.URL) = mergeOf e.URL (entriesOf l₂ e.URL) := by
    simp only [mergeOf, (hs e.URL).2.1, (hs e.URL).2.2.1, (hs e.URL).2.2.2]
  rw [this]

/-- Two merges of lists with the same URLs, byte totals and status counts per
URL show the same totals, up to reordering. -/
theorem MergedFrom.totals_perm {l₁ l₂ o₁ o₂ : List IterateReqResp}
    (h₁ : MergedFrom l₁ o₁) (h₂ : MergedFrom l₂ o₂)
    (hu : ∀ u, u ∈ l₁.map (fun e => e.URL) ↔ u ∈ l₂.map (fun e => e.URL))
    (hb : ∀ u, sumBytes (entriesOf l₁ u) = sumBytes (entriesOf l₂ u))
    (hn : ∀ u, (concatStatus (entriesOf l₁ u)).length = (concatStatus (entriesOf l₂ u)).length) :
    (o₁.map totalsOf).Perm (o₂.map totalsOf) := by
  have key : ∀ (l l' o o' : List IterateReqResp), MergedFrom l o → MergedFrom l' o' →
      (∀ u, u ∈ l.map (fun e => e.URL) ↔ u ∈ l'.map (fun e => e.URL)) →
      (∀ u, sumBytes (entriesOf l u) = sumBytes (entriesOf l' u)) →
      (∀ u, (concatStatus (entriesOf l u)).length = (concatStatus (entriesOf l' u)).length) →
      ∀ x, x ∈ o.map totalsOf → x ∈ o'.map totalsOf := by
    intro l l' o o' h h' hu hb hn x hx
    obtain ⟨e, he, rfl⟩ := List.mem_map.1 hx
    obtain ⟨heu, heq⟩ := (h.2 e).1 he
    have he' : mergeOf e.URL (entriesOf l' e.URL) ∈ o' := (h'.2 _).2 ⟨(hu _).1 heu, rfl⟩
    refine List.mem_map.2 ⟨_, he', ?_⟩
    rw [heq]
    simp only [totalsOf, mergeOf, hb, hn]
  have nd : ∀ (l o : List IterateReqResp), MergedFrom l o → (o.map totalsOf).Nodup := by
    intro l o h
    apply List.Nodup.of_map Prod.fst
    rw [List.map_map]
    exact h.1
  rw [List.perm_ext_iff_of_nodup (nd _ _ h₁) (nd _ _ h₂)]
  intro x
  exact ⟨key _ _ _ _ h₁ h₂ hu hb hn x,
    key _ _ _ _ h₂ h₁ (fun u => (hu u).symm) (fun u => (hb u).symm) (fun u => (hn u).symm) x⟩

theorem combineReturns_exists (results : List IterateReqRespAll) (hne : results ≠ []) :
    ∃ out, CombineReturns results out := by
  cases results with
  | nil => exact absurd rfl hne
  | cons r₀ rest =>
    exact ⟨_, _, Combine_cons r₀ rest, rfl, rfl, rfl, fun _ => List.Perm.refl _⟩

theorem combineReturns_base {results : List IterateReqRespAll} {out : IterateReqRespAll}
    (h : CombineReturns results out) :
    out.BaseURL.Status = concatStatus (allBases results) ∧
    out.BaseURL.RespTimes = concatRespTimes (allBases results) ∧
    out.BaseURL.Bytes = sumBytes (allBases results) ∧
    out.BaseURL.NumRequests = ((concatStatus (allBases results)).length : Int) := by
  cases results with
  | nil =>
    obtain ⟨r, hr, _⟩ := h
    simp [Combine, goDiv, combineInit] at hr
  | cons r₀ rest =>
    rw [combineReturns_cons_iff] at h
    rw [h.2.2.1]
    exact ⟨rfl, rfl, rfl, rfl⟩

theorem mem_entry_eq {l out : List IterateReqResp} (h : MergedFrom l out)
    {e : IterateReqResp} (he : e ∈ out) :
    e.Status = concatStatus (entriesOf l e.URL) ∧
    e.RespTimes = concatRespTimes (entriesOf l e.URL) ∧
    e.Bytes = sumBytes (entriesOf l e.URL) ∧
    e.NumRequests = ((concatStatus (entriesOf l e.URL)).length : Int) := by
  have heq := ((h.2 e).1 he).2
  refine ⟨?_, ?_, ?_, ?_⟩
  · exact (congrArg IterateReqResp.Status heq).trans rfl
  · exact (congrArg IterateReqResp.RespTimes heq).trans rfl
  · exact (congrArg IterateReqResp.Bytes heq).trans rfl
  · exact (congrArg IterateReqResp.NumRequests heq).trans rfl

/-- C1: for a non-empty list of worker results `Combine` returns, and in every
result it can return, for each asset type, the output list has exactly one
entry per distinct URL of the workers' lists of that type (no URL twice, and
the URLs are those of the inputs); the Status of an entry is the
concatenation, in worker order, of the Status sequences of the input entries
with its URL, its RespTimes the concatenation of their RespTimes, its Bytes
the sum of their Bytes; and the base accumulator is built in the same way
from the workers' base accumulators. -/
theorem Combine_merges_per_URL (results : List IterateReqRespAll) (hne : results ≠ []) :
    (∃ out, CombineReturns results out) ∧
    ∀ out, CombineReturns results out →
      (∀ t : AssetType,
        ((out.assets t).map (fun e => e.URL)).Nodup ∧
        (∀ u, u ∈ (out.assets t).map (fun e => e.URL) ↔
          u ∈ (allAssets results t).map (fun e => e.URL)) ∧
        ∀ e ∈ out.assets t,
          e.Status = concatStatus (entriesOf (allAssets results t) e.URL) ∧
          e.RespTimes = concatRespTimes (entriesOf (allAssets results t) e.URL) ∧
          e.Bytes = sumBytes (entriesOf (allAssets results t) e.URL)) ∧
      out.BaseURL.Status = concatStatus (allBases results) ∧
      out.BaseURL.RespTimes = concatRespTimes (allBases results) ∧
      out.BaseURL.Bytes = sumBytes (allBases results) := by
  refine ⟨combineReturns_exists results hne, ?_⟩
  intro out h
  have hb := combineReturns_base h
  refine ⟨?_, hb.1, hb.2.1, hb.2.2.1⟩
  intro t
  have hm := combineReturns_mergedFrom h t
  refine ⟨hm.1, fun u => (hm.sameTotals u).1, ?_⟩
  intro e he
  have := mem_entry_eq hm he
  exact ⟨this.1, this.2.1, this.2.2.1⟩

/-- The sample result `mergedAB` is a possible result of `Combine`. -/
theorem combineReturns_mergedAB : CombineReturns [workerA, workerB] mergedAB := by
  refine ⟨_, Combine_cons workerA [workerB], by decide, by decide, by decide, ?_⟩
  intro t
  cases t
  · exact List.Perm.swap _ _ _
  · exact List.Perm.refl _
  · exact List.Perm.refl _

/-- Witness of C1 on two sample workers and the sample result `mergedAB`. -/
theorem Combine_merges_per_URL_witness :
    [workerA, workerB] ≠ [] ∧ CombineReturns [workerA, workerB] mergedAB ∧
      ((∀ t : AssetType,
        ((mergedAB.assets t).map (fun e => e.URL)).Nodup ∧
        (∀ u, u ∈ (mergedAB.assets t).map (fun e => e.URL) ↔
          u ∈ (allAssets [workerA, workerB] t).map (fun e => e.URL)) ∧
        ∀ e ∈ mergedAB.assets t,
          e.Status = concatStatus (entriesOf (allAssets [workerA, workerB] t) e.URL) ∧
          e.RespTimes = concatRespTimes (entriesOf (allAssets [workerA, workerB] t) e.URL) ∧
          e.Bytes = sumBytes (entriesOf (allAssets [workerA, workerB] t) e.URL)) ∧
      mergedAB.BaseURL.Status = concatStatus (allBases [workerA, workerB]) ∧
      mergedAB.BaseURL.RespTimes = concatRespTimes (allBases [workerA, workerB]) ∧
      mergedAB.BaseURL.Bytes = sumBytes (allBases [workerA, workerB])) :=
  ⟨by decide, combineReturns_mergedAB,
    (Combine_merges_per_URL [workerA, workerB] (by decide)).2 mergedAB combineReturns_mergedAB⟩

theorem combineReturns_of_eq {results : List IterateReqRespAll} {r : IterateReqRespAll}
    (h : Combine results = some r) : CombineReturns results r :=
  ⟨r, h, rfl, rfl, rfl, fun _ => List.Perm.refl _⟩

theorem allAssets_pair (a b : IterateReqRespAll) (t : AssetType) :
    allAssets [a, b] t = a.assets t ++ b.assets t := by
  simp [allAssets]

theorem allAssets_triple (a b c : IterateReqRespAll) (t : AssetType) :
    allAssets [a, b, c] t = a.assets t ++ b.assets t ++ c.assets t := by
  simp [allAssets]

/-- C2: for two worker results `a` and `b`, every result of `Combine([a, b])`
and every result of `Combine([b, a])` have the same byte total and request
count for the base page, the same (URL, byte total, request count) triples in
each of the JS, CSS and IMG lists up to reordering, and the same
AvgTotalRespTime and AvgTotalLinearRespTime. -/
theorem Combine_two_workers_either_order (a b o₁ o₂ : IterateReqRespAll)
    (h₁ : CombineReturns [a, b] o₁) (h₂ : CombineReturns [b, a] o₂) :
    o₁.BaseURL.Bytes = o₂.BaseURL.Bytes ∧
    o₁.BaseURL.NumRequests = o₂.BaseURL.NumRequests ∧
    (∀ t : AssetType, ((o₁.assets t).map totalsOf).Perm ((o₂.assets t).map totalsOf)) ∧
    o₁.AvgTotalRespTime = o₂.AvgTotalRespTime ∧
    o₁.AvgTotalLinearRespTime = o₂.AvgTotalLinearRespTime := by
  have hb₁ := combineReturns_base h₁
  have hb₂ := combineReturns_base h₂
  have hc₁ := (combineReturns_cons_iff a [b] o₁).1 h₁
  have hc₂ := (combineReturns_cons_iff b [a] o₂).1 h₂
  refine ⟨?_, ?_, ?_, ?_, ?_⟩
  · rw [hb₁.2.2.1, hb₂.2.2.1]
    simp [allBases, sumBytes, add_comm]
  · rw [hb₁.2.2.2, hb₂.2.2.2]
    simp [allBases, concatStatus, add_comm]
  · intro t
    have hm₁ := combineReturns_mergedFrom h₁ t
    have hm₂ := combineReturns_mergedFrom h₂ t
    rw [allAssets_pair] at hm₁ hm₂
    refine hm₁.totals_perm hm₂ ?_ ?_ ?_
    · intro u
      simp only [List.map_append, List.mem_append]
      exact or_comm
    · intro u
      simp only [entriesOf_append, sumBytes_append]
      exact add_comm _ _
    · intro u
      simp only [entriesOf_append, concatStatus_append, List.length_append]
      exact add_comm _ _
  · rw [hc₁.1, hc₂.1]
    simp [add_comm]
  · rw [hc₁.2.1, hc₂.2.1]
    simp [add_comm]

/-- C3: for three worker results `a`, `b`, `c`, every result of
`Combine([Combine([a, b]), c])`, of `Combine([a, Combine([b, c])])` and of
`Combine([a, b, c])` has the same base accumulator (byte total, request
count, status and duration sequences) and, for every asset type, the same
accumulators (URL, status and duration sequences, request count, byte total)
up to reordering of the list. -/
theorem Combine_three_workers_any_grouping (a b c ab bc r₁ r₂ r₃ : IterateReqRespAll)
    (hab : CombineReturns [a, b] ab) (h₁ : CombineReturns [ab, c] r₁)
    (hbc : CombineReturns [b, c] bc) (h₂ : CombineReturns [a, bc] r₂)
    (h₃ : CombineReturns [a, b, c] r₃) :
    r₁.BaseURL = r₃.BaseURL ∧ r₂.BaseURL = r₃.BaseURL ∧
    ∀ t : AssetType, (r₁.assets t).Perm (r₃.assets t) ∧ (r₂.assets t).Perm (r₃.assets t) := by
  have eab := ((combineReturns_cons_iff a [b] ab).1 hab).2.2.1
  have ebc := ((combineReturns_cons_iff b [c] bc).1 hbc).2.2.1
  have e₁ := ((combineReturns_cons_iff ab [c] r₁).1 h₁).2.2.1
  have e₂ := ((combineReturns_cons_iff a [bc] r₂).1 h₂).2.2.1
  have e₃ := ((combineReturns_cons_iff a [b, c] r₃).1 h₃).2.2.1
  refine ⟨?_, ?_, ?_⟩
  · rw [e₁, e₃]
    simp [mergeOf, allBases, concatStatus, concatRespTimes, sumBytes, eab, add_assoc]
  · rw [e₂, e₃]
    simp [mergeOf, allBases, concatStatus, concatRespTimes, sumBytes, ebc, add_assoc]
  · intro t
    have mab := combineReturns_mergedFrom hab t
    have mbc := combineReturns_mergedFrom hbc t
    have m₁ := combineReturns_mergedFrom h₁ t
    have m₂ := combineReturns_mergedFrom h₂ t
    have m₃ := combineReturns_mergedFrom h₃ t
    rw [allAssets_pair] at mab mbc m₁ m₂
    rw [allAssets_triple] at m₃
    constructor
    · exact m₁.perm_of_sameTotals m₃ (mab.sameTotals.append (SameTotals.refl _))
    · refine m₂.perm_of_sameTotals m₃ ?_
      rw [List.append_assoc]
      exact (SameTotals.refl _).append mbc.sameTotals

theorem combineReturns_mergedBA : CombineReturns [workerB, workerA] mergedBA :=
  combineReturns_of_eq (by decide)

theorem combineReturns_mergedBC : CombineReturns [workerB, workerC] mergedBC :=
  combineReturns_of_eq (by decide)

theorem combineReturns_mergedABthenC : CombineReturns [mergedAB, workerC] mergedABthenC :=
  combineReturns_of_eq (by decide)

theorem combineReturns_mergedAthenBC : CombineReturns [workerA, mergedBC] mergedAthenBC :=
  combineReturns_of_eq (by decide)

theorem combineReturns_mergedABC : CombineReturns [workerA, workerB, workerC] mergedABC :=
  combineReturns_of_eq (by decide)

/-- Witness of C2 on the sample workers and their two merges. -/
theorem Combine_two_workers_either_order_witness :
    CombineReturns [workerA, workerB] mergedAB ∧ CombineReturns [workerB, workerA] mergedBA ∧
    (mergedAB.BaseURL.Bytes = mergedBA.BaseURL.Bytes ∧
    mergedAB.BaseURL.NumRequests = mergedBA.BaseURL.NumRequests ∧
    (∀ t : AssetType,
      ((mergedAB.assets t).map totalsOf).Perm ((mergedBA.assets t).map totalsOf)) ∧
    mergedAB.AvgTotalRespTime = mergedBA.AvgTotalRespTime ∧
    mergedAB.AvgTotalLinearRespTime = mergedBA.AvgTotalLinearRespTime) :=
  ⟨combineReturns_mergedAB, combineReturns_mergedBA,
    Combine_two_workers_either_order workerA workerB mergedAB mergedBA
      combineReturns_mergedAB combineReturns_mergedBA⟩

/-- Witness of C3 on the three sample workers. -/
theorem Combine_three_workers_any_grouping_witness :
    CombineReturns [workerA, workerB] mergedAB ∧
    CombineReturns [mergedAB, workerC] mergedABthenC ∧
    CombineReturns [workerB, workerC] mergedBC ∧
    CombineReturns [workerA, mergedBC] mergedAthenBC ∧
    CombineReturns [workerA, workerB, workerC] mergedABC ∧
    (mergedABthenC.BaseURL = mergedABC.BaseURL ∧ mergedAthenBC.BaseURL = mergedABC.BaseURL ∧
    ∀ t : AssetType, (mergedABthenC.assets t).Perm (mergedABC.assets t) ∧
      (mergedAthenBC.assets t).Perm (mergedABC.assets t)) :=
  ⟨combineReturns_mergedAB, combineReturns_mergedABthenC, combineReturns_mergedBC,
    combineReturns_mergedAthenBC, combineReturns_mergedABC,
    Combine_three_workers_any_grouping workerA workerB workerC mergedAB mergedBC
      mergedABthenC mergedAthenBC mergedABC combineReturns_mergedAB
      combineReturns_mergedABthenC combineReturns_mergedBC combineReturns_mergedAthenBC
      combineReturns_mergedABC⟩

theorem iterateRequest_workerA :
    iterateRequest "http://h/" 1 [(roundA1, 15), (roundA2, 1000000033)] = some (workerA, 2) := by
  decide

theorem iterateRequest_workerB :
    iterateRequest "http://h/" 0 [(roundB1, 17)] = some (workerB, 1) := by
  decide

theorem iterateRequest_workerC :
    iterateRequest "http://h/" 0 [(roundC1, 14)] = some (workerC, 1) := by
  decide

theorem combineReturns_mergedABandBC : CombineReturns [mergedAB, mergedBC] mergedABandBC :=
  combineReturns_of_eq (by decide)

theorem concat_length_eq (l : List IterateReqResp)
    (h : ∀ e ∈ l, e.Status.length = e.RespTimes.length) :
    (concatStatus l).length = (concatRespTimes l).length := by
  induction l with
  | nil => simp [concatStatus, concatRespTimes]
  | cons x l ih =>
    have hx := h x (List.mem_cons_self _ _)
    have hl := ih (fun e he => h e (List.mem_cons_of_mem _ he))
    simp only [concatStatus, concatRespTimes] at hl ⊢
    simp [List.flatMap_cons, hx, hl]

theorem mem_allAssets {results : List IterateReqRespAll} {t : AssetType} {e : IterateReqResp}
    (he : e ∈ allAssets results t) : ∃ r ∈ results, e ∈ r.assets t := by
  simpa [allAssets, List.mem_flatMap] using he

theorem mem_of_mem_entriesOf {l : List IterateReqResp} {u : String} {e : IterateReqResp}
    (he : e ∈ entriesOf l u) : e ∈ l :=
  (List.mem_filter.1 he).1

/-- C4: for a non-empty list of worker results in which every accumulator has
as many statuses as durations, `Combine` returns, and every accumulator of
every result that it can return, the base accumulator and each entry of the
JS, CSS and IMG lists, has len(Status) = len(RespTimes) = NumRequests. -/
theorem Combine_count_invariant (results : List IterateReqRespAll) (hne : results ≠ [])
    (hin : ∀ r ∈ results, r.BaseURL.Status.length = r.BaseURL.RespTimes.length ∧
      ∀ t : AssetType, ∀ e ∈ r.assets t, e.Status.length = e.RespTimes.length) :
    (∃ out, CombineReturns results out) ∧
    ∀ out, CombineReturns results out →
      (out.BaseURL.Status.length = out.BaseURL.RespTimes.length ∧
        (out.BaseURL.RespTimes.length : Int) = out.BaseURL.NumRequests) ∧
      ∀ t : AssetType, ∀ e ∈ out.assets t,
        e.Status.length = e.RespTimes.length ∧ (e.RespTimes.length : Int) = e.NumRequests := by
  have hlen : ∀ {s r : List Int} {n : Int}, s.length = r.length → n = (s.length : Int) →
      s.length = r.length ∧ (r.length : Int) = n := by
    intro s r n h1 h2
    exact ⟨h1, by rw [h2, h1]⟩
  refine ⟨combineReturns_exists results hne, ?_⟩
  intro out h
  constructor
  · have hb := combineReturns_base h
    have hbase : (concatStatus (allBases results)).length =
        (concatRespTimes (allBases results)).length := by
      apply concat_length_eq
      intro e he
      obtain ⟨r, hr, rfl⟩ := List.mem_map.1 he
      exact (hin r hr).1
    apply hlen
    · rw [hb.1, hb.2.1]; exact hbase
    · rw [hb.2.2.2, hb.1]
  · intro t e he
    have hm := mem_entry_eq (combineReturns_mergedFrom h t) he
    have hasset : (concatStatus (entriesOf (allAssets results t) e.URL)).length =
        (concatRespTimes (entriesOf (allAssets results t) e.URL)).length := by
      apply concat_length_eq
      intro x hx
      obtain ⟨r, hr, hxr⟩ := mem_allAssets (mem_of_mem_entriesOf hx)
      exact (hin r hr).2 t x hxr
    apply hlen
    · rw [hm.1, hm.2.1]; exact hasset
    · rw [hm.2.2.2, hm.1]

/-- Witness of C4 on the sample workers `workerA` and `workerB`. -/
theorem Combine_count_invariant_witness :
    [workerA, workerB] ≠ [] ∧
    (∀ r ∈ [workerA, workerB], r.BaseURL.Status.length = r.BaseURL.RespTimes.length ∧
      ∀ t : AssetType, ∀ e ∈ r.assets t, e.Status.length = e.RespTimes.length) ∧
    CombineReturns [workerA, workerB] mergedAB ∧
    ((mergedAB.BaseURL.Status.length = mergedAB.BaseURL.RespTimes.length ∧
      (mergedAB.BaseURL.RespTimes.length : Int) = mergedAB.BaseURL.NumRequests) ∧
    ∀ t : AssetType, ∀ e ∈ mergedAB.assets t,
      e.Status.length = e.RespTimes.length ∧ (e.RespTimes.length : Int) = e.NumRequests) :=
  ⟨by decide, by decide, combineReturns_mergedAB,
    (Combine_count_invariant [workerA, workerB] (by decide) (by decide)).2 mergedAB
      combineReturns_mergedAB⟩

theorem concatStatus_length (l : List IterateReqResp) :
    ((concatStatus l).length : Int) = sumStatusLen l := by
  induction l with
  | nil => simp [concatStatus, sumStatusLen]
  | cons x l ih =>
    simp only [concatStatus, sumStatusLen] at ih ⊢
    rw [List.flatMap_cons, List.length_append, List.map_cons, List.sum_cons, ← ih]
    push_cast
    rfl

theorem sumNumRequests_eq_sumStatusLen (l : List IterateReqResp)
    (h : ∀ x ∈ l, x.NumRequests = (x.Status.length : Int)) :
    sumNumRequests l = sumStatusLen l := by
  unfold sumNumRequests sumStatusLen
  congr 1
  exact List.map_congr_left h

/-- C6, as the spec states it, fails: `workerA` and `workerB` are results of
`iterateRequest`, their base accumulators hold 2 and 1 statuses with the
request counter 0, and the merged base accumulator has the request counter 3,
not the sum 0 of the input counters. -/
theorem Combine_numRequests_not_sum_of_counters :
    ¬ (∀ results : List IterateReqRespAll, results ≠ [] →
        ∀ out, CombineReturns results out →
          out.BaseURL.NumRequests = sumNumRequests (allBases results) ∧
          ∀ t : AssetType, ∀ e ∈ out.assets t,
            e.NumRequests = sumNumRequests (entriesOf (allAssets results t) e.URL)) := by
  intro h
  have h1 := (h [workerA, workerB] (by decide) mergedAB combineReturns_mergedAB).1
  revert h1
  decide

/-- C6, amended: for a non-empty list of worker results `Combine` returns, and
the request counter of each merged accumulator of every result it can return,
for the base page and for every per-URL entry, is the total number of
statuses of the input accumulators merged into it; it is the sum of their
request counters whenever each of them has its request counter equal to its
number of statuses. -/
theorem Combine_numRequests_counts_statuses (results : List IterateReqRespAll)
    (hne : results ≠ []) :
    (∃ out, CombineReturns results out) ∧
    ∀ out, CombineReturns results out →
      (out.BaseURL.NumRequests = sumStatusLen (allBases results) ∧
        ((∀ x ∈ allBases results, x.NumRequests = (x.Status.length : Int)) →
          out.BaseURL.NumRequests = sumNumRequests (allBases results))) ∧
      ∀ t : AssetType, ∀ e ∈ out.assets t,
        e.NumRequests = sumStatusLen (entriesOf (allAssets results t) e.URL) ∧
        ((∀ x ∈ entriesOf (allAssets results t) e.URL, x.NumRequests = (x.Status.length : Int)) →
          e.NumRequests = sumNumRequests (entriesOf (allAssets results t) e.URL)) := by
  refine ⟨combineReturns_exists results hne, ?_⟩
  intro out h
  constructor
  · have hb := (combineReturns_base h).2.2.2
    rw [concatStatus_length] at hb
    exact ⟨hb, fun hx => by rw [hb, sumNumRequests_eq_sumStatusLen _ hx]⟩
  · intro t e he
    have hm := (mem_entry_eq (combineReturns_mergedFrom h t) he).2.2.2
    rw [concatStatus_length] at hm
    exact ⟨hm, fun hx => by rw [hm, sumNumRequests_eq_sumStatusLen _ hx]⟩

/-- Witness of the amended C6 on `mergedAB` and `mergedBC`, whose accumulators
all have their request counter equal to their number of statuses. -/
theorem Combine_numRequests_counts_statuses_witness :
    [mergedAB, mergedBC] ≠ [] ∧ CombineReturns [mergedAB, mergedBC] mergedABandBC ∧
    (∀ x ∈ allBases [mergedAB, mergedBC], x.NumRequests = (x.Status.length : Int)) ∧
    (∀ t : AssetType, ∀ x ∈ allAssets [mergedAB, mergedBC] t,
      x.NumRequests = (x.Status.length : Int)) ∧
    ((mergedABandBC.BaseURL.NumRequests = sumStatusLen (allBases [mergedAB, mergedBC]) ∧
        ((∀ x ∈ allBases [mergedAB, mergedBC], x.NumRequests = (x.Status.length : Int)) →
          mergedABandBC.BaseURL.NumRequests = sumNumRequests (allBases [mergedAB, mergedBC]))) ∧
      ∀ t : AssetType, ∀ e ∈ mergedABandBC.assets t,
        e.NumRequests = sumStatusLen (entriesOf (allAssets [mergedAB, mergedBC] t) e.URL) ∧
        ((∀ x ∈ entriesOf (allAssets [mergedAB, mergedBC] t) e.URL,
            x.NumRequests = (x.Status.length : Int)) →
          e.NumRequests = sumNumRequests (entriesOf (allAssets [mergedAB, mergedBC] t) e.URL))) :=
  ⟨by decide, combineReturns_mergedABandBC, by decide, by decide,
    (Combine_numRequests_counts_statuses [mergedAB, mergedBC] (by decide)).2 mergedABandBC
      combineReturns_mergedABandBC⟩

/-! ## Lemmas on the worker loop -/

theorem iterateLoop_base (maxTime : Int) :
    ∀ (rounds : List (FetchAllResponse × Int)) (st st' : IterateState),
      iterateLoop maxTime rounds st = some st' →
        st'.resp.NumRequests = st.resp.NumRequests ∧
        ∃ k : Nat, 1 ≤ k ∧ st'.count = st.count + (k : Int) ∧
          st'.resp.Status.length = st.resp.Status.length + k ∧
          st'.resp.RespTimes.length = st.resp.RespTimes.length + k := by
  intro rounds
  induction rounds with
  | nil => intro st st' h; simp [iterateLoop] at h
  | cons p rounds ih =>
    obtain ⟨fetchAllResp, elapsedTime⟩ := p
    intro st st' h
    by_cases hlt : elapsedTime > maxTime
    · simp only [iterateLoop, hlt, if_true, Option.some.injEq] at h
      subst h
      exact ⟨rfl, 1, le_refl _, by simp [iterateRound], by simp [iterateRound],
        by simp [iterateRound]⟩
    · simp only [iterateLoop, hlt, if_false] at h
      obtain ⟨h1, k, hk, h2, h3, h4⟩ := ih _ _ h
      refine ⟨by rw [h1]; rfl, k + 1, by omega, ?_, ?_, ?_⟩
      · rw [h2]; simp [iterateRound]; ring
      · rw [h3]; simp [iterateRound]; ring
      · rw [h4]; simp [iterateRound]; ring

/-- In every result of `iterateRequest` the base accumulator holds one status
and one duration per round, and its request counter is 0: the loop never
writes it. -/
theorem iterateRequest_base {url : String} {sec : Int}
    {rounds : List (FetchAllResponse × Int)} {out : IterateReqRespAll} {n : Int}
    (h : IterateRequestReturns url sec rounds out n) :
    1 ≤ n ∧ (out.BaseURL.Status.length : Int) = n ∧ (out.BaseURL.RespTimes.length : Int) = n ∧
      out.BaseURL.NumRequests = 0 := by
  obtain ⟨r, hr, _, _, hb, _⟩ := h
  unfold iterateRequest at hr
  cases hl : iterateLoop (maxTime sec) rounds (iterateInit url) with
  | none => simp [hl] at hr
  | some st =>
    obtain ⟨h1, k, hk, h2, h3, h4⟩ := iterateLoop_base _ _ _ _ hl
    have hc : st.count ≠ 0 := by
      rw [h2]; simp [iterateInit]; omega
    simp only [hl, Option.bind, goDiv, hc, if_false, Option.some.injEq, Prod.mk.injEq] at hr
    obtain ⟨hr1, hr2⟩ := hr
    rw [hb, ← hr1, ← hr2, h2]
    simp only [iterateInit, List.length_nil, zero_add] at h1 h3 h4 ⊢
    refine ⟨by omega, by rw [h3], by rw [h4], h1⟩

/-- C5, the code at a run of one round: `iterateRequest` returns `workerB`
after `n = 1` round, with one status and one duration in the base
accumulator, and with the request counter of the base accumulator 0, not 1. -/
theorem iterateRequest_base_counter_after_one_round :
    IterateRequestReturns "http://h/" 0 [(roundB1, 17)] workerB 1 ∧
      workerB.BaseURL.Status.length = 1 ∧ workerB.BaseURL.RespTimes.length = 1 ∧
      workerB.BaseURL.NumRequests = 0 ∧ workerB.BaseURL.NumRequests ≠ 1 :=
  ⟨⟨workerB, iterateRequest_workerB, rfl, rfl, rfl, fun _ => List.Perm.refl _⟩,
    by decide, by decide, by decide, by decide⟩

/-! ## Lemmas on `Itoa` -/

theorem digitChar_toNat (d : Nat) (h : d < 10) : (digitChar d).toNat = 48 + d := by
  interval_cases d <;> rfl

theorem digitChar_ne_minus (d : Nat) (h : d < 10) : digitChar d ≠ '-' := by
  interval_cases d <;> decide

theorem parseDigits_append_singleton (cs : List Char) (c : Char) :
    parseDigits (cs ++ [c]) = 10 * parseDigits cs + (c.toNat - 48) := by
  simp [parseDigits, List.foldl_append]

theorem parseDigits_formatDigits :
    ∀ (fuel n : Nat), n < fuel → parseDigits (formatDigits fuel n) = n := by
  intro fuel
  induction fuel with
  | zero => intro n h; omega
  | succ fuel ih =>
    intro n h
    by_cases h10 : n < 10
    · simp [formatDigits, h10, parseDigits, digitChar_toNat n h10]
    · have hdiv : n / 10 < fuel := by omega
      have hmod : n % 10 < 10 := Nat.mod_lt _ (by decide)
      simp only [formatDigits, h10, if_false]
      rw [parseDigits_append_singleton, ih _ hdiv, digitChar_toNat _ hmod]
      omega

theorem formatDigits_no_minus :
    ∀ (fuel n : Nat), ∀ c ∈ formatDigits fuel n, c ≠ '-' := by
  intro fuel
  induction fuel with
  | zero => intro n c hc; simp [formatDigits] at hc
  | succ fuel ih =>
    intro n c hc
    by_cases h10 : n < 10
    · simp only [formatDigits, h10, if_true, List.mem_singleton] at hc
      rw [hc]
      exact digitChar_ne_minus n h10
    · simp only [formatDigits, h10, if_false, List.mem_append, List.mem_singleton] at hc
      rcases hc with hc | hc
      · exact ih _ c hc
      · rw [hc]
        exact digitChar_ne_minus _ (Nat.mod_lt _ (by decide))

theorem formatDigits_injective (a b : Nat)
    (h : formatDigits (a + 1) a = formatDigits (b + 1) b) : a = b := by
  have ha := parseDigits_formatDigits (a + 1) a (by omega)
  have hb := parseDigits_formatDigits (b + 1) b (by omega)
  rw [h] at ha
  omega

/-- The function `Itoa` gives different texts to different integers. -/
theorem Itoa_injective (a b : Int) (h : Itoa a = Itoa b) : a = b := by
  unfold Itoa at h
  have hd := congrArg String.data h
  by_cases ha : a < 0 <;> by_cases hb : b < 0
  · simp only [ha, hb, if_true, List.cons.injEq, true_and] at hd
    have := formatDigits_injective _ _ hd
    omega
  · simp only [ha, hb, if_true, if_false] at hd
    have hmem : '-' ∈ formatDigits (b.natAbs + 1) b.natAbs := by
      rw [← hd]; exact List.mem_cons_self _ _
    exact absurd rfl (formatDigits_no_minus _ _ _ hmem)
  · simp only [ha, hb, if_true, if_false] at hd
    have hmem : '-' ∈ formatDigits (a.natAbs + 1) a.natAbs := by
      rw [hd]; exact List.mem_cons_self _ _
    exact absurd rfl (formatDigits_no_minus _ _ _ hmem)
  · simp only [ha, hb, if_false] at hd
    have := formatDigits_injective _ _ hd
    omega

/-! ## Lemmas on `procResult` -/

theorem mapSet_of_not_mem {ν : Type} (m : List (String × ν)) (k : String) (v : ν)
    (h : k ∉ mapKeys m) : mapSet m k v = m ++ [(k, v)] := by
  induction m with
  | nil => simp [mapSet]
  | cons p m ih =>
    obtain ⟨a, b⟩ := p
    simp only [mapKeys, List.map_cons, List.mem_cons, not_or] at h
    have hne : ¬ a = k := fun e => h.1 e.symm
    simp only [mapSet, hne, if_false, List.cons_append]
    rw [ih h.2]

theorem foldl_mapSet_fresh {ν : Type} (f : String → ν) :
    ∀ (ks : List String) (acc : List (String × ν)), ks.Nodup →
      (∀ k ∈ ks, k ∉ mapKeys acc) →
      ks.foldl (fun sm key => mapSet sm key (f key)) acc = acc ++ ks.map (fun k => (k, f k)) := by
  intro ks
  induction ks with
  | nil => intro acc _ _; simp
  | cons k ks ih =>
    intro acc hn hfresh
    rw [List.nodup_cons] at hn
    have hk : k ∉ mapKeys acc := hfresh k (List.mem_cons_self _ _)
    simp only [List.foldl_cons, mapSet_of_not_mem acc k (f k) hk]
    rw [ih _ hn.2]
    · simp
    · intro k' hk'
      simp only [mapKeys, List.map_append, List.map_cons, List.map_nil, List.mem_append,
        List.mem_singleton, not_or]
      refine ⟨hfresh k' (List.mem_cons_of_mem _ hk'), ?_⟩
      intro e
      exact hn.1 (e ▸ hk')

theorem mapGet_map_pair {ν : Type} (f : String → ν) (ks : List String) (k : String) :
    mapGet (ks.map (fun k => (k, f k))) k = if k ∈ ks then some (f k) else none := by
  induction ks with
  | nil => simp [mapGet]
  | cons a ks ih =>
    by_cases h : a = k
    · subst h
      simp [mapGet]
    · have h' : ¬ k = a := fun e => h e.symm
      simp [mapGet, h, h', ih]

theorem sumLens_mapAppend {α : Type} (m : List (String × List α)) (k : String) (x : α) :
    ((mapAppend m k x).map (fun kv => (kv.2.length : Int))).sum =
      (m.map (fun kv => (kv.2.length : Int))).sum + 1 := by
  induction m with
  | nil => simp [mapAppend, mapGetSlice, mapGet, mapSet]
  | cons p m ih =>
    obtain ⟨a, b⟩ := p
    by_cases h : a = k
    · subst h
      simp [mapAppend, mapGetSlice, mapGet, mapSet]
      ring
    · simp only [mapAppend, mapGetSlice, mapGet, mapSet, h, if_false] at ih ⊢
      simp only [List.map_cons, List.sum_cons, ih]
      ring

theorem sumLens_groupInto {α : Type} (key : α → String) (xs : List α) :
    ∀ m : List (String × List α),
      ((groupInto key m xs).map (fun kv => (kv.2.length : Int))).sum =
        (m.map (fun kv => (kv.2.length : Int))).sum + (xs.length : Int) := by
  induction xs with
  | nil => intro m; simp [groupInto]
  | cons x xs ih =>
    intro m
    have := ih (mapAppend m (key x) x)
    simp only [groupInto, List.foldl_cons] at this ⊢
    rw [this, sumLens_mapAppend]
    push_cast [List.length_cons]
    ring

theorem foldl_add_eq_sum (l : List Int) :
    ∀ a : Int, l.foldl (fun acc val => acc + val) a = a + l.sum := by
  induction l with
  | nil => intro a; simp
  | cons x l ih => intro a; simp [ih, add_assoc]

/-- The value of `procResult` on an accumulator with at least one status, in
closed form. -/
theorem procResult_eq (resp : IterateReqResp) (hne : resp.Status ≠ []) :
    procResult resp = some
      (Int.tdiv resp.RespTimes.sum (resp.Status.length : Int),
        (mapKeys (groupInto Itoa [] resp.Status)).map
          (fun k => (k, ((mapGetSlice (groupInto Itoa [] resp.Status) k).length : Int)))) := by
  have hlen : ¬ ((resp.Status.length : Int) = 0) := by
    intro h
    exact hne (List.length_eq_zero.1 (by exact_mod_cast h))
  have hn : (mapKeys (groupInto Itoa [] resp.Status)).Nodup :=
    groupInto_nodup Itoa resp.Status [] (by simp [mapKeys])
  unfold procResult
  simp only [goDiv, hlen, if_false, Option.bind, foldl_add_eq_sum, zero_add]
  rw [foldl_mapSet_fresh _ _ _ hn (by intro k _; simp [mapKeys])]
  simp

/-- C7: for an accumulator with a non-empty status sequence `procResult`
returns, the keys of its status map are exactly the decimal forms of the
status values of the sequence, each once, the map sends the decimal form of
each status to the number of occurrences of that status in the sequence, and
the counts of the map sum to the length of the sequence. -/
theorem procResult_status_histogram (resp : IterateReqResp) (hne : resp.Status ≠ []) :
    ∃ avg statusMap, procResult resp = some (avg, statusMap) ∧
      (mapKeys statusMap).Nodup ∧
      (∀ k, k ∈ mapKeys statusMap ↔ ∃ v ∈ resp.Status, k = Itoa v) ∧
      (∀ v ∈ resp.Status, mapGet statusMap (Itoa v) = some ((resp.Status.count v : Nat) : Int)) ∧
      (statusMap.map Prod.snd).sum = (resp.Status.length : Int) := by
  have hn : (mapKeys (groupInto Itoa [] resp.Status)).Nodup :=
    groupInto_nodup Itoa resp.Status [] (by simp [mapKeys])
  have hkeys : ∀ k, k ∈ mapKeys (groupInto Itoa [] resp.Status) ↔
      ∃ v ∈ resp.Status, k = Itoa v := by
    intro k
    rw [groupInto_keys]
    simp only [mapKeys, List.map_nil, List.not_mem_nil, false_or, List.mem_map]
    constructor
    · rintro ⟨v, hv, rfl⟩; exact ⟨v, hv, rfl⟩
    · rintro ⟨v, hv, rfl⟩; exact ⟨v, hv, rfl⟩
  have hslice : ∀ v, (mapGetSlice (groupInto Itoa [] resp.Status) (Itoa v)).length =
      resp.Status.count v := by
    intro v
    rw [groupInto_slice, List.count_eq_countP, List.countP_eq_length_filter]
    simp only [mapGetSlice, mapGet, Option.getD_none, List.nil_append]
    congr 1
    apply List.filter_congr
    intro x _
    by_cases hx : x = v
    · simp [hx]
    · have : ¬ Itoa x = Itoa v := fun e => hx (Itoa_injective _ _ e)
      simp [hx, this]
  refine ⟨_, _, procResult_eq resp hne, ?_, ?_, ?_, ?_⟩
  · simpa [mapKeys, List.map_map, Function.comp_def] using hn
  · intro k
    rw [← hkeys k]
    simp [mapKeys, List.map_map, Function.comp_def]
  · intro v hv
    rw [mapGet_map_pair, if_pos ((hkeys _).2 ⟨v, hv, rfl⟩), hslice]
  · have h1 := sumLens_groupInto Itoa resp.Status []
    simp only [List.map_nil, List.sum_nil, zero_add] at h1
    rw [← h1, List.map_map]
    simp only [mapKeys, List.map_map]
    congr 1
    apply List.map_congr_left
    intro kv hkv
    simp only [Function.comp_apply]
    rw [mapGetSlice_of_mem _ hn kv.1 kv.2 hkv]

/-- Witness of C7 on an accumulator with the statuses 200, -100, 200. -/
theorem procResult_status_histogram_witness :
    sampleAcc.Status ≠ [] ∧
    ∃ avg statusMap, procResult sampleAcc = some (avg, statusMap) ∧
      (mapKeys statusMap).Nodup ∧
      (∀ k, k ∈ mapKeys statusMap ↔ ∃ v ∈ sampleAcc.Status, k = Itoa v) ∧
      (∀ v ∈ sampleAcc.Status,
        mapGet statusMap (Itoa v) = some ((sampleAcc.Status.count v : Nat) : Int)) ∧
      (statusMap.map Prod.snd).sum = (sampleAcc.Status.length : Int) :=
  ⟨by decide, procResult_status_histogram sampleAcc (by decide)⟩

/-- The report of the sample accumulator, evaluated. -/
theorem procResult_sampleAcc :
    procResult sampleAcc = some (10, [("200", 2), ("-100", 1)]) := by
  decide

/-- C8: for every accumulator of a result that `Combine` can return, the base
accumulator or an entry of the JS, CSS or IMG list, that holds at least one
request, `procResult` returns, and the average duration it returns is the sum
of the accumulator's merged duration sequence divided, with truncation, by
its merged request count NumRequests. -/
theorem procResult_average_of_merged (results : List IterateReqRespAll)
    (out : IterateReqRespAll) (h : CombineReturns results out) (acc : IterateReqResp)
    (hacc : acc = out.BaseURL ∨ ∃ t : AssetType, acc ∈ out.assets t)
    (hpos : 1 ≤ acc.NumRequests) :
    ∃ statusMap,
      procResult acc = some (Int.tdiv acc.RespTimes.sum acc.NumRequests, statusMap) := by
  have hnum : acc.NumRequests = (acc.Status.length : Int) := by
    rcases hacc with hacc | ⟨t, hacc⟩
    · have hb := combineReturns_base h
      rw [hacc, hb.2.2.2, hb.1]
    · have hm := mem_entry_eq (combineReturns_mergedFrom h t) hacc
      rw [hm.2.2.2, hm.1]
  have hne : acc.Status ≠ [] := by
    intro he
    rw [hnum, he] at hpos
    simp at hpos
  rw [procResult_eq acc hne, hnum]
  exact ⟨_, rfl⟩

/-- Witness of C8 on the base accumulator of the sample merge `mergedAB`. -/
theorem procResult_average_of_merged_witness :
    CombineReturns [workerA, workerB] mergedAB ∧
    (mergedAB.BaseURL = mergedAB.BaseURL ∨ ∃ t : AssetType, mergedAB.BaseURL ∈ mergedAB.assets t) ∧
    1 ≤ mergedAB.BaseURL.NumRequests ∧
    ∃ statusMap, procResult mergedAB.BaseURL =
      some (Int.tdiv mergedAB.BaseURL.RespTimes.sum mergedAB.BaseURL.NumRequests, statusMap) :=
  ⟨combineReturns_mergedAB, Or.inl rfl, by decide,
    procResult_average_of_merged [workerA, workerB] mergedAB combineReturns_mergedAB
      mergedAB.BaseURL (Or.inl rfl) (by decide)⟩

/-- C9, the code at an accumulator with zero requests: `procResult` panics on
the division by `len(resp.Status) = 0`; it does not return the average 0 and
an empty status map. -/
theorem procResult_zero_requests_panics :
    zeroAcc.Status = [] ∧ zeroAcc.RespTimes = [] ∧ zeroAcc.NumRequests = 0 ∧
      procResult zeroAcc = none ∧ procResult zeroAcc ≠ some (0, []) := by
  decide

/-! ## Lemmas on `DefineAssetURL` -/

theorem length_le_utf8ByteSize (s : String) : s.data.length ≤ s.utf8ByteSize := by
  obtain ⟨cs⟩ := s
  simp only [String.utf8ByteSize_mk]
  induction cs with
  | nil => simp
  | cons c cs ih =>
    have := Char.utf8Size_pos c
    simp only [List.length_cons, String.utf8Len_cons]
    omega

/-- C10: for every base URL, whether `url.Parse` accepts it or not, and every
asset URL whose first four characters are "http", `DefineAssetURL` returns
the asset URL unchanged. -/
theorem DefineAssetURL_absolute_unchanged (parse : String → Except String URL)
    (baseURL asseturl : String) (h : asseturl.data.take 4 = ['h', 't', 't', 'p']) :
    DefineAssetURL parse baseURL asseturl = .ok asseturl := by
  have hlen : 4 ≤ asseturl.data.length := by
    have := congrArg List.length h
    simp only [List.length_take, List.length_cons, List.length_nil] at this
    omega
  have hbytes : ¬ asseturl.utf8ByteSize < 4 := by
    have := length_le_utf8ByteSize asseturl
    omega
  have hpre : asseturl.data.take HTTPProtocolLength = HTTPScheme.data := h
  unfold DefineAssetURL
  simp only [HTTPProtocolLength] at hpre ⊢
  rw [if_neg hbytes, if_pos hpre]

/-- Witness of C10: the example of the spec, with a parser that rejects the
base URL. -/
theorem DefineAssetURL_absolute_unchanged_witness :
    "https://cdn.example.com/a.js".data.take 4 = ['h', 't', 't', 'p'] ∧
    DefineAssetURL parseNothing "https://example.com" "https://cdn.example.com/a.js" =
      .ok "https://cdn.example.com/a.js" :=
  ⟨by decide,
    DefineAssetURL_absolute_unchanged parseNothing "https://example.com"
      "https://cdn.example.com/a.js" (by decide)⟩

theorem sampleParse_example :
    sampleParse "https://example.com/page" = .ok { Scheme := "https", Host := "example.com" } := by
  rfl

theorem sampleParse_port :
    sampleParse "http://localhost:8080/page" =
      .ok { Scheme := "http", Host := "localhost:8080" } := by
  rfl

theorem sampleParse_colon :
    sampleParse "://example.com" = .error "missing protocol scheme" := by
  rfl

theorem length_le_utf8ByteSize_four (s : String) (h : 4 ≤ s.length) : ¬ s.utf8ByteSize < 4 := by
  have := length_le_utf8ByteSize s
  have hl : s.length = s.data.length := rfl
  omega

/-- C11: for every base URL that parses to a URL `u` with scheme `s` and host
name `h` (the host that `Hostname` gives, the host without its port), and
every asset URL of at least four characters that does not begin with "http",
`DefineAssetURL` returns `s ++ "://" ++ h ++ asset` when the asset URL begins
with "/" and `s ++ "://" ++ h ++ "/" ++ asset` otherwise. -/
theorem DefineAssetURL_relative (parse : String → Except String URL)
    (baseURL asseturl : String) (u : URL) (hp : parse baseURL = .ok u)
    (hlen : 4 ≤ asseturl.length) (hpre : asseturl.data.take 4 ≠ ['h', 't', 't', 'p']) :
    (asseturl.data.head? = some '/' →
      DefineAssetURL parse baseURL asseturl =
        .ok (u.Scheme ++ "://" ++ u.Hostname ++ asseturl)) ∧
    (asseturl.data.head? ≠ some '/' →
      DefineAssetURL parse baseURL asseturl =
        .ok (u.Scheme ++ "://" ++ u.Hostname ++ "/" ++ asseturl)) := by
  have hbytes := length_le_utf8ByteSize_four asseturl hlen
  have hpre' : ¬ asseturl.data.take 4 = HTTPScheme.data := hpre
  constructor
  · intro hs
    unfold DefineAssetURL
    simp only [HTTPProtocolLength]
    rw [if_neg hbytes, if_neg hpre', hp]
    simp only [hs, if_true]
  · intro hs
    unfold DefineAssetURL
    simp only [HTTPProtocolLength]
    rw [if_neg hbytes, if_neg hpre', hp]
    simp only [hs, if_false, PathSeparator]

/-- Witness of C11: the two examples of the spec; both assets resolve to
"https://example.com/a.js". -/
theorem DefineAssetURL_relative_witness :
    sampleParse "https://example.com/page" = .ok { Scheme := "https", Host := "example.com" } ∧
    (4 ≤ "/a.js".length ∧ "/a.js".data.take 4 ≠ ['h', 't', 't', 'p'] ∧
      "/a.js".data.head? = some '/' ∧
      DefineAssetURL sampleParse "https://example.com/page" "/a.js" =
        .ok "https://example.com/a.js") ∧
    (4 ≤ "a.js".length ∧ "a.js".data.take 4 ≠ ['h', 't', 't', 'p'] ∧
      "a.js".data.head? ≠ some '/' ∧
      DefineAssetURL sampleParse "https://example.com/page" "a.js" =
        .ok "https://example.com/a.js") :=
  ⟨sampleParse_example,
    ⟨by decide, by decide, by decide,
      (DefineAssetURL_relative sampleParse "https://example.com/page" "/a.js" _
        sampleParse_example (by decide) (by decide)).1 (by decide)⟩,
    ⟨by decide, by decide, by decide,
      (DefineAssetURL_relative sampleParse "https://example.com/page" "a.js" _
        sampleParse_example (by decide) (by decide)).2 (by decide)⟩⟩

/-- C12, the code at the example of the claim: for the base URL
"http://localhost:8080/page", which parses to the host "localhost:8080", and
the asset "/a.js", `DefineAssetURL` builds the prefix from `u.Hostname()` and
returns "http://localhost/a.js"; the port is lost, and the result is not
"http://localhost:8080/a.js". -/
theorem DefineAssetURL_drops_port :
    sampleParse "http://localhost:8080/page" =
        .ok { Scheme := "http", Host := "localhost:8080" } ∧
      DefineAssetURL sampleParse "http://localhost:8080/page" "/a.js" =
        .ok "http://localhost/a.js" ∧
      DefineAssetURL sampleParse "http://localhost:8080/page" "/a.js" ≠
        .ok "http://localhost:8080/a.js" := by
  refine ⟨rfl, rfl, ?_⟩
  intro h
  have h2 : DefineAssetURL sampleParse "http://localhost:8080/page" "/a.js" =
      .ok "http://localhost/a.js" := rfl
  rw [h2] at h
  exact absurd (Except.ok.inj h) (by decide)

/-- C13, as the spec states it, fails: the base URL "://example.com" does not
parse, and for the asset URL "https://cdn.example.com/a.js" `DefineAssetURL`
returns the asset URL; it does not abort. -/
theorem DefineAssetURL_returns_despite_parse_failure :
    ¬ (∀ (parse : String → Except String URL) (baseURL asseturl err : String),
        parse baseURL = .error err →
          DefineAssetURL parse baseURL asseturl = .error (.parseFailure err)) := by
  intro h
  have h1 := h sampleParse "://example.com" "https://cdn.example.com/a.js"
    "missing protocol scheme" rfl
  have h2 : DefineAssetURL sampleParse "://example.com" "https://cdn.example.com/a.js" =
      .ok "https://cdn.example.com/a.js" := rfl
  rw [h2] at h1
  cases h1

/-- C13, amended: for every base URL that fails to parse and every asset URL
of at least four bytes that does not begin with "http", `DefineAssetURL`
aborts with the parse failure and returns no URL; an asset URL that begins
with "http" is returned unchanged, the base URL is not parsed for it. -/
theorem DefineAssetURL_parse_failure (parse : String → Except String URL)
    (baseURL asseturl err : String) (hp : parse baseURL = .error err) :
    (4 ≤ asseturl.utf8ByteSize → asseturl.data.take 4 ≠ ['h', 't', 't', 'p'] →
      DefineAssetURL parse baseURL asseturl = .error (.parseFailure err) ∧
      ∀ resolved, DefineAssetURL parse baseURL asseturl ≠ .ok resolved) ∧
    (asseturl.data.take 4 = ['h', 't', 't', 'p'] →
      DefineAssetURL parse baseURL asseturl = .ok asseturl) := by
  constructor
  · intro hlen hpre
    have hbytes : ¬ asseturl.utf8ByteSize < 4 := by omega
    have hpre' : ¬ asseturl.data.take 4 = HTTPScheme.data := hpre
    have he : DefineAssetURL parse baseURL asseturl = .error (.parseFailure err) := by
      unfold DefineAssetURL
      simp only [HTTPProtocolLength]
      rw [if_neg hbytes, if_neg hpre', hp]
    refine ⟨he, ?_⟩
    intro resolved hr
    rw [he] at hr
    cases hr
  · intro hpre
    have hlen : 4 ≤ asseturl.data.length := by
      have := congrArg List.length hpre
      simp only [List.length_take, List.length_cons, List.length_nil] at this
      omega
    have hbytes : ¬ asseturl.utf8ByteSize < 4 := by
      have := length_le_utf8ByteSize asseturl
      omega
    have hpre' : asseturl.data.take 4 = HTTPScheme.data := hpre
    unfold DefineAssetURL
    simp only [HTTPProtocolLength]
    rw [if_neg hbytes, if_pos hpre']

/-- Witness of the amended C13: the base URL "://example.com" does not parse;
the asset "/a.js" aborts with the parse failure, the asset
"https://cdn.example.com/a.js" is returned unchanged. -/
theorem DefineAssetURL_parse_failure_witness :
    sampleParse "://example.com" = .error "missing protocol scheme" ∧
    (4 ≤ "/a.js".utf8ByteSize ∧ "/a.js".data.take 4 ≠ ['h', 't', 't', 'p'] ∧
      DefineAssetURL sampleParse "://example.com" "/a.js" =
        .error (.parseFailure "missing protocol scheme") ∧
      ∀ resolved, DefineAssetURL sampleParse "://example.com" "/a.js" ≠ .ok resolved) ∧
    ("https://cdn.example.com/a.js".data.take 4 = ['h', 't', 't', 'p'] ∧
      DefineAssetURL sampleParse "://example.com" "https://cdn.example.com/a.js" =
        .ok "https://cdn.example.com/a.js") :=
  ⟨sampleParse_colon,
    ⟨by decide, by decide,
      (DefineAssetURL_parse_failure sampleParse "://example.com" "/a.js" _
        sampleParse_colon).1 (by decide) (by decide)⟩,
    ⟨by decide,
      (DefineAssetURL_parse_failure sampleParse "://example.com"
        "https://cdn.example.com/a.js" _ sampleParse_colon).2 (by decide)⟩⟩

/-! ## Lemmas on `Fetch` -/

/-- C14, as the spec states it, fails: when the server answers 200 and the
read of the body fails, `Fetch` returns a response with the status 200 of the
server, not with the sentinel -100. -/
theorem Fetch_failure_status_not_always_sentinel :
    ¬ (∀ (input : FetchInput) (ex : Exchange), ex.isFailure = true →
        ∃ r, Fetch input ex = some r ∧ r.Status = HTTPStatusConnectionError ∧ r.Error ≠ "") := by
  intro h
  obtain ⟨r, hr, hs, _⟩ := h sampleInput readFailure rfl
  have h2 : Fetch sampleInput readFailure =
      some { URL := "https://example.com/page", Body := "", Headers := [], Bytes := 0,
             Runes := 0, Time := 5, Status := 200, Error := "unexpected EOF" } := rfl
  rw [h2] at hr
  cases hr
  revert hs
  decide

/-- The request that cannot be constructed: `Fetch` panics on the nil
request. -/
theorem Fetch_requestError (input : FetchInput) (err : String) :
    Fetch input (.requestError err) = none := rfl

/-- C14, amended: for every FetchInput, when the transport call fails `Fetch`
returns a response whose Status is the sentinel -100 and whose Error is the
non-empty text "Request failed"; when reading the response body fails it
returns a response with the status code of the server, an empty body, zero
Bytes and Runes, and the text of the read error as Error; it aborts in
neither case. -/
theorem Fetch_failure_paths (input : FetchInput) :
    (∀ err : String, ∃ r, Fetch input (.transportError err) = some r ∧
      r.Status = -100 ∧ r.Error = "Request failed" ∧ r.Error ≠ "") ∧
    (∀ (StatusCode : Int) (Header : List (String × List String)) (responseTime : Int)
        (err : String),
      ∃ r, Fetch input (.response StatusCode Header responseTime (.error err)) = some r ∧
        r.Status = StatusCode ∧ r.Error = err ∧ r.Body = "" ∧ r.Bytes = 0 ∧ r.Runes = 0) := by
  constructor
  · intro err
    refine ⟨_, rfl, rfl, rfl, ?_⟩
    show ErrorRequestFailed ≠ ""
    decide
  · intro StatusCode Header responseTime err
    cases hret : input.Retdat
    · refine ⟨{ URL := input.BaseURL, Body := "", Headers := [], Bytes := 0, Runes := 0,
                Time := responseTime, Status := StatusCode, Error := err },
        ?_, rfl, rfl, rfl, rfl, rfl⟩
      simp only [Fetch, hret, if_true]
      rfl
    · refine ⟨{ URL := input.BaseURL, Body := "", Headers := Header, Bytes := 0, Runes := 0,
                Time := responseTime, Status := StatusCode, Error := err },
        ?_, rfl, rfl, rfl, rfl, rfl⟩
      simp only [Fetch, hret, Bool.true_eq_false, if_false]
      rfl

/-- C15: for every successful exchange (a response whose body `body` is read
in full), `Fetch` with Retdat false returns a response with an empty Body and
an empty Headers map whose URL, Bytes (the byte length of `body`), Runes,
Time, Status and Error are those that `Fetch` returns for the same exchange
with Retdat true. -/
theorem Fetch_retdat_false_clears_data (input : FetchInput) (StatusCode : Int)
    (Header : List (String × List String)) (responseTime : Int) (body : String) :
    ∃ r₁ r₂,
      Fetch { input with Retdat := false }
        (.response StatusCode Header responseTime (.ok body)) = some r₁ ∧
      Fetch { input with Retdat := true }
        (.response StatusCode Header responseTime (.ok body)) = some r₂ ∧
      r₁.Body = "" ∧ r₁.Headers = [] ∧ r₂.Body = body ∧ r₂.Headers = Header ∧
      r₁.URL = r₂.URL ∧ r₁.Bytes = r₂.Bytes ∧ r₁.Bytes = (body.utf8ByteSize : Int) ∧
      r₁.Runes = r₂.Runes ∧ r₁.Time = r₂.Time ∧ r₁.Status = r₂.Status ∧
      r₁.Error = r₂.Error :=
  ⟨_, _, rfl, rfl, rfl, rfl, rfl, rfl, rfl, rfl, rfl, rfl, rfl, rfl, rfl⟩

/-- C16, the code at a fetch that fails at the transport level: the URL field
of the response that `Fetch` returns is the text of the error, not the URL
"https://example.com/page" of the input. -/
theorem Fetch_transport_failure_URL :
    ∃ r, Fetch sampleInput transportFailure = some r ∧
      r.URL = "Get https://example.com/page: dial tcp: connect: connection refused" ∧
      r.URL ≠ sampleInput.BaseURL :=
  ⟨_, rfl, rfl, by decide⟩

/-! ## Lemmas on `gatherStats` -/

theorem gatherStatsStep_get (respMap : List (String × IterateReqResp)) (r : FetchResponse) :
    mapGet (gatherStatsStep respMap r) r.URL = some
      { URL := (accumulatorOf respMap r.URL).URL
        Status := (accumulatorOf respMap r.URL).Status ++ [r.Status]
        RespTimes := (accumulatorOf respMap r.URL).RespTimes ++ [r.Time]
        NumRequests := (accumulatorOf respMap r.URL).NumRequests + 1
        Bytes := (accumulatorOf respMap r.URL).Bytes + r.Bytes } := by
  unfold gatherStatsStep accumulatorOf
  cases h : mapGet respMap r.URL with
  | none => simp [mapGet_mapSet]
  | some acc => simp [h, mapGet_mapSet]

/-- The count that the histogram of `procResult` holds for a status, read as 0
when the histogram has no key for it, is the number of occurrences of the
status in the sequence. -/
theorem procResult_count (resp : IterateReqResp) (hne : resp.Status ≠ []) (v : Int) :
    ∃ avg statusMap, procResult resp = some (avg, statusMap) ∧
      (mapGet statusMap (Itoa v)).getD 0 = ((resp.Status.count v : Nat) : Int) ∧
      (v ∈ resp.Status → mapGet statusMap (Itoa v) = some ((resp.Status.count v : Nat) : Int)) := by
  have hkeys : Itoa v ∈ mapKeys (groupInto Itoa [] resp.Status) ↔ v ∈ resp.Status := by
    rw [groupInto_keys]
    simp only [mapKeys, List.map_nil, List.not_mem_nil, false_or, List.mem_map]
    constructor
    · rintro ⟨w, hw, he⟩
      rw [← Itoa_injective _ _ he]
      exact hw
    · intro hv
      exact ⟨v, hv, rfl⟩
  have hslice : (mapGetSlice (groupInto Itoa [] resp.Status) (Itoa v)).length =
      resp.Status.count v := by
    rw [groupInto_slice, List.count_eq_countP, List.countP_eq_length_filter]
    simp only [mapGetSlice, mapGet, Option.getD_none, List.nil_append]
    congr 1
    apply List.filter_congr
    intro x _
    by_cases hx : x = v
    · simp [hx]
    · have : ¬ Itoa x = Itoa v := fun e => hx (Itoa_injective _ _ e)
      simp [hx, this]
  refine ⟨_, _, procResult_eq resp hne, ?_, ?_⟩
  · rw [mapGet_map_pair]
    by_cases hv : v ∈ resp.Status
    · rw [if_pos (hkeys.2 hv), hslice]
      rfl
    · rw [if_neg (fun hk => hv (hkeys.1 hk))]
      simp [List.count_eq_zero_of_not_mem hv]
  · intro hv
    rw [mapGet_map_pair, if_pos (hkeys.2 hv), hslice]

theorem procResult_single_failure (u : String) (b n : Int) :
    procResult { URL := u, Status := [-100], RespTimes := [0], NumRequests := n, Bytes := b } =
      some (0, [("-100", 1)]) := by
  have h : procResult
      { URL := u, Status := [-100], RespTimes := [0], NumRequests := n, Bytes := b } =
      procResult { URL := "", Status := [-100], RespTimes := [0], NumRequests := 0, Bytes := 0 } :=
    rfl
  rw [h]
  decide

theorem procResult_nil (resp : IterateReqResp) (h : resp.Status = []) :
    procResult resp = none := by
  simp [procResult, goDiv, h]

/-- C17: let `r` be the response that `Fetch` returns on a transport failure.
Folding `r` with `gatherStats` into any accumulator map leaves, under the URL
of `r`, an accumulator whose request count is one more than before, whose
status sequence is the former one with one -100 appended, and whose byte
total is unchanged (a URL without accumulator counts as a fresh accumulator);
the histogram that `procResult` gives for it holds under "-100" one more than
the number of -100 before, which is one more than the former histogram held
(0 when it had no such key); starting from the empty map the histogram is
exactly the map with "-100" sent to 1. -/
theorem gatherStats_failed_fetch (input : FetchInput) (err : String) (r : FetchResponse)
    (hr : Fetch input (.transportError err) = some r)
    (respMap : List (String × IterateReqResp)) :
    ∃ acc, mapGet (gatherStats [r] respMap) r.URL = some acc ∧
      acc.NumRequests = (accumulatorOf respMap r.URL).NumRequests + 1 ∧
      acc.Status = (accumulatorOf respMap r.URL).Status ++ [-100] ∧
      acc.Bytes = (accumulatorOf respMap r.URL).Bytes ∧
      ∃ avg statusMap, procResult acc = some (avg, statusMap) ∧
        mapGet statusMap "-100" =
          some ((((accumulatorOf respMap r.URL).Status.count (-100) : Nat) : Int) + 1) ∧
        (∀ avg₀ statusMap₀,
          procResult (accumulatorOf respMap r.URL) = some (avg₀, statusMap₀) →
            mapGet statusMap "-100" = some ((mapGet statusMap₀ "-100").getD 0 + 1)) ∧
        (respMap = [] → statusMap = [("-100", 1)]) := by
  have hr' : r =
      { URL := err, Body := "", Headers := [], Bytes := 0, Runes := 0, Time := 0,
        Status := -100, Error := ErrorRequestFailed } := by
    simp only [Fetch, Option.some.injEq] at hr
    exact hr.symm
  have hstatus : r.Status = -100 := by rw [hr']
  have hbytes : r.Bytes = 0 := by rw [hr']
  have htime : r.Time = 0 := by rw [hr']
  have hget := gatherStatsStep_get respMap r
  rw [hstatus, hbytes, htime, add_zero] at hget
  have hne : ((accumulatorOf respMap r.URL).Status ++ [(-100 : Int)]) ≠ [] := by simp
  obtain ⟨avg, statusMap, hp, _, hcount⟩ := procResult_count
    { URL := (accumulatorOf respMap r.URL).URL
      Status := (accumulatorOf respMap r.URL).Status ++ [-100]
      RespTimes := (accumulatorOf respMap r.URL).RespTimes ++ [0]
      NumRequests := (accumulatorOf respMap r.URL).NumRequests + 1
      Bytes := (accumulatorOf respMap r.URL).Bytes } hne (-100)
  have hitoa : Itoa (-100) = "-100" := by decide
  have hc : mapGet statusMap "-100" =
      some ((((accumulatorOf respMap r.URL).Status.count (-100) : Nat) : Int) + 1) := by
    have := hcount (by simp)
    rw [hitoa] at this
    rw [this]
    simp [List.count_append]
  refine ⟨_, hget, rfl, rfl, rfl, avg, statusMap, hp, hc, ?_, ?_⟩
  · intro avg₀ statusMap₀ h₀
    have hne₀ : (accumulatorOf respMap r.URL).Status ≠ [] := by
      intro he
      rw [procResult_nil _ he] at h₀
      cases h₀
    obtain ⟨avg₁, statusMap₁, hp₁, hd, _⟩ :=
      procResult_count (accumulatorOf respMap r.URL) hne₀ (-100)
    rw [h₀] at hp₁
    cases hp₁
    rw [hitoa] at hd
    rw [hc, hd]
  · intro hempty
    subst hempty
    have h1 := procResult_single_failure r.URL 0 (0 + 1)
    simp only [accumulatorOf, mapGet, Option.getD_none, List.nil_append] at hp
    rw [h1] at hp
    cases hp
    rfl

theorem Fetch_sampleFailed : Fetch sampleInput transportFailure = some sampleFailed := rfl

/-- Witness of C17: the failed fetch `sampleFailed` folded into a map that
holds two earlier failures under the same key, and into the empty map. -/
theorem gatherStats_failed_fetch_witness :
    Fetch sampleInput transportFailure = some sampleFailed ∧
    procResult (accumulatorOf sampleFailMap sampleFailed.URL) = some (0, [("-100", 2)]) ∧
    (∃ acc, mapGet (gatherStats [sampleFailed] sampleFailMap) sampleFailed.URL = some acc ∧
      acc.NumRequests = (accumulatorOf sampleFailMap sampleFailed.URL).NumRequests + 1 ∧
      acc.Status = (accumulatorOf sampleFailMap sampleFailed.URL).Status ++ [-100] ∧
      acc.Bytes = (accumulatorOf sampleFailMap sampleFailed.URL).Bytes ∧
      ∃ avg statusMap, procResult acc = some (avg, statusMap) ∧
        mapGet statusMap "-100" =
          some ((((accumulatorOf sampleFailMap sampleFailed.URL).Status.count (-100) : Nat)
            : Int) + 1) ∧
        (∀ avg₀ statusMap₀,
          procResult (accumulatorOf sampleFailMap sampleFailed.URL) = some (avg₀, statusMap₀) →
            mapGet statusMap "-100" = some ((mapGet statusMap₀ "-100").getD 0 + 1)) ∧
        (sampleFailMap = [] → statusMap = [("-100", 1)])) ∧
    (∃ acc, mapGet (gatherStats [sampleFailed] []) sampleFailed.URL = some acc ∧
      acc.NumRequests = (accumulatorOf [] sampleFailed.URL).NumRequests + 1 ∧
      acc.Status = (accumulatorOf [] sampleFailed.URL).Status ++ [-100] ∧
      acc.Bytes = (accumulatorOf [] sampleFailed.URL).Bytes ∧
      ∃ avg statusMap, procResult acc = some (avg, statusMap) ∧
        mapGet statusMap "-100" =
          some ((((accumulatorOf [] sampleFailed.URL).Status.count (-100) : Nat) : Int) + 1) ∧
        (∀ avg₀ statusMap₀,
          procResult (accumulatorOf [] sampleFailed.URL) = some (avg₀, statusMap₀) →
            mapGet statusMap "-100" = some ((mapGet statusMap₀ "-100").getD 0 + 1)) ∧
        (([] : List (String × IterateReqResp)) = [] → statusMap = [("-100", 1)])) :=
  ⟨Fetch_sampleFailed, by decide,
    gatherStats_failed_fetch sampleInput _ sampleFailed Fetch_sampleFailed sampleFailMap,
    gatherStats_failed_fetch sampleInput _ sampleFailed Fetch_sampleFailed []⟩

/-- The failed fetch `sampleFailed` folded into the empty map, evaluated. -/
theorem gatherStats_sampleFailed :
    gatherStats [sampleFailed] [] =
      [("Get https://example.com/page: dial tcp: connect: connection refused",
        { URL := "Get https://example.com/page: dial tcp: connect: connection refused",
          Status := [-100], RespTimes := [0], NumRequests := 1, Bytes := 0 })] := by
  decide

/-! ## Lemmas on `FetchAll` -/

theorem FetchAll_sampleRound :
    FetchAll sampleParse sampleGetAssets sampleBaseExchange sampleAssetExchange 14 sampleInput =
      some sampleRound := by
  rfl

theorem calcTotal_aux (resp : List FetchResponse) :
    ∀ acc : Int × Int,
      resp.foldl (fun acc val => (acc.1 + val.Time, acc.2 + val.Bytes)) acc =
        (acc.1 + (resp.map (fun r => r.Time)).sum, acc.2 + (resp.map (fun r => r.Bytes)).sum) := by
  induction resp with
  | nil => intro acc; simp
  | cons r resp ih => intro acc; simp [ih, add_assoc]

theorem calcTotal_eq (resp : List FetchResponse) :
    calcTotal resp = ((resp.map (fun r => r.Time)).sum, (resp.map (fun r => r.Bytes)).sum) := by
  simp [calcTotal, calcTotal_aux]

/-- C18: in every result of `FetchAll`, TotalBytes is the Bytes of the base
response plus the sum of the Bytes of all responses in JSResponses,
CSSResponses and IMGResponses, and TotalLinearTime is the Time of the base
response plus the sum of the Time of those responses. -/
theorem FetchAll_totals (parse : String → Except String URL)
    (getAssets : String → List String × List String × List String)
    (baseExchange : Exchange) (assetExchange : AssetType → Nat → Exchange) (totalTime2 : Int)
    (input : FetchInput) (resp : FetchAllResponse)
    (h : FetchAll parse getAssets baseExchange assetExchange totalTime2 input = some resp) :
    resp.TotalBytes =
      resp.BaseURL.Bytes + (resp.JSResponses.map (fun r => r.Bytes)).sum +
        (resp.CSSResponses.map (fun r => r.Bytes)).sum +
        (resp.IMGResponses.map (fun r => r.Bytes)).sum ∧
    resp.TotalLinearTime =
      resp.BaseURL.Time + (resp.JSResponses.map (fun r => r.Time)).sum +
        (resp.CSSResponses.map (fun r => r.Time)).sum +
        (resp.IMGResponses.map (fun r => r.Time)).sum := by
  unfold FetchAll at h
  simp only [Option.bind_eq_some] at h
  obtain ⟨output, _, js, _, img, _, css, _, h5⟩ := h
  simp only [Option.some.injEq] at h5
  subst h5
  simp only [calcTotal_eq]
  constructor <;> trivial

/-- Witness of C18 on the sample round: 32 = 29 + 3 bytes and 13 = 10 + 3
nanoseconds. -/
theorem FetchAll_totals_witness :
    FetchAll sampleParse sampleGetAssets sampleBaseExchange sampleAssetExchange 14 sampleInput =
      some sampleRound ∧
    (sampleRound.TotalBytes =
      sampleRound.BaseURL.Bytes + (sampleRound.JSResponses.map (fun r => r.Bytes)).sum +
        (sampleRound.CSSResponses.map (fun r => r.Bytes)).sum +
        (sampleRound.IMGResponses.map (fun r => r.Bytes)).sum ∧
    sampleRound.TotalLinearTime =
      sampleRound.BaseURL.Time + (sampleRound.JSResponses.map (fun r => r.Time)).sum +
        (sampleRound.CSSResponses.map (fun r => r.Time)).sum +
        (sampleRound.IMGResponses.map (fun r => r.Time)).sum) :=
  ⟨FetchAll_sampleRound,
    FetchAll_totals sampleParse sampleGetAssets sampleBaseExchange sampleAssetExchange 14
      sampleInput sampleRound FetchAll_sampleRound⟩

/-- C19, the code at a round with Retdat false: `FetchAll` sets Retdat to true
on its input before the base fetch and hands this input to the asset
fetches, and it clears the document data of the base response only; the JS
response of the sample round comes back with its body "x=1" and its
headers. -/
theorem FetchAll_retdat_false_keeps_asset_data :
    sampleInput.Retdat = false ∧
    ∃ resp js,
      FetchAll sampleParse sampleGetAssets sampleBaseExchange sampleAssetExchange 14
        sampleInput = some resp ∧
      resp.BaseURL.Body = "" ∧ resp.BaseURL.Headers = [] ∧ resp.Body = "" ∧
      resp.JSResponses = [js] ∧ js.Body = "x=1" ∧ js.Body ≠ "" ∧
      js.Headers = [("Content-Type", ["text/javascript"])] ∧ js.Headers ≠ [] :=
  ⟨rfl, sampleRound, _, FetchAll_sampleRound, rfl, rfl, rfl, rfl, rfl, by decide, rfl,
    by decide⟩

/-! ## Lemmas on the end of the worker loop -/

theorem iterateLoop_stops (maxTime : Int) (r : FetchAllResponse) (e : Int)
    (post : List (FetchAllResponse × Int)) (he : e > maxTime) :
    ∀ (pre : List (FetchAllResponse × Int)) (st : IterateState),
      (∀ p ∈ pre, p.2 ≤ maxTime) →
      ∃ st', iterateLoop maxTime (pre ++ (r, e) :: post) st = some st' ∧
        st'.count = st.count + ((pre.length + 1 : Nat) : Int) ∧
        st'.resp.Status.length = st.resp.Status.length + (pre.length + 1) ∧
        st'.resp.RespTimes.length = st.resp.RespTimes.length + (pre.length + 1) := by
  intro pre
  induction pre with
  | nil =>
    intro st _
    refine ⟨iterateRound st r, by simp [iterateLoop, he], ?_, ?_, ?_⟩ <;> simp [iterateRound]
  | cons p pre ih =>
    intro st hpre
    obtain ⟨f, t⟩ := p
    have ht : ¬ t > maxTime := by
      have := hpre (f, t) (List.mem_cons_self _ _)
      simp only at this
      omega
    obtain ⟨st', h1, h2, h3, h4⟩ :=
      ih (iterateRound st f) (fun q hq => hpre q (List.mem_cons_of_mem _ hq))
    refine ⟨st', ?_, ?_, ?_, ?_⟩
    · simp only [List.cons_append, iterateLoop, ht, if_false]
      exact h1
    · rw [h2]
      simp only [iterateRound, List.length_cons]
      push_cast
      ring
    · rw [h3]
      simp only [iterateRound, List.length_append, List.length_cons, List.length_nil]
      omega
    · rw [h4]
      simp only [iterateRound, List.length_append, List.length_cons, List.length_nil]
      omega

/-- A run whose rounds `pre` all end within the bound of the loop and whose
next round ends beyond it returns after that round, and only so. -/
theorem iterateRequest_returns_after (url : String) (sec : Int)
    (pre : List (FetchAllResponse × Int)) (r : FetchAllResponse) (e : Int)
    (post : List (FetchAllResponse × Int))
    (hpre : ∀ p ∈ pre, p.2 ≤ maxTime sec) (he : e > maxTime sec) :
    (∃ out, IterateRequestReturns url sec (pre ++ (r, e) :: post) out
      ((pre.length + 1 : Nat) : Int)) ∧
    ∀ out n, IterateRequestReturns url sec (pre ++ (r, e) :: post) out n →
      n = ((pre.length + 1 : Nat) : Int) ∧
      out.BaseURL.Status.length = pre.length + 1 ∧
      out.BaseURL.RespTimes.length = pre.length + 1 := by
  obtain ⟨st, h1, h2, h3, h4⟩ := iterateLoop_stops _ r e post he pre (iterateInit url) hpre
  have hc : ¬ st.count = 0 := by
    rw [h2]
    simp only [iterateInit]
    push_cast
    omega
  have hval : iterateRequest url sec (pre ++ (r, e) :: post) = some
      ({ BaseURL := st.resp
         AvgTotalRespTime := Int.tdiv st.totalRespTimes st.count
         AvgTotalLinearRespTime := Int.tdiv st.totalLinearRespTimes st.count
         JSResps := st.jsMap.map Prod.snd
         CSSResps := st.cssMap.map Prod.snd
         IMGResps := st.imgMap.map Prod.snd }, st.count) := by
    unfold iterateRequest
    simp only [h1, Option.bind, goDiv, hc, if_false]
  have hcount : st.count = ((pre.length + 1 : Nat) : Int) := by
    rw [h2]
    simp [iterateInit]
  constructor
  · rw [hcount] at hval
    exact ⟨_, _, hval, rfl, rfl, rfl, fun _ => List.Perm.refl _⟩
  · intro out n ⟨r', hr', _, _, hb, _⟩
    rw [hval] at hr'
    simp only [Option.some.injEq, Prod.mk.injEq] at hr'
    obtain ⟨hr1, hr2⟩ := hr'
    rw [hb, ← hr1, ← hr2]
    simp only [iterateInit, List.length_nil, zero_add] at h3 h4
    exact ⟨hcount, h3, h4⟩

/-- The bound of the loop is the configured duration in nanoseconds as long as
that product fits 64 bits, which it does for at most 9223372036 seconds in
either direction. -/
theorem maxTime_of_fits (sec : Int) (hlo : -9223372036 ≤ sec) (hhi : sec ≤ 9223372036) :
    maxTime sec = sec * 1000000000 := by
  unfold maxTime wrapInt64 Second
  omega

/-- The worker on every duration whose nanoseconds fit 64 bits: every run that
returns has completed at least one round; a run whose first rounds `pre` end
with an elapsed time of at most the configured duration and whose next round
ends with an elapsed time that exceeds it returns after exactly that round,
with one status and one duration per round in the base accumulator, whatever
rounds `post` could follow; in particular, with the duration 0 and a first
round that ends at a positive elapsed time, the run returns after exactly one
round and the base status and duration sequences have length 1. -/
theorem iterateRequest_stops_after_first_late_round (url : String) :
    (∀ (sec : Int) (rounds : List (FetchAllResponse × Int)) (out : IterateReqRespAll)
        (n : Int), IterateRequestReturns url sec rounds out n → 1 ≤ n) ∧
    (∀ (sec : Int) (pre : List (FetchAllResponse × Int)) (r : FetchAllResponse) (e : Int)
        (post : List (FetchAllResponse × Int)),
      -9223372036 ≤ sec → sec ≤ 9223372036 →
      (∀ p ∈ pre, p.2 ≤ sec * 1000000000) → e > sec * 1000000000 →
        (∃ out, IterateRequestReturns url sec (pre ++ (r, e) :: post) out
          ((pre.length + 1 : Nat) : Int)) ∧
        ∀ out n, IterateRequestReturns url sec (pre ++ (r, e) :: post) out n →
          n = ((pre.length + 1 : Nat) : Int) ∧
          out.BaseURL.Status.length = pre.length + 1 ∧
          out.BaseURL.RespTimes.length = pre.length + 1) ∧
    (∀ (r : FetchAllResponse) (e : Int) (post : List (FetchAllResponse × Int)), 0 < e →
      (∃ out, IterateRequestReturns url 0 ((r, e) :: post) out 1) ∧
      ∀ out n, IterateRequestReturns url 0 ((r, e) :: post) out n →
        n = 1 ∧ out.BaseURL.Status.length = 1 ∧ out.BaseURL.RespTimes.length = 1) := by
  refine ⟨?_, ?_, ?_⟩
  · intro sec rounds out n h
    exact (iterateRequest_base h).1
  · intro sec pre r e post hlo hhi hpre he
    rw [← maxTime_of_fits sec hlo hhi] at hpre he
    exact iterateRequest_returns_after url sec pre r e post hpre he
  · intro r e post he
    have h0 : maxTime 0 = 0 := by decide
    have h := iterateRequest_returns_after url 0 [] r e post (by simp) (by rw [h0]; omega)
    simpa using h

/-- The sample worker of one second stops after its second round, which ends
at 1000000033ns, and the sample worker of zero seconds stops after its first
round, which ends at 17ns. -/
theorem iterateRequest_stops_after_first_late_round_samples :
    (IterateRequestReturns "http://h/" 0 [(roundB1, 17)] workerB 1 ∧ (1 : Int) ≤ 1) ∧
    ((∀ p ∈ [(roundA1, (15 : Int))], p.2 ≤ (1 : Int) * 1000000000) ∧
      (1000000033 : Int) > 1 * 1000000000 ∧
      (∃ out, IterateRequestReturns "http://h/" 1 ([(roundA1, 15)] ++ (roundA2, 1000000033) :: [])
        out ((([(roundA1, (15 : Int))].length + 1 : Nat) : Int))) ∧
      ∀ out n,
        IterateRequestReturns "http://h/" 1 ([(roundA1, 15)] ++ (roundA2, 1000000033) :: [])
          out n →
        n = ((([(roundA1, (15 : Int))].length + 1 : Nat) : Int)) ∧
        out.BaseURL.Status.length = [(roundA1, (15 : Int))].length + 1 ∧
        out.BaseURL.RespTimes.length = [(roundA1, (15 : Int))].length + 1) ∧
    ((0 : Int) < 17 ∧
      (∃ out, IterateRequestReturns "http://h/" 0 ((roundB1, 17) :: []) out 1) ∧
      ∀ out n, IterateRequestReturns "http://h/" 0 ((roundB1, 17) :: []) out n →
        n = 1 ∧ out.BaseURL.Status.length = 1 ∧ out.BaseURL.RespTimes.length = 1) :=
  ⟨⟨⟨workerB, iterateRequest_workerB, rfl, rfl, rfl, fun _ => List.Perm.refl _⟩,
      (iterateRequest_stops_after_first_late_round "http://h/").1 0 [(roundB1, 17)] workerB 1
        ⟨workerB, iterateRequest_workerB, rfl, rfl, rfl, fun _ => List.Perm.refl _⟩⟩,
    ⟨by decide, by decide,
      (iterateRequest_stops_after_first_late_round "http://h/").2.1 1 [(roundA1, 15)] roundA2
        1000000033 [] (by decide) (by decide) (by decide) (by decide)⟩,
    ⟨by decide,
      (iterateRequest_stops_after_first_late_round "http://h/").2.2 roundB1 17 [] (by decide)⟩⟩

/-- C20, the code at the duration of 9223372037 seconds: the product of the
seconds and `time.Second` does not fit 64 bits and wraps to the negative bound
-9223372036709551616ns, so the first round, which ends at 17ns, already ends
beyond the bound and `iterateRequest` returns after that one round, although
17ns does not exceed the configured duration of 9223372037000000000ns; the
result is that of the worker with the duration 0. -/
theorem iterateRequest_wrapped_duration_stops_early :
    maxTime 9223372037 = -9223372036709551616 ∧
      ¬ ((17 : Int) > 9223372037 * 1000000000) ∧
      iterateRequest "http://h/" 9223372037 [(roundB1, 17)] = some (workerB, 1) ∧
      ∀ post, iterateRequest "http://h/" 9223372037 ((roundB1, 17) :: post) =
        some (workerB, 1) := by
  refine ⟨by decide, by decide, rfl, fun _ => rfl⟩

/-- The duration of -9223372037 seconds wraps to the positive bound
9223372036709551616ns: the first round ends at 17ns, beyond the configured
duration, and the loop goes on. -/
theorem iterateLoop_wrapped_negative_duration :
    maxTime (-9223372037) = 9223372036709551616 ∧
      (17 : Int) > -9223372037 * 1000000000 ∧
      ∀ post, iterateLoop (maxTime (-9223372037)) ((roundB1, 17) :: post)
          (iterateInit "http://h/") =
        iterateLoop (maxTime (-9223372037)) post (iterateRound (iterateInit "http://h/") roundB1) := by
  refine ⟨by decide, by decide, fun _ => rfl⟩

/-! ## The byte total of the base page -/

/-- C21, the code at a run of two rounds: each round receives 300 bytes for
the base page and 350 bytes in total; `iterateRequest` returns `workerA`,
whose base accumulator has Bytes 350, the `TotalBytes` of the last round, not
the sum 600 of the bytes of the base page over the two rounds (nor the sum
700 of the totals). -/
theorem iterateRequest_base_bytes_last_round :
    iterateRequest "http://h/" 1 [(roundA1, 15), (roundA2, 1000000033)] = some (workerA, 2) ∧
      roundA1.BaseURL.Bytes = 300 ∧ roundA2.BaseURL.Bytes = 300 ∧
      roundA1.TotalBytes = 350 ∧ roundA2.TotalBytes = 350 ∧
      workerA.BaseURL.Bytes = 350 ∧
      workerA.BaseURL.Bytes ≠ roundA1.BaseURL.Bytes + roundA2.BaseURL.Bytes ∧
      workerA.BaseURL.Bytes ≠ roundA1.TotalBytes + roundA2.TotalBytes := by
  refine ⟨iterateRequest_workerA, ?_, ?_, ?_, ?_, ?_, ?_, ?_⟩ <;> decide

/-! ## The averages of a merge -/

theorem combineReturns_avg {results : List IterateReqRespAll} {out : IterateReqRespAll}
    (h : CombineReturns results out) :
    out.AvgTotalRespTime =
        Int.tdiv ((results.map (fun r => r.AvgTotalRespTime)).sum) (results.length : Int) ∧
      out.AvgTotalLinearRespTime =
        Int.tdiv ((results.map (fun r => r.AvgTotalLinearRespTime)).sum)
          (results.length : Int) := by
  cases results with
  | nil =>
    obtain ⟨r, hr, _⟩ := h
    simp [Combine, goDiv, combineInit] at hr
  | cons r₀ rest =>
    rw [combineReturns_cons_iff] at h
    exact ⟨h.1, h.2.1⟩

theorem combineReturns_plain (l : List Int) (hne : l ≠ []) :
    ∃ out, CombineReturns (l.map plainWorker) out :=
  combineReturns_exists _ (by simpa using hne)

/-- C27, as the spec states it, fails: for three workers with the averages
10, 20 and 60 the merge of the merge of the first two with the third has the
average (15 + 60) / 2 = 37, the merge of the three has 90 / 3 = 30. -/
theorem Combine_average_not_associative :
    ¬ (∀ a b c ab r₁ r₃ : IterateReqRespAll,
        CombineReturns [a, b] ab → CombineReturns [ab, c] r₁ → CombineReturns [a, b, c] r₃ →
          r₁.AvgTotalRespTime = r₃.AvgTotalRespTime ∧
          r₁.AvgTotalLinearRespTime = r₃.AvgTotalLinearRespTime) := by
  intro h
  obtain ⟨ab, hab⟩ := combineReturns_plain [10, 20] (by decide)
  obtain ⟨r₁, h₁⟩ := combineReturns_exists [ab, plainWorker 60] (by simp)
  obtain ⟨r₃, h₃⟩ := combineReturns_plain [10, 20, 60] (by decide)
  have heq := (h _ _ _ ab r₁ r₃ hab h₁ h₃).1
  have e₁ := (combineReturns_avg h₁).1
  have e₃ := (combineReturns_avg h₃).1
  have eab := (combineReturns_avg hab).1
  rw [e₁, e₃] at heq
  simp only [List.map_cons, List.map_nil, List.sum_cons, List.sum_nil, eab, List.length_cons,
    List.length_nil, plainWorker] at heq
  revert heq
  decide

theorem combineReturns_plainMerged2 :
    CombineReturns [plainWorker 10, plainWorker 10] plainMerged2 :=
  combineReturns_of_eq (by decide)

theorem combineReturns_plainMerged21 :
    CombineReturns [plainMerged2, plainWorker 10] plainMerged3 :=
  combineReturns_of_eq (by decide)

theorem combineReturns_plainMerged3 :
    CombineReturns [plainWorker 10, plainWorker 10, plainWorker 10] plainMerged3 :=
  combineReturns_of_eq (by decide)

/-- C27, amended: for every three worker results a, b, c, the AvgTotalRespTime
of `Combine([Combine([a, b]), c])` is `((a + b) / 2 + c) / 2` and that of
`Combine([a, b, c])` is `(a + b + c) / 3`, with a, b, c the AvgTotalRespTime
of the workers and truncating divisions, and likewise for
AvgTotalLinearRespTime; the two merges have the same average when the three
workers have the same average. -/
theorem Combine_average_of_averages (a b c ab r₁ r₃ : IterateReqRespAll)
    (hab : CombineReturns [a, b] ab) (h₁ : CombineReturns [ab, c] r₁)
    (h₃ : CombineReturns [a, b, c] r₃) :
    r₁.AvgTotalRespTime =
      Int.tdiv (Int.tdiv (a.AvgTotalRespTime + b.AvgTotalRespTime) 2 + c.AvgTotalRespTime) 2 ∧
    r₃.AvgTotalRespTime =
      Int.tdiv (a.AvgTotalRespTime + b.AvgTotalRespTime + c.AvgTotalRespTime) 3 ∧
    r₁.AvgTotalLinearRespTime =
      Int.tdiv (Int.tdiv (a.AvgTotalLinearRespTime + b.AvgTotalLinearRespTime) 2 +
        c.AvgTotalLinearRespTime) 2 ∧
    r₃.AvgTotalLinearRespTime =
      Int.tdiv (a.AvgTotalLinearRespTime + b.AvgTotalLinearRespTime +
        c.AvgTotalLinearRespTime) 3 ∧
    (a.AvgTotalRespTime = b.AvgTotalRespTime → b.AvgTotalRespTime = c.AvgTotalRespTime →
      r₁.AvgTotalRespTime = r₃.AvgTotalRespTime) ∧
    (a.AvgTotalLinearRespTime = b.AvgTotalLinearRespTime →
      b.AvgTotalLinearRespTime = c.AvgTotalLinearRespTime →
      r₁.AvgTotalLinearRespTime = r₃.AvgTotalLinearRespTime) := by
  have eab := combineReturns_avg hab
  have e₁ := combineReturns_avg h₁
  have e₃ := combineReturns_avg h₃
  simp only [List.map_cons, List.map_nil, List.sum_cons, List.sum_nil, List.length_cons,
    List.length_nil, add_zero, zero_add, Nat.reduceAdd, Nat.cast_ofNat, ← add_assoc] at eab e₁ e₃
  have key : ∀ x : Int, Int.tdiv (Int.tdiv (x + x) 2 + x) 2 = Int.tdiv (x + x + x) 3 := by
    intro x
    have h2 : x + x = x * 2 := by ring
    have h3 : x * 2 + x = x * 3 := by ring
    rw [h2, Int.mul_tdiv_cancel x (by decide), h2, Int.mul_tdiv_cancel x (by decide), h3,
      Int.mul_tdiv_cancel x (by decide)]
  refine ⟨?_, e₃.1, ?_, e₃.2, ?_, ?_⟩
  · rw [e₁.1, eab.1]
  · rw [e₁.2, eab.2]
  · intro h1 h2
    rw [e₁.1, eab.1, e₃.1, h1, h2]
    exact key _
  · intro h1 h2
    rw [e₁.2, eab.2, e₃.2, h1, h2]
    exact key _

/-- Witness of the amended C27 on three workers with the average 10. -/
theorem Combine_average_of_averages_witness :
    CombineReturns [plainWorker 10, plainWorker 10] plainMerged2 ∧
    CombineReturns [plainMerged2, plainWorker 10] plainMerged3 ∧
    CombineReturns [plainWorker 10, plainWorker 10, plainWorker 10] plainMerged3 ∧
    (plainWorker 10).AvgTotalRespTime = (plainWorker 10).AvgTotalRespTime ∧
    plainMerged3.AvgTotalRespTime =
      Int.tdiv (Int.tdiv ((plainWorker 10).AvgTotalRespTime +
        (plainWorker 10).AvgTotalRespTime) 2 + (plainWorker 10).AvgTotalRespTime) 2 ∧
    plainMerged3.AvgTotalRespTime =
      Int.tdiv ((plainWorker 10).AvgTotalRespTime + (plainWorker 10).AvgTotalRespTime +
        (plainWorker 10).AvgTotalRespTime) 3 ∧
    plainMerged3.AvgTotalRespTime = plainMerged3.AvgTotalRespTime :=
  ⟨combineReturns_plainMerged2, combineReturns_plainMerged21, combineReturns_plainMerged3, rfl,
    (Combine_average_of_averages _ _ _ _ _ _ combineReturns_plainMerged2
      combineReturns_plainMerged21 combineReturns_plainMerged3).1,
    (Combine_average_of_averages _ _ _ _ _ _ combineReturns_plainMerged2
      combineReturns_plainMerged21 combineReturns_plainMerged3).2.1,
    (Combine_average_of_averages _ _ _ _ _ _ combineReturns_plainMerged2
      combineReturns_plainMerged21 combineReturns_plainMerged3).2.2.2.2.1 rfl rfl⟩

/-! ## When `Combine` aborts -/

theorem Combine_nil : Combine [] = none := by
  simp [Combine, goDiv, combineInit]

/-- C29: `Combine` aborts if and only if the list of worker results is empty;
on the empty list it is the first division by `count = 0` that fails, so
`results[0]` is not reached; for every non-empty list it returns a result. -/
theorem Combine_aborts_iff_empty (results : List IterateReqRespAll) :
    (Combine results = none ↔ results = []) ∧
    (results = [] →
      goDiv (results.foldl combineStep combineInit).totalAvglRespTimes
        (results.foldl combineStep combineInit).count = none) ∧
    (results ≠ [] → ∃ out, CombineReturns results out) ∧
    ((∃ out, CombineReturns results out) → results ≠ []) := by
  refine ⟨?_, ?_, ?_, ?_⟩
  · constructor
    · intro h
      cases results with
      | nil => rfl
      | cons r₀ rest =>
        rw [Combine_cons] at h
        cases h
    · intro h
      rw [h]
      exact Combine_nil
  · intro h
    rw [h]
    simp [goDiv, combineInit]
  · exact combineReturns_exists results
  · rintro ⟨out, r, hr, _⟩ h
    rw [h, Combine_nil] at hr
    cases hr

/-- Witness of C29 on the empty list and on the list of the two sample
workers. -/
theorem Combine_aborts_iff_empty_witness :
    (Combine [] = none ∧
      goDiv (([] : List IterateReqRespAll).foldl combineStep combineInit).totalAvglRespTimes
        (([] : List IterateReqRespAll).foldl combineStep combineInit).count = none) ∧
    ([workerA, workerB] ≠ [] ∧ ∃ out, CombineReturns [workerA, workerB] out) :=
  ⟨⟨(Combine_aborts_iff_empty []).1.2 rfl, (Combine_aborts_iff_empty []).2.1 rfl⟩,
    ⟨by decide, (Combine_aborts_iff_empty [workerA, workerB]).2.2.1 (by decide)⟩⟩

/-! ## Short asset URLs -/

/-- C30, the code at the examples of the claim: the base URL
"https://example.com/page" parses, and for the asset URLs "/a" and "a.c", of
two and three bytes, the slice `asseturl[:4]` of the first statement is out
of range: `DefineAssetURL` panics and returns no URL. -/
theorem DefineAssetURL_short_asset_panics :
    sampleParse "https://example.com/page" = .ok { Scheme := "https", Host := "example.com" } ∧
      DefineAssetURL sampleParse "https://example.com/page" "/a" = .error .sliceOutOfRange ∧
      DefineAssetURL sampleParse "https://example.com/page" "a.c" = .error .sliceOutOfRange :=
  ⟨rfl, rfl, rfl⟩

/-! ## The averages of a worker -/

theorem iterateLoop_totals (maxTime : Int) :
    ∀ (rounds : List (FetchAllResponse × Int)) (st st' : IterateState),
      iterateLoop maxTime rounds st = some st' →
        ∃ k : Nat, 1 ≤ k ∧ k ≤ rounds.length ∧ st'.count = st.count + (k : Int) ∧
          st'.totalRespTimes =
            st.totalRespTimes + ((rounds.take k).map (fun p => p.1.TotalTime)).sum ∧
          st'.totalLinearRespTimes =
            st.totalLinearRespTimes + ((rounds.take k).map (fun p => p.1.TotalLinearTime)).sum := by
  intro rounds
  induction rounds with
  | nil => intro st st' h; simp [iterateLoop] at h
  | cons p rounds ih =>
    obtain ⟨fetchAllResp, elapsedTime⟩ := p
    intro st st' h
    by_cases hlt : elapsedTime > maxTime
    · simp only [iterateLoop, hlt, if_true, Option.some.injEq] at h
      subst h
      refine ⟨1, le_refl _, by simp, ?_, ?_, ?_⟩ <;> simp [iterateRound]
    · simp only [iterateLoop, hlt, if_false] at h
      obtain ⟨k, hk, hkl, h1, h2, h3⟩ := ih _ _ h
      refine ⟨k + 1, by omega, by simp only [List.length_cons]; omega, ?_, ?_, ?_⟩
      · rw [h1]; simp [iterateRound]; ring
      · rw [h2]; simp [iterateRound, add_assoc]
      · rw [h3]; simp [iterateRound, add_assoc]

/-- C26: for every run of a worker, once the loop has ended the two divisions
do not fail and `iterateRequest` returns; in every result the number `n` of
completed rounds is at least 1, AvgTotalRespTime is the sum of the TotalTime
of the first `n` rounds of the run divided by `n` with truncation, and
AvgTotalLinearRespTime the same quotient of the TotalLinearTime. -/
theorem iterateRequest_averages (url : String) (sec : Int)
    (rounds : List (FetchAllResponse × Int)) :
    (∀ st, iterateLoop (maxTime sec) rounds (iterateInit url) = some st →
      1 ≤ st.count ∧ ∃ out, iterateRequest url sec rounds = some (out, st.count)) ∧
    ∀ out n, IterateRequestReturns url sec rounds out n →
      ∃ k : Nat, n = (k : Int) ∧ 1 ≤ k ∧ k ≤ rounds.length ∧
        out.AvgTotalRespTime =
          Int.tdiv (((rounds.take k).map (fun p => p.1.TotalTime)).sum) (k : Int) ∧
        out.AvgTotalLinearRespTime =
          Int.tdiv (((rounds.take k).map (fun p => p.1.TotalLinearTime)).sum) (k : Int) := by
  constructor
  · intro st hst
    obtain ⟨k, hk, _, h1, _, _⟩ := iterateLoop_totals _ _ _ _ hst
    have hc : st.count = (k : Int) := by rw [h1]; simp [iterateInit]
    have hne : ¬ st.count = 0 := by rw [hc]; omega
    refine ⟨by rw [hc]; omega, ?_⟩
    unfold iterateRequest
    simp only [hst, Option.bind, goDiv, hne, if_false]
    exact ⟨_, rfl⟩
  · rintro out n ⟨r, hr, ha, hl, _, _⟩
    unfold iterateRequest at hr
    cases hst : iterateLoop (maxTime sec) rounds (iterateInit url) with
    | none => simp [hst] at hr
    | some st =>
      obtain ⟨k, hk, hkl, h1, h2, h3⟩ := iterateLoop_totals _ _ _ _ hst
      have hc : st.count = (k : Int) := by rw [h1]; simp [iterateInit]
      have hne : ¬ st.count = 0 := by rw [hc]; omega
      simp only [hst, Option.bind, goDiv, hne, if_false, Option.some.injEq,
        Prod.mk.injEq] at hr
      obtain ⟨hr1, hr2⟩ := hr
      simp only [iterateInit, zero_add] at h2 h3
      refine ⟨k, by rw [← hr2, hc], hk, hkl, ?_, ?_⟩
      · rw [ha, ← hr1, ← h2, ← hc]
      · rw [hl, ← hr1, ← h3, ← hc]

/-- Witness of C26 on the run of the sample worker `workerA`: two rounds with
the wall times 15 and 18 and the linear times 18 and 22 give the averages
33 / 2 = 16 and 40 / 2 = 20. -/
theorem iterateRequest_averages_witness :
    IterateRequestReturns "http://h/" 1 [(roundA1, 15), (roundA2, 1000000033)] workerA 2 ∧
    workerA.AvgTotalRespTime = 16 ∧ workerA.AvgTotalLinearRespTime = 20 ∧
    ∃ k : Nat, (2 : Int) = (k : Int) ∧ 1 ≤ k ∧
      k ≤ [(roundA1, (15 : Int)), (roundA2, 1000000033)].length ∧
      workerA.AvgTotalRespTime =
        Int.tdiv ((([(roundA1, (15 : Int)), (roundA2, 1000000033)].take k).map
          (fun p => p.1.TotalTime)).sum) (k : Int) ∧
      workerA.AvgTotalLinearRespTime =
        Int.tdiv ((([(roundA1, (15 : Int)), (roundA2, 1000000033)].take k).map
          (fun p => p.1.TotalLinearTime)).sum) (k : Int) :=
  ⟨⟨workerA, iterateRequest_workerA, rfl, rfl, rfl, fun _ => List.Perm.refl _⟩, rfl, rfl,
    (iterateRequest_averages "http://h/" 1 [(roundA1, 15), (roundA2, 1000000033)]).2 workerA 2
      ⟨workerA, iterateRequest_workerA, rfl, rfl, rfl, fun _ => List.Perm.refl _⟩⟩

/-! ## The count invariant of `gatherStats` -/

theorem gatherStatsStep_get_ne (respMap : List (String × IterateReqResp)) (r : FetchResponse)
    (k : String) (h : ¬ r.URL = k) :
    mapGet (gatherStatsStep respMap r) k = mapGet respMap k := by
  unfold gatherStatsStep
  cases hg : mapGet respMap r.URL with
  | none => simp [mapGet_mapSet, h]
  | some acc => simp [hg, mapGet_mapSet, h]

theorem countInvariant_accumulatorOf (respMap : List (String × IterateReqResp))
    (hinv : ∀ k acc, mapGet respMap k = some acc → CountInvariant acc) (url : String) :
    CountInvariant (accumulatorOf respMap url) := by
  unfold accumulatorOf
  cases hg : mapGet respMap url with
  | none => simp [CountInvariant]
  | some acc => simpa using hinv url acc hg

theorem gatherStatsStep_invariant (respMap : List (String × IterateReqResp)) (r : FetchResponse)
    (hinv : ∀ k acc, mapGet respMap k = some acc → CountInvariant acc) :
    ∀ k acc, mapGet (gatherStatsStep respMap r) k = some acc → CountInvariant acc := by
  intro k acc h
  by_cases hk : r.URL = k
  · subst hk
    rw [gatherStatsStep_get] at h
    cases h
    obtain ⟨h1, h2⟩ := countInvariant_accumulatorOf respMap hinv r.URL
    constructor
    · simp [h1]
    · simp only [List.length_append, List.length_cons, List.length_nil]
      push_cast
      omega
  · rw [gatherStatsStep_get_ne respMap r k hk] at h
    exact hinv k acc h

/-- C25: for every accumulator map in which each accumulator has
len(Status) = len(RespTimes) = NumRequests and every list of fetch results,
after `gatherStats` every accumulator of the map has it as well, also the
ones created at the first sighting of a URL; every URL of the list has an
accumulator; and what the map holds for a URL that does not occur in the list
is unchanged. -/
theorem gatherStats_count_invariant (resps : List FetchResponse)
    (respMap : List (String × IterateReqResp))
    (hinv : ∀ k acc, mapGet respMap k = some acc → CountInvariant acc) :
    (∀ k acc, mapGet (gatherStats resps respMap) k = some acc → CountInvariant acc) ∧
    (∀ r ∈ resps, ∃ acc, mapGet (gatherStats resps respMap) r.URL = some acc) ∧
    (∀ k, k ∉ resps.map (fun r => r.URL) →
      mapGet (gatherStats resps respMap) k = mapGet respMap k) := by
  induction resps generalizing respMap with
  | nil =>
    refine ⟨by simpa [gatherStats] using hinv, by simp, ?_⟩
    intro k _
    rfl
  | cons r resps ih =>
    obtain ⟨h1, h2, h3⟩ := ih (gatherStatsStep respMap r)
      (gatherStatsStep_invariant respMap r hinv)
    have hfold : gatherStats (r :: resps) respMap =
        gatherStats resps (gatherStatsStep respMap r) := rfl
    rw [hfold]
    refine ⟨h1, ?_, ?_⟩
    · intro r' hr'
      rcases List.mem_cons.1 hr' with he | he
      · subst he
        by_cases hin : r'.URL ∈ resps.map (fun r => r.URL)
        · obtain ⟨r'', hr'', hu⟩ := List.mem_map.1 hin
          have := h2 r'' hr''
          rw [hu] at this
          exact this
        · rw [h3 _ hin, gatherStatsStep_get]
          exact ⟨_, rfl⟩
      · exact h2 r' he
    · intro k hk
      simp only [List.map_cons, List.mem_cons, not_or] at hk
      rw [h3 k hk.2]
      exact gatherStatsStep_get_ne respMap r k (fun e => hk.1 e.symm)

theorem countInvariant_sampleFailMap :
    ∀ k acc, mapGet sampleFailMap k = some acc → CountInvariant acc := by
  intro k acc h
  have hm := mem_of_mapGet _ _ _ h
  simp only [sampleFailMap, List.mem_singleton, Prod.mk.injEq] at hm
  rw [hm.2]
  unfold CountInvariant
  decide

/-- Witness of C25: a failed fetch and a fetch of a new URL folded into the
sample map. -/
theorem gatherStats_count_invariant_witness :
    (∀ k acc, mapGet sampleFailMap k = some acc → CountInvariant acc) ∧
    ((∀ k acc,
        mapGet (gatherStats [sampleFailed, sampleFetch "http://h/a.js" 200 3 40] sampleFailMap) k =
          some acc → CountInvariant acc) ∧
      (∀ r ∈ [sampleFailed, sampleFetch "http://h/a.js" 200 3 40],
        ∃ acc,
          mapGet (gatherStats [sampleFailed, sampleFetch "http://h/a.js" 200 3 40] sampleFailMap)
            r.URL = some acc) ∧
      (∀ k, k ∉ [sampleFailed, sampleFetch "http://h/a.js" 200 3 40].map (fun r => r.URL) →
        mapGet (gatherStats [sampleFailed, sampleFetch "http://h/a.js" 200 3 40] sampleFailMap) k =
          mapGet sampleFailMap k)) :=
  ⟨countInvariant_sampleFailMap,
    gatherStats_count_invariant [sampleFailed, sampleFetch "http://h/a.js" 200 3 40]
      sampleFailMap countInvariant_sampleFailMap⟩

/-- The two fetches folded into the sample map, evaluated. -/
theorem gatherStats_sampleFailMap :
    gatherStats [sampleFailed, sampleFetch "http://h/a.js" 200 3 40] sampleFailMap =
      [("Get https://example.com/page: dial tcp: connect: connection refused",
        { URL := "Get https://example.com/page: dial tcp: connect: connection refused",
          Status := [-100, -100, -100], RespTimes := [0, 0, 0], NumRequests := 3, Bytes := 0 }),
       ("http://h/a.js",
        { URL := "http://h/a.js", Status := [200], RespTimes := [3], NumRequests := 1,
          Bytes := 40 })] := by
  decide

/-! ## The validation of the configuration -/

/-- C22, as the spec states it, fails: the default configuration with the
test duration 0 has a non-positive duration, and `Validate` returns nil for
it. -/
theorem Validate_accepts_zero_duration :
    ¬ (∀ c : Config, (c.Test.DefaultUsers ≤ 0 ∨ c.Test.DefaultDuration ≤ 0) →
        ∃ err, c.Validate = some err) := by
  intro h
  obtain ⟨err, he⟩ := h zeroDurationConfig (Or.inr (by decide))
  have hv : zeroDurationConfig.Validate = none := by decide
  rw [hv] at he
  cases he

/-- C22, amended: `Config.Validate` returns an error for every configuration
whose user count is non-positive, and `LoadConfig` then returns this error,
wrapped, and no configuration; the test duration is not read by `Validate`. -/
theorem Validate_rejects_nonpositive_users (c : Config) :
    (c.Test.DefaultUsers ≤ 0 →
      ∃ err, c.Validate = some err ∧
        LoadConfig c = .error ("configuration validation failed: " ++ err)) ∧
    (∀ d : Int,
      Config.Validate { c with Test := { c.Test with DefaultDuration := d } } = c.Validate) := by
  constructor
  · intro hu
    have hv : ∃ err, c.Validate = some err := by
      unfold Config.Validate
      by_cases h1 : c.HTTP.Timeout ≤ 0
      · exact ⟨_, by rw [if_pos h1]⟩
      · by_cases h2 : c.HTTP.MaxConnections ≤ 0
        · exact ⟨_, by rw [if_neg h1, if_pos h2]⟩
        · exact ⟨_, by rw [if_neg h1, if_neg h2, if_pos hu]⟩
    obtain ⟨err, he⟩ := hv
    refine ⟨err, he, ?_⟩
    unfold LoadConfig
    rw [he]
  · intro d
    rfl

/-- Witness of the amended C22 on the default configuration with the user
count 0. -/
theorem Validate_rejects_nonpositive_users_witness :
    zeroUsersConfig.Test.DefaultUsers ≤ 0 ∧
    ∃ err, zeroUsersConfig.Validate = some err ∧
      LoadConfig zeroUsersConfig = .error ("configuration validation failed: " ++ err) :=
  ⟨by decide, (Validate_rejects_nonpositive_users zeroUsersConfig).1 (by decide)⟩

/-- The sample configurations, evaluated. -/
theorem Validate_samples :
    zeroUsersConfig.Validate = some "default users must be positive" ∧
      zeroDurationConfig.Validate = none ∧ DefaultConfig.Validate = none := by
  decide

/-! ## The cookie of the workers of `Basic` -/

/-- C24, the code at a run of two workers: the warm-up of worker 0 captures
the cookie "sid=A" and that of worker 1 the cookie "sid=B"; both write it
into the `Cookies` field of the `*Init` that they share.  When both warm-ups
run before worker 0 enters `iterateRequest`, worker 0 reads "sid=B" and sends
in all of its rounds the cookie that the warm-up of worker 1 captured. -/
theorem Basic_workers_share_cookie :
    sampleWarmUp 0 = some ["sid=A"] ∧ sampleWarmUp 1 = some ["sid=B"] ∧
      basicRun sampleWarmUp 2 "" [0, 1, 0, 1] =
        { Cookies := "sid=B", workers := [.running "sid=B", .running "sid=B"] } ∧
      (basicRun sampleWarmUp 2 "" [0, 1, 0, 1]).workers.get? 0 ≠ some (.running "sid=A") := by
  decide

/-! ## Lemmas on the pattern matcher -/

theorem lazyAnyK_some {α : Type} (k : List Char → List Char → Option α) (x : α) :
    ∀ (input acc : List Char), lazyAnyK k acc input = some x →
      ∃ consumed rest, k consumed rest = some x := by
  intro input
  induction input with
  | nil => intro acc h; exact ⟨acc, [], h⟩
  | cons c cs ih =>
    intro acc h
    simp only [lazyAnyK] at h
    cases hk : k acc (c :: cs) with
    | some y =>
      rw [hk] at h
      simp only [Option.orElse] at h
      exact ⟨acc, c :: cs, hk.trans h⟩
    | none =>
      rw [hk] at h
      simp only [Option.orElse] at h
      by_cases hc : c = '\n'
      · simp [hc] at h
      · simp only [hc, if_false] at h
        exact ih _ h

theorem starK_some {α : Type} (cs : List Char) (k : List Char → List Char → Option α) (x : α) :
    ∀ (input acc : List Char), starK cs k acc input = some x →
      ∃ consumed rest, k consumed rest = some x := by
  intro input
  induction input with
  | nil => intro acc h; exact ⟨acc, [], h⟩
  | cons c rest ih =>
    intro acc h
    simp only [starK] at h
    by_cases hc : c ∈ cs
    · simp only [hc, if_true] at h
      cases hs : starK cs k (acc ++ [c]) rest with
      | some y =>
        rw [hs] at h
        simp only [Option.orElse] at h
        exact ih _ (hs.trans h)
      | none =>
        rw [hs] at h
        simp only [Option.orElse] at h
        exact ⟨acc, c :: rest, h⟩
    · simp only [hc, if_false] at h
      exact ⟨acc, c :: rest, h⟩

theorem matchK_some {α : Type} (re : Regex) :
    ∀ (input : List Char) (k : List Char → List (List Char) → List Char → Option α) (x : α),
      re.matchK input k = some x →
        ∃ consumed caps rest, caps.length = re.numGroups ∧ k consumed caps rest = some x := by
  induction re with
  | lit s =>
    intro input k x h
    simp only [Regex.matchK] at h
    cases hd : dropPrefix s.data input with
    | none => simp [hd] at h
    | some rest =>
      simp only [hd] at h
      exact ⟨_, [], rest, rfl, h⟩
  | oneOf cs =>
    intro input k x h
    cases input with
    | nil => simp [Regex.matchK] at h
    | cons c rest =>
      simp only [Regex.matchK] at h
      by_cases hc : c ∈ cs
      · simp only [hc, if_true] at h
        exact ⟨_, [], rest, rfl, h⟩
      · simp [hc] at h
  | star cs =>
    intro input k x h
    simp only [Regex.matchK] at h
    obtain ⟨consumed, rest, hk⟩ := starK_some cs _ x input [] h
    exact ⟨consumed, [], rest, rfl, hk⟩
  | opt cs =>
    intro input k x h
    cases input with
    | nil =>
      simp only [Regex.matchK] at h
      exact ⟨[], [], [], rfl, h⟩
    | cons c rest =>
      simp only [Regex.matchK] at h
      by_cases hc : c ∈ cs
      · simp only [hc, if_true] at h
        cases hk : k [c] [] rest with
        | some y =>
          rw [hk] at h
          simp only [Option.orElse] at h
          exact ⟨[c], [], rest, rfl, hk.trans h⟩
        | none =>
          rw [hk] at h
          simp only [Option.orElse] at h
          exact ⟨[], [], c :: rest, rfl, h⟩
      · simp only [hc, if_false] at h
        exact ⟨[], [], c :: rest, rfl, h⟩
  | lazyAny =>
    intro input k x h
    simp only [Regex.matchK] at h
    obtain ⟨consumed, rest, hk⟩ := lazyAnyK_some _ x input [] h
    exact ⟨consumed, [], rest, rfl, hk⟩
  | group r ih =>
    intro input k x h
    simp only [Regex.matchK] at h
    obtain ⟨consumed, caps, rest, hl, hk⟩ := ih input _ x h
    exact ⟨consumed, consumed :: caps, rest, by simp [Regex.numGroups, hl], hk⟩
  | seq a b iha ihb =>
    intro input k x h
    simp only [Regex.matchK] at h
    obtain ⟨c₁, caps₁, rest₁, hl₁, hk₁⟩ := iha input _ x h
    obtain ⟨c₂, caps₂, rest₂, hl₂, hk₂⟩ := ihb rest₁ _ x hk₁
    exact ⟨c₁ ++ c₂, caps₁ ++ caps₂, rest₂, by simp [Regex.numGroups, hl₁, hl₂], hk₂⟩

theorem matchAt_groups (re : Regex) (input consumed rest : List Char) (caps : List (List Char))
    (h : re.matchAt input = some (consumed, caps, rest)) : caps.length = re.numGroups := by
  obtain ⟨c, caps', r, hl, hk⟩ := matchK_some re input _ _ h
  simp only [Option.some.injEq, Prod.mk.injEq] at hk
  rw [← hk.2.1]
  exact hl

theorem findAllSubmatch_lengths (re : Regex) :
    ∀ (input : List Char) (skip : Nat), ∀ m ∈ findAllSubmatch re skip input,
      m.length = re.numGroups + 1 := by
  intro input
  induction input with
  | nil => intro skip m hm; simp [findAllSubmatch] at hm
  | cons c cs ih =>
    intro skip m hm
    cases skip with
    | succ skip =>
      simp only [findAllSubmatch] at hm
      exact ih _ m hm
    | zero =>
      simp only [findAllSubmatch] at hm
      cases hma : re.matchAt (c :: cs) with
      | none =>
        simp only [hma] at hm
        exact ih _ m hm
      | some t =>
        obtain ⟨consumed, caps, rest⟩ := t
        simp only [hma, List.mem_cons] at hm
        rcases hm with hm | hm
        · rw [hm]
          simp [matchAt_groups re _ _ _ _ hma]
        · exact ih _ m hm

theorem collectFiles_total (ms : List (List (List Char))) (h : ∀ m ∈ ms, 2 ≤ m.length) :
    ∃ files, collectFiles ms = some files := by
  induction ms with
  | nil => exact ⟨[], rfl⟩
  | cons m ms ih =>
    obtain ⟨files, hf⟩ := ih (fun m' hm' => h m' (List.mem_cons_of_mem _ hm'))
    have hm := h m (List.mem_cons_self _ _)
    have hlt : 1 < m.length := by omega
    have hget : m.get? 1 = some (m.get ⟨1, hlt⟩) := List.get?_eq_get hlt
    refine ⟨String.mk (m.get ⟨1, hlt⟩) :: files, ?_⟩
    simp only [collectFiles, hget, hf, Option.map_some']

theorem findAllSubmatch_none (re : Regex) :
    ∀ (input : List Char) (skip : Nat),
      (∀ t, t <:+ input → re.matchAt t = none) → findAllSubmatch re skip input = [] := by
  intro input
  induction input with
  | nil => intro skip _; simp [findAllSubmatch]
  | cons c cs ih =>
    intro skip h
    have hcs : ∀ t, t <:+ cs → re.matchAt t = none :=
      fun t ht => h t (ht.trans (List.suffix_cons c cs))
    cases skip with
    | succ skip =>
      simp only [findAllSubmatch]
      exact ih _ hcs
    | zero =>
      simp only [findAllSubmatch, h (c :: cs) (List.suffix_refl _)]
      exact ih _ hcs

theorem dropPrefix_some : ∀ (p input rest : List Char),
    dropPrefix p input = some rest → input = p ++ rest := by
  intro p
  induction p with
  | nil => intro input rest h; simpa [dropPrefix] using h
  | cons a p ih =>
    intro input rest h
    cases input with
    | nil => simp [dropPrefix] at h
    | cons c cs =>
      by_cases hac : a = c
      · subst hac
        simp only [dropPrefix, if_true] at h
        rw [ih cs rest h]
        rfl
      · simp [dropPrefix, hac] at h

theorem matchAt_script_none (input : List Char)
    (h : ¬ "<script".data <:+: input) :
    ∀ t, t <:+ input → ScriptSrcPattern.matchAt t = none := by
  intro t ht
  have hd : dropPrefix "<script".data t = none := by
    cases hd : dropPrefix "<script".data t with
    | none => rfl
    | some rest =>
      exfalso
      apply h
      have := dropPrefix_some _ _ _ hd
      obtain ⟨pre, hpre⟩ := ht
      exact ⟨pre, rest, by rw [← hpre, this, List.append_assoc]⟩
  simp only [Regex.matchAt, ScriptSrcPattern, Regex.matchK, hd]

theorem matchAt_script_first (rest : List Char) :
    ScriptSrcPattern.matchAt ("<script src=\"a.js\">".data ++ rest) =
      some ("<script src=\"a.js\">".data, ["a.js".data], rest) := by
  rfl

theorem findAllSubmatch_script_first (rest : List Char) :
    findAllSubmatch ScriptSrcPattern 0 ("<script src=\"a.js\">".data ++ rest) =
      ["<script src=\"a.js\">".data, "a.js".data] :: findAllSubmatch ScriptSrcPattern 0 rest := by
  have h := matchAt_script_first rest
  have hcons : "<script src=\"a.js\">".data ++ rest =
      '<' :: ("script src=\"a.js\">".data ++ rest) := rfl
  rw [hcons] at h ⊢
  simp only [findAllSubmatch, h]
  rfl

theorem GetJS_eq (body : String) :
    GetJS body = collectFiles (findAllSubmatch ScriptSrcPattern 0 body.data) := by
  simp [GetJS, runregex, FindAllStringSubmatch, RegexMatchLimit]

theorem runregex_eq (expr : Regex) (body : String) :
    runregex expr body = collectFiles (findAllSubmatch expr 0 body.data) := by
  simp [runregex, FindAllStringSubmatch, RegexMatchLimit]

theorem patterns_numGroups : ∀ expr ∈ patterns, expr.numGroups = 1 := by
  intro expr he
  simp only [patterns, List.mem_cons, List.mem_singleton, List.not_mem_nil, or_false] at he
  rcases he with rfl | rfl | rfl | rfl <;> rfl

/-- A pattern with a capturing group never makes `runregex` fail. -/
theorem runregex_total (expr : Regex) (h : 1 ≤ expr.numGroups) (body : String) :
    ∃ files, runregex expr body = some files := by
  rw [runregex_eq]
  apply collectFiles_total
  intro m hm
  have := findAllSubmatch_lengths expr _ _ m hm
  omega

theorem runregex_no_match (expr : Regex) (body : String)
    (h : ∀ t, t <:+ body.data → expr.matchAt t = none) : runregex expr body = some [] := by
  rw [runregex_eq, findAllSubmatch_none expr _ 0 h]
  rfl

/-- A pattern that begins with a literal text matches nowhere in a text that
does not contain the literal. -/
theorem matchAt_lit_seq_none (s : String) (r : Regex) (input : List Char)
    (h : ¬ s.data <:+: input) :
    ∀ t, t <:+ input → (Regex.seq (.lit s) r).matchAt t = none := by
  intro t ht
  have hd : dropPrefix s.data t = none := by
    cases hd : dropPrefix s.data t with
    | none => rfl
    | some rest =>
      exfalso
      apply h
      have := dropPrefix_some _ _ _ hd
      obtain ⟨pre, hpre⟩ := ht
      exact ⟨pre, rest, by rw [← hpre, this, List.append_assoc]⟩
  simp only [Regex.matchAt, Regex.matchK, hd]

theorem patterns_match_nowhere (input : List Char)
    (hjs : ¬ "<script".data <:+: input) (hcss : ¬ "<link".data <:+: input)
    (himg : ¬ "<img".data <:+: input) (hbg : ¬ "background-image".data <:+: input) :
    ∀ expr ∈ patterns, ∀ t, t <:+ input → expr.matchAt t = none := by
  intro expr he
  simp only [patterns, List.mem_cons, List.mem_singleton, List.not_mem_nil, or_false] at he
  rcases he with rfl | rfl | rfl | rfl
  · exact matchAt_lit_seq_none _ _ input hjs
  · exact matchAt_lit_seq_none _ _ input hcss
  · exact matchAt_lit_seq_none _ _ input himg
  · exact matchAt_lit_seq_none _ _ input hbg

theorem GetIMG_sample :
    GetIMG "<img src='a.png'><p style=\"background-image : url(b.png)\">" =
      some ["a.png", "b.png"] ∧
    GetCSS "<link rel=\"stylesheet\" href=\"a.css\">" = some ["a.css"] := by
  decide

/-- C23: pattern-mode extraction fails on no body.  For each of the four
patterns every match that `FindAllStringSubmatch` reports has two entries, the
text matched and the group that `runregex` indexes, and `runregex` returns;
`GetJS`, `GetCSS`, `GetIMG` and `ParseAllAssetsSequential` return; a pattern
that matches nowhere in the body gives the empty list, and when none of the
four matches anywhere the three lists are empty; and for every body that
consists of `<script src="a.js">` followed by a text without an occurrence of
"<script", `GetJS` returns exactly the list of "a.js". -/
theorem pattern_mode_never_fails (body : String) :
    (∀ expr ∈ patterns, ∀ m ∈ FindAllStringSubmatch expr body RegexMatchLimit, m.length = 2) ∧
    (∀ expr ∈ patterns, ∃ files, runregex expr body = some files) ∧
    (∃ js css img, GetJS body = some js ∧ GetCSS body = some css ∧ GetIMG body = some img ∧
      ParseAllAssetsSequential body = some (js, img, css)) ∧
    (∀ expr ∈ patterns, (∀ t, t <:+ body.data → expr.matchAt t = none) →
      runregex expr body = some []) ∧
    ((∀ expr ∈ patterns, ∀ t, t <:+ body.data → expr.matchAt t = none) →
      GetJS body = some [] ∧ GetCSS body = some [] ∧ GetIMG body = some [] ∧
        ParseAllAssetsSequential body = some ([], [], [])) ∧
    (∀ rest : String, body = "<script src=\"a.js\">" ++ rest →
      ¬ "<script".data <:+: rest.data → GetJS body = some ["a.js"]) := by
  refine ⟨?_, ?_, ?_, ?_, ?_, ?_⟩
  · intro expr he m hm
    have hm' : m ∈ findAllSubmatch expr 0 body.data := by
      simpa [FindAllStringSubmatch, RegexMatchLimit] using hm
    rw [findAllSubmatch_lengths expr _ _ m hm', patterns_numGroups expr he]
  · intro expr he
    exact runregex_total expr (by rw [patterns_numGroups expr he]) body
  · obtain ⟨js, hjs⟩ := runregex_total ScriptSrcPattern (by decide) body
    obtain ⟨css, hcss⟩ := runregex_total LinkHrefPattern (by decide) body
    obtain ⟨imgs, himgs⟩ := runregex_total ImageSrcPattern (by decide) body
    obtain ⟨bg, hbg⟩ := runregex_total BackgroundImagePattern (by decide) body
    have himg : GetIMG body = some (imgs ++ bg) := by
      simp only [GetIMG, hbg, himgs, Option.bind]
    refine ⟨js, css, imgs ++ bg, hjs, hcss, himg, ?_⟩
    have hj : GetJS body = some js := hjs
    have hc : GetCSS body = some css := hcss
    simp only [ParseAllAssetsSequential, hj, hc, himg, Option.bind]
  · intro expr _ h
    exact runregex_no_match expr body h
  · intro h
    have hj : GetJS body = some [] :=
      runregex_no_match ScriptSrcPattern body (h _ (by simp [patterns]))
    have hc : GetCSS body = some [] :=
      runregex_no_match LinkHrefPattern body (h _ (by simp [patterns]))
    have hi := runregex_no_match ImageSrcPattern body (h _ (by simp [patterns]))
    have hb := runregex_no_match BackgroundImagePattern body (h _ (by simp [patterns]))
    have himg : GetIMG body = some [] := by
      simp only [GetIMG, hb, hi, Option.bind, List.append_nil]
    refine ⟨hj, hc, himg, ?_⟩
    simp only [ParseAllAssetsSequential, hj, hc, himg, Option.bind]
  · intro rest hb hrest
    rw [GetJS_eq, hb, String.data_append, findAllSubmatch_script_first,
      findAllSubmatch_none ScriptSrcPattern _ 0 (matchAt_script_none _ hrest)]
    rfl

/-- Witness of C23: the script tag followed by malformed markup, where every
match of the four patterns has its group, and a body without any tag, where
all lists are empty. -/
theorem pattern_mode_never_fails_witness :
    (ScriptSrcPattern ∈ patterns ∧
      ["<script src=\"a.js\">".data, "a.js".data] ∈
        FindAllStringSubmatch ScriptSrcPattern ("<script src=\"a.js\">" ++ malformedRest)
          RegexMatchLimit ∧
      ["<script src=\"a.js\">".data, "a.js".data].length = 2) ∧
    (¬ "<script".data <:+: malformedRest.data ∧
      GetJS ("<script src=\"a.js\">" ++ malformedRest) = some ["a.js"]) ∧
    (BackgroundImagePattern ∈ patterns ∧
      (∀ t, t <:+ "no tags".data → BackgroundImagePattern.matchAt t = none) ∧
      runregex BackgroundImagePattern "no tags" = some []) ∧
    ((∀ expr ∈ patterns, ∀ t, t <:+ "no tags".data → expr.matchAt t = none) ∧
      GetJS "no tags" = some [] ∧ GetCSS "no tags" = some [] ∧ GetIMG "no tags" = some [] ∧
        ParseAllAssetsSequential "no tags" = some ([], [], [])) :=
  ⟨⟨by decide, by decide,
      (pattern_mode_never_fails ("<script src=\"a.js\">" ++ malformedRest)).1 ScriptSrcPattern
        (by decide) _ (by decide)⟩,
    ⟨by decide,
      (pattern_mode_never_fails ("<script src=\"a.js\">" ++ malformedRest)).2.2.2.2.2
        malformedRest rfl (by decide)⟩,
    ⟨by decide, matchAt_lit_seq_none _ _ _ (by decide),
      (pattern_mode_never_fails "no tags").2.2.2.1 BackgroundImagePattern (by decide)
        (matchAt_lit_seq_none _ _ _ (by decide))⟩,
    ⟨patterns_match_nowhere _ (by decide) (by decide) (by decide) (by decide),
      (pattern_mode_never_fails "no tags").2.2.2.2.1
        (patterns_match_nowhere _ (by decide) (by decide) (by decide) (by decide))⟩⟩

/-- C28, the code at the example of the claim: in the body
`<script>x</script><img src="b.png">` the script tag has no src attribute;
the `.*?` of the pattern runs on past the `>` of the script tag up to the
`src=` of the img tag, and `GetJS` returns the URL "b.png" of the image as a
script URL. -/
theorem GetJS_returns_img_src :
    GetJS "<script>x</script><img src=\"b.png\">" = some ["b.png"] := by
  decide

end Goperf
